import Mathlib

/-!
# Planet Scribbles storefront: orders, offers, events, meetups, payment, cart

A shallow embedding of `backend/routes/orders.js` (order creation and
cancellation) together with the part of `backend/models/Product.js` the two
handlers rely on, followed by the promotion evaluator (`models/Offer.js`,
`routes/offers.js`), the registration pipelines (`routes/events.js`,
`routes/meetups.js` and their models), the payment bridge
(`routes/payment.js`) and the totals of the client cart
(`frontend/src/contexts/CartContext.js`).

Modelling conventions.

* The product collection is a finite map keyed by `_id`, written as a function
  `ProductId → Option Product`; `Product.findById` is application and
  `product.save()` is a point update guarded by the schema validators of the
  path the handlers modify (`stock`, `min: 0`).
* The order collection is a list; the `_id` of an order is its position, and a
  new order is appended.
* Stock and quantities are integers (`ℤ`): the handler does not validate
  `item.quantity`, so a request may carry a negative one.  Money is an exact
  rational (`ℚ`); the rounding error of IEEE doubles is left out, except in the
  double-precision model of the offer evaluator (`validateOfferD`), which
  rounds every arithmetic operation as the JavaScript engine does.
* Every handler returns the store it leaves behind together with its response,
  because writes made before a failure stay in the database.
* `models/Order.js` is not among the sources.  `order.save()` stores the
  document as the handler built it, with the defaults the specification names
  (`status` and `paymentStatus` both pending).
* Failures of the database itself, malformed ids and non-numeric quantities
  are outside the model.
-/

namespace PlanetScribbles

abbrev ProductId := Nat
abbrev UserId := Nat
abbrev OrderId := Nat

/-- The fields of `productSchema` (models/Product.js) read or written by the
order pipeline.  The `_id` is the key under which the record is stored. -/
structure Product where
  name : String
  price : ℚ
  stock : ℤ
  isActive : Bool
deriving DecidableEq

/-- A chosen customization of a line item; `additionalCost` may be absent. -/
structure Customization where
  additionalCost : Option ℚ
deriving DecidableEq

/-- One entry of `req.body.items`. -/
structure RequestItem where
  product : ProductId
  quantity : ℤ
  customizations : Option (List Customization)
deriving DecidableEq

/-- One entry of `orderItems` as pushed at orders.js:50-55. -/
structure OrderItem where
  product : ProductId
  quantity : ℤ
  price : ℚ
  customizations : List Customization
deriving DecidableEq

/-- The four address fields checked by the validators at orders.js:14-17. -/
structure ShippingAddress where
  name : String
  street : String
  city : String
  zipCode : String
deriving DecidableEq

/-- The body of `POST /api/orders`. -/
structure OrderRequest where
  items : List RequestItem
  shippingAddress : ShippingAddress
deriving DecidableEq

/-- An order document.  The fields `subtotal`, `shipping`, `tax`, `total`,
`items` and `user` are the ones the handler passes to `new Order` at
orders.js:68-78; `status`, `paymentStatus` and `paymentId` are the ones read
and written by the cancel and payment handlers. -/
structure Order where
  user : UserId
  items : List OrderItem
  shippingAddress : ShippingAddress
  subtotal : ℚ
  shipping : ℚ
  tax : ℚ
  total : ℚ
  status : String
  paymentStatus : String
  paymentId : Option String
deriving DecidableEq

/-- Modelled from the spec: `models/Order.js` is not among the sources, so the
default of the `status` path is taken from section 4.2 ("Persist order with
status=pending, paymentStatus=pending"). -/
def defaultStatus : String := "pending"

/-- Modelled from the spec: the default of the `paymentStatus` path of the
order schema, which is not among the sources (section 4.2). -/
def defaultPaymentStatus : String := "pending"

abbrev Catalog := ProductId → Option Product

/-- The database as seen by the order pipeline. -/
structure Store where
  products : Catalog
  orders : List Order

/-- The responses of the two handlers other than success. -/
inductive OrderError where
  /-- 400 with the validator messages (orders.js:20-23). -/
  | validation
  /-- 400 "Product not found: id" (orders.js:33-35). -/
  | productNotFound (product : ProductId)
  /-- 400 "Insufficient stock for name. Available: n" (orders.js:37-41). -/
  | insufficientStock (name : String) (available : ℤ)
  /-- 404 "Order not found" (orders.js:151-153). -/
  | orderNotFound
  /-- 400 "Order cannot be cancelled" (orders.js:155-157). -/
  | cannotCancel
  /-- 500, the `catch` branch of either handler. -/
  | serverError
deriving DecidableEq

/-- The check `trim().notEmpty()` of express-validator: some character is not
white space.  White space is space, tab, carriage return and line feed; the
further characters the sanitizer strips (no-break space and the like) are
treated as ordinary characters. -/
def notEmptyTrimmed (s : String) : Bool :=
  s.toList.any fun c => !c.isWhitespace

/-- The validator chain at orders.js:12-18: `items` is an array with at least
one element and the four address fields are non-empty after trimming. -/
def validationOk (req : OrderRequest) : Bool :=
  !req.items.isEmpty &&
    notEmptyTrimmed req.shippingAddress.name &&
    notEmptyTrimmed req.shippingAddress.street &&
    notEmptyTrimmed req.shippingAddress.city &&
    notEmptyTrimmed req.shippingAddress.zipCode

/-- The expression at orders.js:43-45:
`item.customizations?.reduce((sum, c) => sum + (c.additionalCost || 0), 0) || 0`. -/
def customizationCost (customizations : Option (List Customization)) : ℚ :=
  match customizations with
  | none => 0
  | some cs => cs.foldl (fun sum custom => sum + custom.additionalCost.getD 0) 0

/-- The call `product.save()`: the validators of `productSchema` run first and
the `stock` path, the only one the handlers modify, has `min: 0`
(Product.js:52-56); a failed validation throws and nothing is written. -/
def saveProduct (c : Catalog) (id : ProductId) (p : Product) :
    Except OrderError Catalog :=
  if p.stock < 0 then .error .serverError
  else .ok (Function.update c id (some p))

/-- The accumulators of the loop at orders.js:28-29. -/
structure Totals where
  subtotal : ℚ
  orderItems : List OrderItem
deriving DecidableEq

/-- The loop at orders.js:31-60.  Returns the catalog as left in the database,
whether or not the loop ran to its end. -/
def processItems : Catalog → List RequestItem → Totals → Catalog × Except OrderError Totals
  | c, [], acc => (c, .ok acc)
  | c, item :: rest, acc =>
    match c item.product with
    | none => (c, .error (.productNotFound item.product))
    | some product =>
      if !product.isActive then (c, .error (.productNotFound item.product))
      else if product.stock < item.quantity then
        (c, .error (.insufficientStock product.name product.stock))
      else
        let itemTotal := (product.price + customizationCost item.customizations) * item.quantity
        let orderItem : OrderItem :=
          { product := item.product, quantity := item.quantity, price := product.price,
            customizations := item.customizations.getD [] }
        match saveProduct c item.product { product with stock := product.stock - item.quantity } with
        | .error e => (c, .error e)
        | .ok c' =>
          processItems c' rest
            { subtotal := acc.subtotal + itemTotal, orderItems := acc.orderItems ++ [orderItem] }

/-- The order document built at orders.js:62-78 from the loop's accumulators. -/
def buildOrder (user : UserId) (req : OrderRequest) (acc : Totals) : Order :=
  let subtotal := acc.subtotal
  let shipping : ℚ := if subtotal > 100 then 0 else 10
  let tax := subtotal * 0.08
  let total := subtotal + shipping + tax
  { user := user, items := acc.orderItems, shippingAddress := req.shippingAddress,
    subtotal := subtotal, shipping := shipping, tax := tax, total := total,
    status := defaultStatus, paymentStatus := defaultPaymentStatus, paymentId := none }

/-- Modelled from the spec: `order.save()` for a new document.  The order
schema (`models/Order.js`) is not among the sources; following section 4.2
("Persist order with status=pending, paymentStatus=pending") the document is
stored as built and becomes the last element of the collection. -/
def saveNewOrder (orders : List Order) (order : Order) : List Order :=
  orders ++ [order]

/-- The handler of `POST /api/orders` (orders.js:12-91) for the authenticated
user `user`.  The result is the store afterwards and the response. -/
def createOrder (s : Store) (user : UserId) (req : OrderRequest) :
    Store × Except OrderError Order :=
  if !validationOk req then (s, .error .validation)
  else
    match processItems s.products req.items { subtotal := 0, orderItems := [] } with
    | (c, .error e) => ({ s with products := c }, .error e)
    | (c, .ok acc) =>
      let order := buildOrder user req acc
      ({ products := c, orders := saveNewOrder s.orders order }, .ok order)

/-- The loop at orders.js:159-166.  The order was loaded with
`populate('items.product')`, so for a line item whose product no longer exists
`item.product` is `null` and `item.product._id` throws; otherwise the product
is found again and the guard `if (product)` holds. -/
def restoreStock : Catalog → List OrderItem → Catalog × Except OrderError Unit
  | c, [] => (c, .ok ())
  | c, item :: rest =>
    match c item.product with
    | none => (c, .error .serverError)
    | some product =>
      match saveProduct c item.product { product with stock := product.stock + item.quantity } with
      | .error e => (c, .error e)
      | .ok c' => restoreStock c' rest

/-- The handler of `PUT /api/orders/:id/cancel` (orders.js:144-179). -/
def cancelOrder (s : Store) (user : UserId) (id : OrderId) :
    Store × Except OrderError Order :=
  match s.orders[id]? with
  | none => (s, .error .orderNotFound)
  | some order =>
    if order.user ≠ user then (s, .error .orderNotFound)
    else if order.status ≠ "pending" then (s, .error .cannotCancel)
    else
      match restoreStock s.products order.items with
      | (c, .error e) => ({ s with products := c }, .error e)
      | (c, .ok _) =>
        let order' := { order with status := "cancelled" }
        ({ products := c, orders := s.orders.set id order' }, .ok order')


/-- Total quantity requested for product `pid` over the line items. -/
def quantityOrdered (items : List RequestItem) (pid : ProductId) : ℤ :=
  ((items.filter fun it => it.product = pid).map fun it => it.quantity).sum

/-- The catalog in which every product's stock is lowered by the quantity
requested for it in `items`; all other fields and all other products are
untouched. -/
def stockAfter (c : Catalog) (items : List RequestItem) : Catalog :=
  fun pid => (c pid).map fun p => { p with stock := p.stock - quantityOrdered items pid }

/-- The reason, if any, for which one item is refused against catalog `c`:
no such product or an inactive one, or more requested than in stock. -/
def itemError (c : Catalog) (item : RequestItem) : Option OrderError :=
  match c item.product with
  | none => some (.productNotFound item.product)
  | some p =>
    if p.isActive = false then some (.productNotFound item.product)
    else if p.stock < item.quantity then some (.insufficientStock p.name p.stock)
    else none

/-- Every item of `items` passes the two checks of the loop when the items are
taken in order, each against the stock left by the ones before it. -/
def accepted (c : Catalog) (items : List RequestItem) : Prop :=
  ∀ pre item post, items = pre ++ item :: post → itemError (stockAfter c pre) item = none

/-- The catalog price of a product (0 when there is no such product). -/
def unitPrice (c : Catalog) (pid : ProductId) : ℚ :=
  ((c pid).map fun p => p.price).getD 0

/-- The cost of one requested item as the specification words it: unit price
plus the additional costs of the chosen customizations (a missing cost or a
missing list counting as 0), times the quantity. -/
def lineTotal (c : Catalog) (item : RequestItem) : ℚ :=
  (unitPrice c item.product +
      ((item.customizations.getD []).map fun custom => custom.additionalCost.getD 0).sum) *
    item.quantity

/-- The line item recorded on the order for a requested item. -/
def lineOf (c : Catalog) (item : RequestItem) : OrderItem :=
  { product := item.product, quantity := item.quantity, price := unitPrice c item.product,
    customizations := item.customizations.getD [] }

/-! ### Concrete data used to exercise the theorems -/

def addr0 : ShippingAddress :=
  { name := "Ann", street := "1 Main St", city := "Oslo", zipCode := "0150" }

/-- Two products: business cards (29.99, 100 in stock) and a banner (60, 1 in
stock). -/
def cat0 : Catalog := fun i =>
  if i = 1 then some { name := "Business cards", price := 29.99, stock := 100, isActive := true }
  else if i = 2 then some { name := "Banner", price := 60, stock := 1, isActive := true }
  else none

def store0 : Store := { products := cat0, orders := [] }

/-- Two cards and one banner with two customizations, one of them free. -/
def req0 : OrderRequest :=
  { items :=
      [{ product := 1, quantity := 2, customizations := none },
       { product := 2, quantity := 1,
         customizations := some [{ additionalCost := some 5 }, { additionalCost := none }] }],
    shippingAddress := addr0 }

/-- The order `createOrder store0 7 req0` produces. -/
def order0 : Order :=
  { user := 7,
    items :=
      [{ product := 1, quantity := 2, price := 29.99, customizations := [] },
       { product := 2, quantity := 1, price := 60,
         customizations := [{ additionalCost := some 5 }, { additionalCost := none }] }],
    shippingAddress := addr0,
    subtotal := 124.98, shipping := 0, tax := 9.9984, total := 134.9784,
    status := "pending", paymentStatus := "pending", paymentId := none }

/-- Two cards, then five banners when only one is in stock. -/
def req1 : OrderRequest :=
  { items :=
      [{ product := 1, quantity := 2, customizations := none },
       { product := 2, quantity := 5, customizations := none }],
    shippingAddress := addr0 }

/-- One card at 29.99: the subtotal is 29.99 and 8% of it has four decimals. -/
def req2 : OrderRequest :=
  { items := [{ product := 1, quantity := 1, customizations := none }],
    shippingAddress := addr0 }

/-- The order `createOrder store0 7 req2` produces. -/
def order2 : Order :=
  { user := 7,
    items := [{ product := 1, quantity := 1, price := 29.99, customizations := [] }],
    shippingAddress := addr0,
    subtotal := 29.99, shipping := 10, tax := 2.3992, total := 42.3892,
    status := "pending", paymentStatus := "pending", paymentId := none }

/-- A product priced 50 and two of it ordered: the subtotal is exactly 100. -/
def store3 : Store :=
  { products := fun i =>
      if i = 1 then some { name := "Box", price := 50, stock := 10, isActive := true } else none,
    orders := [] }

def req3 : OrderRequest :=
  { items := [{ product := 1, quantity := 2, customizations := some [] }],
    shippingAddress := addr0 }

/-- The order `createOrder store3 7 req3` produces. -/
def order3 : Order :=
  { user := 7,
    items := [{ product := 1, quantity := 2, price := 50, customizations := [] }],
    shippingAddress := addr0,
    subtotal := 100, shipping := 10, tax := 8, total := 118,
    status := "pending", paymentStatus := "pending", paymentId := none }

/-- Rounding to two decimals, half up, as the specification's `round(x, 2)` and
as the offers route computes it (`Math.round(x * 100) / 100`). -/
def round2 (x : ℚ) : ℚ := (⌊x * 100 + 1 / 2⌋ : ℤ) / 100

/-- Total quantity recorded for product `pid` on the line items of an order. -/
def restoredQuantity (items : List OrderItem) (pid : ProductId) : ℤ :=
  ((items.filter fun it => it.product = pid).map fun it => it.quantity).sum

/-- The catalog in which every product's stock is raised by the quantity
recorded for it in `items`. -/
def stockRestored (c : Catalog) (items : List OrderItem) : Catalog :=
  fun pid => (c pid).map fun p => { p with stock := p.stock + restoredQuantity items pid }

/-- The two operations of the order pipeline that write product stock. -/
inductive Op where
  | create (user : UserId) (req : OrderRequest)
  | cancel (user : UserId) (id : OrderId)

/-- The store left behind by one operation, whatever its response. -/
def step (s : Store) : Op → Store
  | .create user req => (createOrder s user req).1
  | .cancel user id => (cancelOrder s user id).1

/-- The store left behind by a sequence of operations. -/
def run (s : Store) (ops : List Op) : Store := ops.foldl step s

/-- No product of the catalog has negative stock. -/
def stockNonneg (c : Catalog) : Prop := ∀ pid p, c pid = some p → 0 ≤ p.stock

/-- Labels (none in stock) and bags (one in stock). -/
def store4 : Store :=
  { products := fun i =>
      if i = 1 then some { name := "Label", price := 2, stock := 0, isActive := true }
      else if i = 2 then some { name := "Bag", price := 3, stock := 1, isActive := true }
      else none,
    orders := [] }

/-- Minus one label. -/
def req5 : OrderRequest :=
  { items := [{ product := 1, quantity := -1, customizations := none }],
    shippingAddress := addr0 }

/-- One label. -/
def req6 : OrderRequest :=
  { items := [{ product := 1, quantity := 1, customizations := none }],
    shippingAddress := addr0 }

/-- The store after `order0` was placed on `store0` and the business cards
(product 1) were then removed from the product collection. -/
def storeDeleted : Store :=
  { products := Function.update (createOrder store0 7 req0).1.products 1 none,
    orders := (createOrder store0 7 req0).1.orders }

/-! ## Offers (`backend/models/Offer.js`, `backend/routes/offers.js`) -/

/-- A point in time, in milliseconds since the epoch (the value of a `Date`). -/
abbrev Timestamp := ℤ

/-- The `enum` of the `type` path of `offerSchema` (Offer.js:13-17). -/
inductive OfferType where
  | percentage
  | fixed_amount
  | buy_one_get_one
  | free_shipping
deriving DecidableEq

/-- One entry of `usedBy` (Offer.js:54-64). -/
structure Usage where
  user : UserId
  orderNumber : String
deriving DecidableEq

/-- The fields of `offerSchema` read by the offer methods and by the validate
route.  `maximumDiscount` has no default and may be absent; `usageLimit`
defaults to `null`, which means unlimited. -/
structure Offer where
  title : String
  code : String
  type : OfferType
  value : ℚ
  minimumOrderAmount : ℚ
  maximumDiscount : Option ℚ
  applicableProducts : List ProductId
  applicableCategories : List String
  usageLimit : Option ℤ
  usageCount : ℤ
  userUsageLimit : ℤ
  usedBy : List Usage
  startDate : Timestamp
  endDate : Timestamp
  isActive : Bool
deriving DecidableEq

/-- The method `isValid` (Offer.js:95-101), with `new Date()` passed as `now`. -/
def Offer.isValid (offer : Offer) (now : Timestamp) : Bool :=
  offer.isActive &&
    decide (offer.startDate ≤ now) &&
    decide (offer.endDate ≥ now) &&
    (match offer.usageLimit with
      | none => true
      | some usageLimit => decide (offer.usageCount < usageLimit))

/-- The method `canUserUse` (Offer.js:104-112). -/
def Offer.canUserUse (offer : Offer) (userId : UserId) (now : Timestamp) : Bool :=
  if !offer.isValid now then false
  else
    let userUsage := (offer.usedBy.filter fun usage => usage.user = userId).length
    decide ((userUsage : ℤ) < offer.userUsageLimit)

/-- One entry of `req.body.cartItems`; the route reads these three fields. -/
structure CartItem where
  product : ProductId
  price : ℚ
  quantity : ℤ
deriving DecidableEq

/-- The body of `POST /api/offers/validate`. -/
structure ValidateRequest where
  code : String
  cartItems : List CartItem
  cartTotal : ℚ
deriving DecidableEq

/-- The summary of the offer returned with a successful validation. -/
structure OfferSummary where
  title : String
  code : String
  type : OfferType
  value : ℚ
deriving DecidableEq

/-- The body of the 200 response of the validate route (offers.js:171-181). -/
structure ValidateResponse where
  isValid : Bool
  discount : ℚ
  offer : OfferSummary
deriving DecidableEq

/-- The responses of the validate route other than success. -/
inductive OfferError where
  /-- 400 with the validator messages (offers.js:97-100). -/
  | validation
  /-- 404 "Invalid offer code" (offers.js:109-111). -/
  | invalidCode
  /-- 400 "Offer has expired or is not active" (offers.js:114-116). -/
  | notValid
  /-- 400 "You have already used this offer" (offers.js:119-121). -/
  | alreadyUsed
  /-- 400 "Minimum order amount of $m required" (offers.js:124-128). -/
  | belowMinimum (minimumOrderAmount : ℚ)
  /-- 400 "No applicable items in cart for this offer" (offers.js:144-146). -/
  | noApplicableItems
deriving DecidableEq

/-- The sanitizer `trim()`: white space removed at both ends, with the same
four white space characters as in `notEmptyTrimmed`. -/
def trim (s : String) : String :=
  String.mk ((s.toList.dropWhile Char.isWhitespace).reverse.dropWhile Char.isWhitespace).reverse

/-- The string method `toUpperCase`, on the letters `a` to `z`; other
characters are left as they are. -/
def toUpperCase (s : String) : String :=
  String.mk (s.toList.map Char.toUpper)

/-- The validator chain at offers.js:91-95.  `cartTotal` is a number that is
at least 0, `cartItems` has at least one element, and the code is not empty
once trimmed. -/
def validateRequestOk (req : ValidateRequest) : Bool :=
  notEmptyTrimmed req.code && !req.cartItems.isEmpty && decide (0 ≤ req.cartTotal)

/-- The query `Offer.findOne({ code: code.toUpperCase(), isActive: true })`
(offers.js:104-107); `code` was trimmed in place by the validator chain. -/
def findOffer (offers : List Offer) (code : String) : Option Offer :=
  offers.find? fun offer => offer.code = toUpperCase (trim code) && offer.isActive

/-- The effect of `.populate('applicableProducts')` on the list of references:
the products that exist, in the stored order; a reference to a product that no
longer exists is dropped. -/
def populateProducts (products : Catalog) (ids : List ProductId) : List ProductId :=
  ids.filter fun id => (products id).isSome

/-- The selection at offers.js:132-142.  `applicableProducts` is the populated
list.  The branch on `applicableCategories` has an empty body. -/
def applicableItems (applicableProducts : List ProductId) (applicableCategories : List String)
    (cartItems : List CartItem) : List CartItem :=
  if applicableProducts.length > 0 then
    cartItems.filter fun item => applicableProducts.any fun p => p = item.product
  else if applicableCategories.length > 0 then
    cartItems
  else
    cartItems

/-- The reduction at offers.js:148. -/
def applicableTotal (items : List CartItem) : ℚ :=
  items.foldl (fun sum item => sum + item.price * item.quantity) 0

/-- The `switch` at offers.js:150-164. -/
def typeDiscount (offer : Offer) (applicableTotal : ℚ) : ℚ :=
  match offer.type with
  | .percentage => applicableTotal * (offer.value / 100)
  | .fixed_amount => min offer.value applicableTotal
  | .free_shipping => 10
  | .buy_one_get_one => applicableTotal * 0.5

/-- The cap at offers.js:166-169.  The guard `offer.maximumDiscount && ...`
is false when the field is absent and also when it is 0. -/
def applyMaximum (offer : Offer) (discount : ℚ) : ℚ :=
  match offer.maximumDiscount with
  | none => discount
  | some maximumDiscount =>
    if maximumDiscount ≠ 0 ∧ discount > maximumDiscount then maximumDiscount else discount

/-- The function `Math.round`: the nearest integer, a half going up. -/
def mathRound (x : ℚ) : ℤ := ⌊x + 1 / 2⌋

/-- The expression `Math.round(discount * 100) / 100` at offers.js:173. -/
def roundDiscount (discount : ℚ) : ℚ := (mathRound (discount * 100) : ℚ) / 100

/-- The handler of `POST /api/offers/validate` (offers.js:91-186) for the
authenticated user `user` at time `now`.  It reads the offers and, through
`populate`, the products; it writes nothing. -/
def validateOffer (products : Catalog) (offers : List Offer) (user : UserId) (now : Timestamp)
    (req : ValidateRequest) : Except OfferError ValidateResponse :=
  if !validateRequestOk req then .error .validation
  else
    match findOffer offers req.code with
    | none => .error .invalidCode
    | some offer =>
      if !offer.isValid now then .error .notValid
      else if !offer.canUserUse user now then .error .alreadyUsed
      else if req.cartTotal < offer.minimumOrderAmount then
        .error (.belowMinimum offer.minimumOrderAmount)
      else
        let items := applicableItems (populateProducts products offer.applicableProducts)
          offer.applicableCategories req.cartItems
        if items.length = 0 then .error .noApplicableItems
        else
          let discount := applyMaximum offer (typeDiscount offer (applicableTotal items))
          .ok { isValid := true, discount := roundDiscount discount,
                offer := { title := offer.title, code := offer.code, type := offer.type,
                           value := offer.value } }

/-! ### Concrete offers and carts -/

/-- A 20% offer, open from time 1000 to time 2000, at most once per user,
with a minimum order of 25 and no cap. -/
def offerA : Offer :=
  { title := "Spring sale", code := "SPRING20", type := .percentage, value := 20,
    minimumOrderAmount := 25, maximumDiscount := none, applicableProducts := [],
    applicableCategories := [], usageLimit := some 100, usageCount := 3, userUsageLimit := 1,
    usedBy := [{ user := 4, orderNumber := "PS-0001" }], startDate := 1000, endDate := 2000,
    isActive := true }

/-- The same offer capped at 5. -/
def offerB : Offer := { offerA with maximumDiscount := some 5 }

/-- The same offer with `maximumDiscount` set to 0. -/
def offerC : Offer := { offerA with maximumDiscount := some 0 }

/-- Three items at 12.50: the applicable total is 37.50. -/
def reqA : ValidateRequest :=
  { code := " spring20 ", cartItems := [{ product := 1, price := 12.5, quantity := 3 }],
    cartTotal := 37.5 }

/-- The response to `reqA` under `offerA`. -/
def respA : ValidateResponse :=
  { isValid := true, discount := 7.5,
    offer := { title := "Spring sale", code := "SPRING20", type := .percentage, value := 20 } }

/-- The response to `reqA` under `offerB`. -/
def respB : ValidateResponse := { respA with discount := 5 }

/-- The sample offer restricted to two products, of which only the first is
in the catalog. -/
def offerD : Offer := { offerA with applicableProducts := [1, 9] }

/-- A cart of one card and one banner; the supplied total is 89.99. -/
def reqD : ValidateRequest :=
  { code := "SPRING20",
    cartItems := [{ product := 1, price := 29.99, quantity := 1 },
                  { product := 2, price := 60, quantity := 1 }],
    cartTotal := 89.99 }

/-! ## Events and meetups (`backend/models/Event.js`, `backend/models/Meetup.js`,
`backend/routes/events.js`, `backend/routes/meetups.js`)

Both collections are finite maps keyed by `_id`.  `event.save()` and
`meetup.save()` store the document as the handler left it: the only path the
handlers modify is the participant list, and the values they put in it are
members of the schema enums. -/

abbrev EventId := Nat
abbrev MeetupId := Nat

/-- The `enum` of `registrations.status` (Event.js:60-64). -/
inductive RegistrationStatus where
  | registered
  | attended
  | cancelled
deriving DecidableEq

/-- The `enum` of `registrations.paymentStatus` (Event.js:65-69). -/
inductive RegistrationPayment where
  | pending
  | paid
  | refunded
deriving DecidableEq

/-- One entry of `registrations` (Event.js:51-70). -/
structure Registration where
  user : UserId
  registeredAt : Timestamp
  status : RegistrationStatus
  paymentStatus : RegistrationPayment
deriving DecidableEq

/-- The fields of `eventSchema` read or written by the registration routes. -/
structure Event where
  title : String
  date : Timestamp
  price : ℚ
  capacity : ℤ
  registrations : List Registration
  isActive : Bool
deriving DecidableEq

abbrev Events := EventId → Option Event

/-- The responses of the two registration routes other than success. -/
inductive EventError where
  /-- 404 "Event not found" (events.js:87-89, 141-143). -/
  | notFound
  /-- 400 "Cannot register for past events" (events.js:92-94). -/
  | pastDeadline
  /-- 400 "Already registered for this event" (events.js:101-103). -/
  | alreadyRegistered
  /-- 400 "Event is full" (events.js:107-109). -/
  | full
  /-- 400 "Not registered for this event" (events.js:150-152). -/
  | notRegistered
  /-- 400 "Cannot cancel registration less than 24 hours before event"
  (events.js:159-163). -/
  | cancelDeadline
deriving DecidableEq

/-- The entry pushed at events.js:112-115; `registeredAt` and `status` take
their schema defaults, the current time and `registered`. -/
def newRegistration (event : Event) (user : UserId) (now : Timestamp) : Registration :=
  { user := user, registeredAt := now, status := .registered,
    paymentStatus := if event.price > 0 then .pending else .paid }

/-- The handler of `POST /api/events/:id/register` (events.js:83-132) for the
authenticated user `user` at time `now`. -/
def registerForEvent (events : Events) (id : EventId) (user : UserId) (now : Timestamp) :
    Events × Except EventError Event :=
  match events id with
  | none => (events, .error .notFound)
  | some event =>
    if !event.isActive then (events, .error .notFound)
    else if event.date < now then (events, .error .pastDeadline)
    else
      match event.registrations.find? fun reg => reg.user = user with
      | some _ => (events, .error .alreadyRegistered)
      | none =>
        let activeRegistrations := event.registrations.filter fun reg => reg.status = .registered
        if (activeRegistrations.length : ℤ) ≥ event.capacity then (events, .error .full)
        else
          let saved : Event :=
            { event with registrations := event.registrations ++ [newRegistration event user now] }
          (Function.update events id (some saved), .ok saved)

/-- The handler of `DELETE /api/events/:id/register` (events.js:137-173).
`findIndex` answers -1 when no entry matches, here `none`. -/
def cancelRegistration (events : Events) (id : EventId) (user : UserId) (now : Timestamp) :
    Events × Except EventError Unit :=
  match events id with
  | none => (events, .error .notFound)
  | some event =>
    if !event.isActive then (events, .error .notFound)
    else
      match event.registrations.findIdx? fun reg => reg.user = user with
      | none => (events, .error .notRegistered)
      | some registrationIndex =>
        let hoursUntilEvent : ℚ := ((event.date - now : ℤ) : ℚ) / (1000 * 60 * 60)
        if hoursUntilEvent < 24 then (events, .error .cancelDeadline)
        else
          let saved : Event :=
            { event with registrations := event.registrations.eraseIdx registrationIndex }
          (Function.update events id (some saved), .ok ())

/-- The `enum` of `attendees.status` (Meetup.js:52-56). -/
inductive AttendeeStatus where
  | joined
  | maybe
  | declined
deriving DecidableEq

/-- One entry of `attendees` (Meetup.js:43-57). -/
structure Attendee where
  user : UserId
  joinedAt : Timestamp
  status : AttendeeStatus
deriving DecidableEq

/-- The fields of `meetupSchema` read or written by the join routes. -/
structure Meetup where
  title : String
  date : Timestamp
  maxAttendees : ℤ
  attendees : List Attendee
  requiresApproval : Bool
  isActive : Bool
deriving DecidableEq

abbrev Meetups := MeetupId → Option Meetup

/-- The responses of the two join routes other than success. -/
inductive MeetupError where
  /-- 404 "Meetup not found" (meetups.js:123-125, 178-180). -/
  | notFound
  /-- 400 "Cannot join past meetups" (meetups.js:128-130). -/
  | pastDeadline
  /-- 400 "Already joined this meetup" (meetups.js:137-139). -/
  | alreadyRegistered
  /-- 400 "Meetup is full" (meetups.js:143-145). -/
  | full
  /-- 400 "Not attending this meetup" (meetups.js:187-189). -/
  | notAttending
deriving DecidableEq

/-- The entry pushed at meetups.js:148-151; `joinedAt` takes its schema
default, the current time. -/
def newAttendee (meetup : Meetup) (user : UserId) (now : Timestamp) : Attendee :=
  { user := user, joinedAt := now,
    status := if meetup.requiresApproval then .maybe else .joined }

/-- The handler of `POST /api/meetups/:id/join` (meetups.js:119-169). -/
def joinMeetup (meetups : Meetups) (id : MeetupId) (user : UserId) (now : Timestamp) :
    Meetups × Except MeetupError Meetup :=
  match meetups id with
  | none => (meetups, .error .notFound)
  | some meetup =>
    if !meetup.isActive then (meetups, .error .notFound)
    else if meetup.date < now then (meetups, .error .pastDeadline)
    else
      match meetup.attendees.find? fun att => att.user = user with
      | some _ => (meetups, .error .alreadyRegistered)
      | none =>
        let activeAttendees := meetup.attendees.filter fun att => att.status = .joined
        if (activeAttendees.length : ℤ) ≥ meetup.maxAttendees then (meetups, .error .full)
        else
          let saved : Meetup :=
            { meetup with attendees := meetup.attendees ++ [newAttendee meetup user now] }
          (Function.update meetups id (some saved), .ok saved)

/-- The handler of `DELETE /api/meetups/:id/join` (meetups.js:174-199). -/
def leaveMeetup (meetups : Meetups) (id : MeetupId) (user : UserId) :
    Meetups × Except MeetupError Unit :=
  match meetups id with
  | none => (meetups, .error .notFound)
  | some meetup =>
    if !meetup.isActive then (meetups, .error .notFound)
    else
      match meetup.attendees.findIdx? fun att => att.user = user with
      | none => (meetups, .error .notAttending)
      | some attendeeIndex =>
        let saved : Meetup :=
          { meetup with attendees := meetup.attendees.eraseIdx attendeeIndex }
        (Function.update meetups id (some saved), .ok ())

/-- The number of registrations counted against the capacity of an event, as
in events.js:106 and in the virtual `availableSpots` (Event.js:100-102). -/
def Event.activeCount (event : Event) : ℕ :=
  (event.registrations.filter fun reg => reg.status = .registered).length

/-- The number of attendees counted against `maxAttendees`, as in
meetups.js:142 and in the virtual `availableSpots` (Meetup.js:85-87). -/
def Meetup.activeCount (meetup : Meetup) : ℕ :=
  (meetup.attendees.filter fun att => att.status = .joined).length

/-- No event has more active registrations than its capacity. -/
def eventsWithinCapacity (events : Events) : Prop :=
  ∀ id event, events id = some event → (event.activeCount : ℤ) ≤ event.capacity

/-- No meetup has more joined attendees than `maxAttendees`. -/
def meetupsWithinCapacity (meetups : Meetups) : Prop :=
  ∀ id meetup, meetups id = some meetup → (meetup.activeCount : ℤ) ≤ meetup.maxAttendees

/-- The two operations on the registrations of events. -/
inductive EventOp where
  | register (id : EventId) (user : UserId) (now : Timestamp)
  | cancel (id : EventId) (user : UserId) (now : Timestamp)

/-- The two operations on the attendees of meetups. -/
inductive MeetupOp where
  | join (id : MeetupId) (user : UserId) (now : Timestamp)
  | leave (id : MeetupId) (user : UserId)

/-- The collection left behind by one operation, whatever its response. -/
def eventStep (events : Events) : EventOp → Events
  | .register id user now => (registerForEvent events id user now).1
  | .cancel id user now => (cancelRegistration events id user now).1

/-- The collection left behind by one operation, whatever its response. -/
def meetupStep (meetups : Meetups) : MeetupOp → Meetups
  | .join id user now => (joinMeetup meetups id user now).1
  | .leave id user => (leaveMeetup meetups id user).1

/-- The events left behind by a sequence of operations. -/
def runEvents (events : Events) (ops : List EventOp) : Events := ops.foldl eventStep events

/-- The meetups left behind by a sequence of operations. -/
def runMeetups (meetups : Meetups) (ops : List MeetupOp) : Meetups :=
  ops.foldl meetupStep meetups

/-! ### Concrete events and meetups -/

/-- A workshop at time 100000 with a single seat and no registration yet. -/
def eventA : Event :=
  { title := "Letterpress workshop", date := 100000, price := 15, capacity := 1,
    registrations := [], isActive := true }

def eventsA : Events := fun i => if i = 1 then some eventA else none

/-- A meetup for two that does not require approval, with no attendee yet. -/
def meetupA : Meetup :=
  { title := "Packaging designers", date := 100000, maxAttendees := 2, attendees := [],
    requiresApproval := false, isActive := true }

/-- A meetup for two that requires approval, with no attendee yet. -/
def meetupB : Meetup := { meetupA with requiresApproval := true }

def meetupsA : Meetups := fun i =>
  if i = 1 then some meetupA else if i = 2 then some meetupB else none

/-! ## Participant lists: uniqueness and approval-gated joins -/

/-- No event lists a user twice. -/
def eventsUnique (events : Events) : Prop :=
  ∀ id event, events id = some event → (event.registrations.map fun reg => reg.user).Nodup

/-- No meetup lists a user twice. -/
def meetupsUnique (meetups : Meetups) : Prop :=
  ∀ id meetup, meetups id = some meetup → (meetup.attendees.map fun att => att.user).Nodup

/-- Whether the users of the list, joining the meetup one after the other at
time `now`, are all accepted. -/
def joinsSucceed (meetups : Meetups) (id : MeetupId) (now : Timestamp) : List UserId → Bool
  | [] => true
  | user :: rest =>
    (joinMeetup meetups id user now).2.toBool &&
      joinsSucceed (joinMeetup meetups id user now).1 id now rest

/-- A user id above every id in the list. -/
def freshUser (users : List UserId) : UserId := users.foldr max 0 + 1

/-! ## Payment bridge (`backend/routes/payment.js`)

The payment processor is outside the repository.  What it answers is an input
of the handlers: the status it reports for a payment intent, the id of the
intent it creates, and whether it accepts the signature of a webhook request. -/

/-- The responses of the payment routes other than success. -/
inductive PaymentError where
  /-- 400 with the validator messages (payment.js:72-75). -/
  | validation
  /-- 404 "Order not found" (payment.js:29-31, 92-94). -/
  | orderNotFound
  /-- 400 "Order is already paid" (payment.js:33-35). -/
  | alreadyPaid
  /-- 400 "Payment not completed" (payment.js:82-84). -/
  | paymentNotCompleted
  /-- 400 "Webhook Error: ..." (payment.js:124-127). -/
  | webhookSignature
  /-- 500, the `catch` branch of a route. -/
  | serverError
deriving DecidableEq

/-- The call `stripe.paymentIntents.retrieve(id)`: the status the processor
reports for the intent, or `none` when the call throws. -/
abbrev Processor := String → Option String

/-- The sequence `Order.findOne(filter)`, assignments `change`, `order.save()`:
the first document matching the filter is replaced by the changed one, which is
returned with the collection; `none` when no document matches. -/
def updateFirst (filter : Order → Bool) (change : Order → Order) :
    List Order → Option (Order × List Order)
  | [] => none
  | order :: rest =>
    if filter order then some (change order, change order :: rest)
    else (updateFirst filter change rest).map fun found => (found.1, order :: found.2)

/-- The assignments at payment.js:96-97 and 138-139. -/
def markPaid (order : Order) : Order :=
  { order with paymentStatus := "paid", status := "confirmed" }

/-- The assignment at payment.js:154. -/
def markFailed (order : Order) : Order :=
  { order with paymentStatus := "failed" }

/-- The handler of `POST /api/payment/create-intent` (payment.js:12-63) for
the authenticated user.  `created` is the id of the intent the processor
creates, or `none` when the call throws. -/
def createPaymentIntent (s : Store) (user : UserId) (orderId : OrderId)
    (created : Option String) : Store × Except PaymentError String :=
  match s.orders[orderId]? with
  | none => (s, .error .orderNotFound)
  | some order =>
    if order.user ≠ user then (s, .error .orderNotFound)
    else if order.paymentStatus = "paid" then (s, .error .alreadyPaid)
    else
      match created with
      | none => (s, .error .serverError)
      | some paymentIntentId =>
        ({ s with orders := s.orders.set orderId { order with paymentId := some paymentIntentId } },
          .ok paymentIntentId)

/-- The handler of `POST /api/payment/confirm` (payment.js:68-113) for the
authenticated user. -/
def confirmPayment (processor : Processor) (s : Store) (user : UserId)
    (paymentIntentId : String) : Store × Except PaymentError Order :=
  if paymentIntentId = "" then (s, .error .validation)
  else
    match processor paymentIntentId with
    | none => (s, .error .serverError)
    | some status =>
      if status ≠ "succeeded" then (s, .error .paymentNotCompleted)
      else
        match updateFirst
            (fun order => order.paymentId = some paymentIntentId && order.user = user)
            markPaid s.orders with
        | none => (s, .error .orderNotFound)
        | some (saved, orders) => ({ s with orders := orders }, .ok saved)

/-- The event carried by a webhook request: `event.type` and
`event.data.object.id`. -/
structure WebhookEvent where
  type : String
  paymentIntentId : String
deriving DecidableEq

/-- A request to `POST /api/payment/webhook`: the event in its body, and
whether the processor's library accepts the signature header for that body. -/
structure WebhookRequest where
  signatureValid : Bool
  event : WebhookEvent
deriving DecidableEq

/-- The call `stripe.webhooks.constructEvent(body, sig, secret)`: the event
when the signature is accepted; it throws otherwise. -/
def constructEvent (req : WebhookRequest) : Option WebhookEvent :=
  if req.signatureValid then some req.event else none

/-- The handler of `POST /api/payment/webhook` (payment.js:118-168).  The
answer `.ok ()` is the acknowledgement `{ received: true }`. -/
def webhook (s : Store) (req : WebhookRequest) : Store × Except PaymentError Unit :=
  match constructEvent req with
  | none => (s, .error .webhookSignature)
  | some event =>
    if event.type = "payment_intent.succeeded" then
      match updateFirst (fun order => order.paymentId = some event.paymentIntentId)
          markPaid s.orders with
      | none => (s, .ok ())
      | some (_, orders) => ({ s with orders := orders }, .ok ())
    else if event.type = "payment_intent.payment_failed" then
      match updateFirst (fun order => order.paymentId = some event.paymentIntentId)
          markFailed s.orders with
      | none => (s, .ok ())
      | some (_, orders) => ({ s with orders := orders }, .ok ())
    else (s, .ok ())

/-! ## Client cart (`frontend/src/contexts/CartContext.js`) -/

/-- One entry of `state.items` as built by `ADD_TO_CART` (CartContext.js:29-35);
`product` stands for `product._id`. -/
structure CartEntry where
  id : String
  product : ProductId
  quantity : ℤ
  customizations : List Customization
  price : ℚ
deriving DecidableEq

/-- The state of the cart reducer (CartContext.js:6-10). -/
structure CartState where
  items : List CartEntry
  total : ℚ
  itemCount : ℤ
deriving DecidableEq

/-- The case `CALCULATE_TOTALS` of `cartReducer` (CartContext.js:70-86). -/
def calculateTotals (state : CartState) : CartState :=
  let total : ℚ := state.items.foldl (fun (sum : ℚ) (item : CartEntry) =>
    let customizationCost : ℚ := item.customizations.foldl
      (fun customSum custom => customSum + custom.additionalCost.getD 0) 0
    sum + (item.price + customizationCost) * (item.quantity : ℚ)) 0
  let itemCount : ℤ := state.items.foldl (fun count item => count + item.quantity) 0
  { state with total := total, itemCount := itemCount }

/-- The order line requested for a cart entry: the same product, quantity and
customizations list. -/
def CartEntry.toRequestItem (item : CartEntry) : RequestItem :=
  { product := item.product, quantity := item.quantity,
    customizations := some item.customizations }

/-- An event starting at hour 100 (in milliseconds) with three registrations,
two of them of users 7 and 8. -/
def eventB : Event :=
  { title := "Packaging seminar", date := 360000000, price := 0, capacity := 5,
    registrations :=
      [{ user := 8, registeredAt := 10, status := .registered, paymentStatus := .paid },
       { user := 7, registeredAt := 20, status := .attended, paymentStatus := .paid },
       { user := 9, registeredAt := 30, status := .registered, paymentStatus := .paid }],
    isActive := true }

def eventsB : Events := fun i => if i = 1 then some eventB else none

/-- A meetup with three attendees. -/
def meetupC : Meetup :=
  { title := "Print makers", date := 360000000, maxAttendees := 5,
    attendees :=
      [{ user := 8, joinedAt := 10, status := .joined },
       { user := 7, joinedAt := 20, status := .maybe },
       { user := 9, joinedAt := 30, status := .joined }],
    requiresApproval := false, isActive := true }

def meetupsC : Meetups := fun i => if i = 1 then some meetupC else none

/-- A meetup for two that requires approval, in the collection under id 1. -/
def meetupsD : Meetups := fun i => if i = 1 then some meetupB else none

/-! ### Concrete orders awaiting payment -/

/-- The order of `req0` once a payment intent was attached to it. -/
def orderP : Order := { order0 with paymentId := some "pi_1" }

/-- An order that was cancelled after a payment intent was attached to it. -/
def orderQ : Order := { order3 with paymentId := some "pi_2", status := "cancelled" }

def storeP : Store := { products := cat0, orders := [orderP, orderQ] }

/-- A processor that reports `pi_1` as succeeded and `pi_2` as still
processing, and knows no other intent. -/
def processorP : Processor := fun id =>
  if id = "pi_1" then some "succeeded" else if id = "pi_2" then some "processing" else none

def succeededP (paymentIntentId : String) : WebhookRequest :=
  { signatureValid := true,
    event := { type := "payment_intent.succeeded", paymentIntentId := paymentIntentId } }

def failedP (paymentIntentId : String) : WebhookRequest :=
  { signatureValid := true,
    event := { type := "payment_intent.payment_failed", paymentIntentId := paymentIntentId } }

def forgedP : WebhookRequest :=
  { signatureValid := false,
    event := { type := "payment_intent.succeeded", paymentIntentId := "pi_1" } }

/-- The store reached from `store0` by creating the order of `req0`, attaching
the payment intent `pi_1` to it and cancelling it: the order is cancelled and
the stock is back to what it was. -/
def storeCancelled : Store :=
  (cancelOrder (createPaymentIntent (createOrder store0 7 req0).1 7 0 (some "pi_1")).1 7 0).1

/-- One item at 12.50, with a supplied cart total of 37.50: the items sum to
less than the minimum order amount 25 of the sample offer. -/
def reqE : ValidateRequest :=
  { code := "SPRING20", cartItems := [{ product := 1, price := 12.5, quantity := 1 }],
    cartTotal := 37.5 }

/-- The catalog `cat0` with other prices and stock. -/
def cat1 : Catalog := fun i =>
  if i = 1 then some { name := "Business cards", price := 1000, stock := 0, isActive := false }
  else if i = 2 then some { name := "Banner", price := 2000, stock := 0, isActive := true }
  else none

/-- The cart holding the lines of `req0`, each at the catalog price. -/
def cartA : CartState :=
  { items :=
      [{ id := "1-1700000000000", product := 1, quantity := 2, customizations := [],
         price := 29.99 },
       { id := "2-1700000000001", product := 2, quantity := 1,
         customizations := [{ additionalCost := some 5 }, { additionalCost := none }],
         price := 60 }],
    total := 0, itemCount := 0 }

/-- The order request for the cart `cartA`. -/
def reqCartA : OrderRequest :=
  { items := cartA.items.map CartEntry.toRequestItem, shippingAddress := addr0 }

/-! ## The promotion evaluator in double precision

JavaScript numbers are IEEE 754 doubles.  The definitions above compute with
exact rationals; the ones below repeat the arithmetic of the validate route
(offers.js:148-173) with every operation rounded to a double, so that the
value the route really returns can be stated. -/

/-- Rounding to the nearest integer, a tie going to the even one. -/
def roundHalfEven (x : ℚ) : ℤ :=
  if x - ⌊x⌋ < 1 / 2 then ⌊x⌋
  else if 1 / 2 < x - ⌊x⌋ then ⌊x⌋ + 1
  else if ⌊x⌋ % 2 = 0 then ⌊x⌋ else ⌊x⌋ + 1

/-- The value of type Number nearest to the real number `x`: IEEE 754 binary64,
that is 53 significant bits, rounding to nearest, a tie going to the even
significand, with the exponent not below -1022 (below it the spacing stays
`2 ^ (-1074)`).  Every arithmetic operation of the handler returns the exact
result rounded this way.  Overflow to `Infinity` (results of `2 ^ 1024` and
above) is outside the model. -/
def toDouble (x : ℚ) : ℚ :=
  if x = 0 then 0
  else
    let e := max (Int.log 2 |x|) (-1022)
    (roundHalfEven (x / 2 ^ (e - 52)) : ℚ) * 2 ^ (e - 52)

/-- The reduction at offers.js:148 in double precision: each product and each
sum is rounded. -/
def applicableTotalD (items : List CartItem) : ℚ :=
  items.foldl (fun sum item => toDouble (sum + toDouble (item.price * item.quantity))) 0

/-- The `switch` at offers.js:150-164 in double precision. -/
def typeDiscountD (offer : Offer) (applicableTotal : ℚ) : ℚ :=
  match offer.type with
  | .percentage => toDouble (applicableTotal * toDouble (offer.value / 100))
  | .fixed_amount => min offer.value applicableTotal
  | .free_shipping => 10
  | .buy_one_get_one => toDouble (applicableTotal * 0.5)

/-- The expression `Math.round(discount * 100) / 100` at offers.js:173 in
double precision: the product is rounded to a Number, `Math.round` takes that
Number to the nearest integer, a half going up, and the quotient is rounded to
a Number again. -/
def roundDiscountD (discount : ℚ) : ℚ :=
  toDouble ((mathRound (toDouble (discount * 100)) : ℚ) / 100)

/-- The handler of `POST /api/offers/validate` (offers.js:91-186) with its
arithmetic carried out in double precision, as the JavaScript engine does.
The numeric fields of the request and of the offer hold the Numbers the
handler sees; a JSON numeral `x` is read as `toDouble x`. -/
def validateOfferD (products : Catalog) (offers : List Offer) (user : UserId) (now : Timestamp)
    (req : ValidateRequest) : Except OfferError ValidateResponse :=
  if !validateRequestOk req then .error .validation
  else
    match findOffer offers req.code with
    | none => .error .invalidCode
    | some offer =>
      if !offer.isValid now then .error .notValid
      else if !offer.canUserUse user now then .error .alreadyUsed
      else if req.cartTotal < offer.minimumOrderAmount then
        .error (.belowMinimum offer.minimumOrderAmount)
      else
        let items := applicableItems (populateProducts products offer.applicableProducts)
          offer.applicableCategories req.cartItems
        if items.length = 0 then .error .noApplicableItems
        else
          let discount := applyMaximum offer (typeDiscountD offer (applicableTotalD items))
          .ok { isValid := true, discount := roundDiscountD discount,
                offer := { title := offer.title, code := offer.code, type := offer.type,
                           value := offer.value } }

/-- The sample offer at 10%. -/
def offerE : Offer := { offerA with value := 10 }

/-- One item priced 40.15, as the request body carries it once parsed. -/
def reqF : ValidateRequest :=
  { code := "SPRING20", cartItems := [{ product := 1, price := toDouble 40.15, quantity := 1 }],
    cartTotal := toDouble 40.15 }

/-- One item priced 25.45. -/
def reqG : ValidateRequest :=
  { code := "SPRING20", cartItems := [{ product := 1, price := toDouble 25.45, quantity := 1 }],
    cartTotal := toDouble 25.45 }

/-- The successful response for the sample offer at 10% with discount `d`. -/
def respE (d : ℚ) : ValidateResponse :=
  { isValid := true, discount := d,
    offer := { title := "Spring sale", code := "SPRING20", type := .percentage, value := 10 } }

/-! ## Properties of the order pipeline -/

theorem quantityOrdered_nil (pid : ProductId) : quantityOrdered [] pid = 0 := rfl

theorem quantityOrdered_cons (x : RequestItem) (l : List RequestItem) (pid : ProductId) :
    quantityOrdered (x :: l) pid =
      (if x.product = pid then x.quantity else 0) + quantityOrdered l pid := by
  unfold quantityOrdered
  by_cases h : x.product = pid <;> simp [List.filter_cons, h]

theorem quantityOrdered_append (l₁ l₂ : List RequestItem) (pid : ProductId) :
    quantityOrdered (l₁ ++ l₂) pid = quantityOrdered l₁ pid + quantityOrdered l₂ pid := by
  simp [quantityOrdered]

theorem stockAfter_nil (c : Catalog) : stockAfter c [] = c := by
  funext pid
  cases h : c pid <;> simp [stockAfter, h, quantityOrdered_nil]

theorem stockAfter_append (c : Catalog) (l₁ l₂ : List RequestItem) :
    stockAfter c (l₁ ++ l₂) = stockAfter (stockAfter c l₁) l₂ := by
  funext pid
  cases h : c pid <;> simp [stockAfter, h, quantityOrdered_append, sub_sub]

theorem stockAfter_cons (c : Catalog) (x : RequestItem) (l : List RequestItem) :
    stockAfter c (x :: l) = stockAfter (stockAfter c [x]) l :=
  stockAfter_append c [x] l

theorem update_eq_stockAfter (c : Catalog) (item : RequestItem) (p : Product)
    (h : c item.product = some p) :
    Function.update c item.product (some { p with stock := p.stock - item.quantity }) =
      stockAfter c [item] := by
  funext pid
  by_cases hp : pid = item.product
  · subst hp
    simp [stockAfter, h, quantityOrdered_cons, quantityOrdered_nil]
  · have hp' : ¬ item.product = pid := fun e => hp e.symm
    rw [Function.update_noteq hp]
    cases h' : c pid <;> simp [stockAfter, h', quantityOrdered_cons, quantityOrdered_nil, hp']

theorem processItems_cons_error {c : Catalog} {item : RequestItem} {rest : List RequestItem}
    {acc : Totals} {e : OrderError} (h : itemError c item = some e) :
    processItems c (item :: rest) acc = (c, .error e) := by
  unfold itemError at h
  unfold processItems
  cases hc : c item.product with
  | none => simp [hc] at h ⊢; exact h
  | some p =>
    simp only [hc] at h ⊢
    by_cases ha : p.isActive = false
    · simp [ha] at h ⊢; exact h
    · by_cases hs : p.stock < item.quantity
      · simp [ha, hs] at h ⊢; exact h
      · simp [ha, hs] at h

theorem processItems_cons_ok {c : Catalog} {item : RequestItem} (rest : List RequestItem)
    (acc : Totals) (h : itemError c item = none) :
    ∃ p, c item.product = some p ∧ p.isActive = true ∧ item.quantity ≤ p.stock ∧
      processItems c (item :: rest) acc =
        processItems (stockAfter c [item]) rest
          { subtotal := acc.subtotal +
              (p.price + customizationCost item.customizations) * item.quantity,
            orderItems := acc.orderItems ++
              [{ product := item.product, quantity := item.quantity, price := p.price,
                 customizations := item.customizations.getD [] }] } := by
  unfold itemError at h
  cases hc : c item.product with
  | none => simp [hc] at h
  | some p =>
    simp only [hc] at h
    by_cases ha : p.isActive = false
    · simp [ha] at h
    · by_cases hs : p.stock < item.quantity
      · simp [ha, hs] at h
      · have ha' : p.isActive = true := by simpa using ha
        have hs' : item.quantity ≤ p.stock := not_lt.mp hs
        refine ⟨p, rfl, ha', hs', ?_⟩
        have hsave : ¬ (p.stock - item.quantity < 0) := by omega
        rw [← update_eq_stockAfter c item p hc]
        conv_lhs => unfold processItems
        simp [hc, ha', hs, saveProduct, hsave]

theorem foldl_add_eq_sum {α : Type} (f : α → ℚ) (l : List α) (a : ℚ) :
    l.foldl (fun sum x => sum + f x) a = a + (l.map f).sum := by
  induction l generalizing a with
  | nil => simp
  | cons x l ih => simp [ih, add_assoc]

theorem customizationCost_eq_sum (cs : Option (List Customization)) :
    customizationCost cs = ((cs.getD []).map fun custom => custom.additionalCost.getD 0).sum := by
  cases cs with
  | none => simp [customizationCost]
  | some l => simp [customizationCost, foldl_add_eq_sum]

theorem unitPrice_stockAfter (c : Catalog) (l : List RequestItem) (pid : ProductId) :
    unitPrice (stockAfter c l) pid = unitPrice c pid := by
  cases h : c pid <;> simp [unitPrice, stockAfter, h]

theorem lineTotal_stockAfter (c : Catalog) (l : List RequestItem) (item : RequestItem) :
    lineTotal (stockAfter c l) item = lineTotal c item := by
  simp [lineTotal, unitPrice_stockAfter]

theorem lineOf_stockAfter (c : Catalog) (l : List RequestItem) (item : RequestItem) :
    lineOf (stockAfter c l) item = lineOf c item := by
  simp [lineOf, unitPrice_stockAfter]

theorem accepted_nil (c : Catalog) : accepted c [] := by
  intro pre item post h
  simp at h

theorem accepted_cons {c : Catalog} {x : RequestItem} {l : List RequestItem} :
    accepted c (x :: l) ↔ itemError c x = none ∧ accepted (stockAfter c [x]) l := by
  constructor
  · intro h
    refine ⟨?_, ?_⟩
    · have := h [] x l rfl
      rwa [stockAfter_nil] at this
    · intro pre item post e
      have := h (x :: pre) item post (by simp [e])
      rwa [stockAfter_cons] at this
  · rintro ⟨h0, h1⟩ pre item post e
    cases pre with
    | nil =>
      simp at e
      obtain ⟨rfl, -⟩ := e
      rwa [stockAfter_nil]
    | cons y pre =>
      simp at e
      obtain ⟨rfl, e⟩ := e
      rw [stockAfter_cons]
      exact h1 pre item post e

/-- Running the loop over an accepted prefix: the catalog becomes
`stockAfter`, the subtotal grows by the line totals and the order items by the
recorded lines. -/
theorem processItems_accepted (pre post : List RequestItem) :
    ∀ (c : Catalog) (acc : Totals), accepted c pre →
      processItems c (pre ++ post) acc =
        processItems (stockAfter c pre) post
          { subtotal := acc.subtotal + (pre.map (lineTotal c)).sum,
            orderItems := acc.orderItems ++ pre.map (lineOf c) } := by
  induction pre with
  | nil => intro c acc _; simp [stockAfter_nil]
  | cons x pre ih =>
    intro c acc h
    obtain ⟨h0, h1⟩ := accepted_cons.mp h
    obtain ⟨p, hp, -, -, hrun⟩ := processItems_cons_ok (pre ++ post) acc h0
    rw [List.cons_append, hrun, ih _ _ h1, ← stockAfter_cons]
    have hl : (pre.map (lineTotal (stockAfter c [x]))) = pre.map (lineTotal c) :=
      List.map_congr_left fun it _ => lineTotal_stockAfter c [x] it
    have ho : (pre.map (lineOf (stockAfter c [x]))) = pre.map (lineOf c) :=
      List.map_congr_left fun it _ => lineOf_stockAfter c [x] it
    have hx : lineTotal c x = (p.price + customizationCost x.customizations) * x.quantity := by
      simp [lineTotal, unitPrice, hp, customizationCost_eq_sum]
    have hy : lineOf c x = OrderItem.mk x.product x.quantity p.price (x.customizations.getD []) := by
      simp [lineOf, unitPrice, hp]
    rw [hl, ho]
    simp [hx, hy, add_assoc]

/-- Either every item is accepted, or the list splits at a first refused item. -/
theorem accepted_or_first_refused (items : List RequestItem) :
    ∀ c : Catalog, accepted c items ∨
      ∃ pre item post e, items = pre ++ item :: post ∧ accepted c pre ∧
        itemError (stockAfter c pre) item = some e := by
  induction items with
  | nil => intro c; exact Or.inl (accepted_nil c)
  | cons x l ih =>
    intro c
    cases hx : itemError c x with
    | some e =>
      exact Or.inr ⟨[], x, l, e, rfl, accepted_nil c, by rwa [stockAfter_nil]⟩
    | none =>
      rcases ih (stockAfter c [x]) with h | ⟨pre, item, post, e, rfl, hacc, herr⟩
      · exact Or.inl (accepted_cons.mpr ⟨hx, h⟩)
      · refine Or.inr ⟨x :: pre, item, post, e, rfl, accepted_cons.mpr ⟨hx, hacc⟩, ?_⟩
        rwa [stockAfter_cons]

theorem processItems_of_accepted (c : Catalog) (items : List RequestItem) (acc : Totals)
    (h : accepted c items) :
    processItems c items acc =
      (stockAfter c items,
        .ok { subtotal := acc.subtotal + (items.map (lineTotal c)).sum,
              orderItems := acc.orderItems ++ items.map (lineOf c) }) := by
  have := processItems_accepted items [] c acc h
  rw [List.append_nil] at this
  rw [this]
  rfl

theorem processItems_of_refused (c : Catalog) (pre post : List RequestItem)
    (item : RequestItem) (acc : Totals) (e : OrderError) (h : accepted c pre)
    (he : itemError (stockAfter c pre) item = some e) :
    processItems c (pre ++ item :: post) acc = (stockAfter c pre, .error e) := by
  rw [processItems_accepted pre (item :: post) c acc h]
  exact processItems_cons_error he

/-! ### The handler in terms of the loop -/

theorem createOrder_of_accepted (s : Store) (user : UserId) (req : OrderRequest)
    (hv : validationOk req = true) (h : accepted s.products req.items) :
    createOrder s user req =
      ({ products := stockAfter s.products req.items,
         orders := s.orders ++
           [buildOrder user req
             { subtotal := 0 + (req.items.map (lineTotal s.products)).sum,
               orderItems := [] ++ req.items.map (lineOf s.products) }] },
        .ok (buildOrder user req
             { subtotal := 0 + (req.items.map (lineTotal s.products)).sum,
               orderItems := [] ++ req.items.map (lineOf s.products) })) := by
  unfold createOrder
  rw [processItems_of_accepted _ _ _ h]
  simp [hv, saveNewOrder]

theorem createOrder_of_refused (s : Store) (user : UserId) (req : OrderRequest)
    (pre post : List RequestItem) (item : RequestItem) (e : OrderError)
    (hv : validationOk req = true) (hsplit : req.items = pre ++ item :: post)
    (h : accepted s.products pre) (he : itemError (stockAfter s.products pre) item = some e) :
    createOrder s user req = ({ s with products := stockAfter s.products pre }, .error e) := by
  unfold createOrder
  rw [hsplit, processItems_of_refused _ _ _ _ _ _ h he]
  simp [hv]

theorem createOrder_of_invalid (s : Store) (user : UserId) (req : OrderRequest)
    (hv : validationOk req = false) :
    createOrder s user req = (s, .error .validation) := by
  unfold createOrder
  simp [hv]

/-- A successful creation passed the validators and accepted every item. -/
theorem createOrder_ok_inv {s : Store} {user : UserId} {req : OrderRequest} {o : Order}
    (h : (createOrder s user req).2 = .ok o) :
    validationOk req = true ∧ accepted s.products req.items := by
  cases hv : validationOk req with
  | false => rw [createOrder_of_invalid s user req hv] at h; simp at h
  | true =>
    refine ⟨rfl, ?_⟩
    rcases accepted_or_first_refused req.items s.products with hacc | ⟨pre, item, post, e, hs, hacc, he⟩
    · exact hacc
    · rw [createOrder_of_refused s user req pre post item e hv hs hacc he] at h
      simp at h

theorem createOrder_store0 : (createOrder store0 7 req0).2 = .ok order0 := by
  simp [createOrder, validationOk, notEmptyTrimmed, req0, addr0, store0, cat0, processItems,
    saveProduct, buildOrder, customizationCost, Function.update, order0, defaultStatus,
    defaultPaymentStatus]
  norm_num

/-- C1: after a successful order creation the stock of every product equals
its stock before minus the quantity the request orders of it, summed over the
request's line items for that product, and a product the request does not
mention is left exactly as it was. -/
theorem createOrder_stock_decrement (s : Store) (user : UserId) (req : OrderRequest) (o : Order)
    (h : (createOrder s user req).2 = .ok o) (pid : ProductId) :
    (((createOrder s user req).1.products pid).map fun p => p.stock) =
        ((s.products pid).map fun p => p.stock - quantityOrdered req.items pid) ∧
      ((∀ item ∈ req.items, item.product ≠ pid) →
        (createOrder s user req).1.products pid = s.products pid) := by
  obtain ⟨hv, hacc⟩ := createOrder_ok_inv h
  rw [createOrder_of_accepted s user req hv hacc]
  refine ⟨?_, ?_⟩
  · cases hp : s.products pid <;> simp [stockAfter, hp]
  · intro hno
    have hq : quantityOrdered req.items pid = 0 := by
      unfold quantityOrdered
      have : (req.items.filter fun it => decide (it.product = pid)) = [] := by
        rw [List.filter_eq_nil_iff]
        intro it hit
        simpa using hno it hit
      simp [this]
    cases hp : s.products pid <;> simp [stockAfter, hp, hq]

theorem createOrder_stock_decrement_witness :
    (createOrder store0 7 req0).2 = .ok order0 ∧
      (((createOrder store0 7 req0).1.products 1).map fun p => p.stock) =
        ((store0.products 1).map fun p => p.stock - quantityOrdered req0.items 1) ∧
      ((∀ item ∈ req0.items, item.product ≠ 1) →
        (createOrder store0 7 req0).1.products 1 = store0.products 1) :=
  ⟨createOrder_store0, createOrder_stock_decrement store0 7 req0 order0 createOrder_store0 1⟩

theorem createOrder_store3 : (createOrder store3 7 req3).2 = .ok order3 := by
  simp [createOrder, validationOk, notEmptyTrimmed, req3, addr0, store3, processItems,
    saveProduct, buildOrder, customizationCost, Function.update, order3, defaultStatus,
    defaultPaymentStatus]
  norm_num

/-- The order returned by a successful creation is the one built from the
accepted items, and it is the one appended to the order collection. -/
theorem createOrder_ok_eq {s : Store} {user : UserId} {req : OrderRequest} {o : Order}
    (h : (createOrder s user req).2 = .ok o) :
    o = buildOrder user req
          { subtotal := (req.items.map (lineTotal s.products)).sum,
            orderItems := req.items.map (lineOf s.products) } ∧
      (createOrder s user req).1.orders = s.orders ++ [o] ∧
      (createOrder s user req).1.products = stockAfter s.products req.items := by
  obtain ⟨hv, hacc⟩ := createOrder_ok_inv h
  rw [createOrder_of_accepted s user req hv hacc] at h ⊢
  simp only [zero_add, List.nil_append, Except.ok.injEq] at h
  subst h
  simp

/-- C4: order creation is not atomic.  When the items before some item are all
accepted and that item is refused, the handler answers with that item's error,
the order collection is unchanged, and the catalog is left with the decrements
of the accepted items applied. -/
theorem createOrder_not_atomic (s : Store) (user : UserId) (req : OrderRequest)
    (pre post : List RequestItem) (item : RequestItem) (e : OrderError)
    (hv : validationOk req = true) (hsplit : req.items = pre ++ item :: post)
    (hacc : accepted s.products pre)
    (hfail : itemError (stockAfter s.products pre) item = some e) :
    (createOrder s user req).2 = .error e ∧
      (createOrder s user req).1.orders = s.orders ∧
      ∀ pid, (((createOrder s user req).1.products pid).map fun p => p.stock) =
        ((s.products pid).map fun p => p.stock - quantityOrdered pre pid) := by
  rw [createOrder_of_refused s user req pre post item e hv hsplit hacc hfail]
  refine ⟨rfl, rfl, fun pid => ?_⟩
  cases hp : s.products pid <;> simp [stockAfter, hp]

theorem accepted_req1_head :
    accepted store0.products [{ product := 1, quantity := 2, customizations := none }] := by
  rw [accepted_cons]
  exact ⟨by decide, accepted_nil _⟩

theorem createOrder_not_atomic_witness :
    (((store0.products 1).map fun p => p.stock) = some 100 ∧
      (((createOrder store0 7 req1).1.products 1).map fun p => p.stock) = some 98) ∧
    ((createOrder store0 7 req1).2 = .error (.insufficientStock "Banner" 1) ∧
      (createOrder store0 7 req1).1.orders = store0.orders ∧
      ∀ pid, (((createOrder store0 7 req1).1.products pid).map fun p => p.stock) =
        ((store0.products pid).map fun p =>
          p.stock - quantityOrdered [{ product := 1, quantity := 2, customizations := none }] pid)) :=
  ⟨⟨by decide, by decide⟩,
    createOrder_not_atomic store0 7 req1
      [{ product := 1, quantity := 2, customizations := none }] []
      { product := 2, quantity := 5, customizations := none }
      (.insufficientStock "Banner" 1) (by decide) rfl accepted_req1_head (by decide)⟩

/-- The refusal of one item spelled out: not found when the product is missing
or inactive, insufficient stock when it is active and less is in stock than is
requested. -/
theorem itemError_eq_some_iff (c : Catalog) (item : RequestItem) (e : OrderError) :
    itemError c item = some e ↔
      ((c item.product = none ∨ ∃ p, c item.product = some p ∧ p.isActive = false) ∧
          e = .productNotFound item.product) ∨
        ∃ p, c item.product = some p ∧ p.isActive = true ∧ p.stock < item.quantity ∧
          e = .insufficientStock p.name p.stock := by
  unfold itemError
  cases hc : c item.product with
  | none =>
    dsimp only
    constructor
    · intro h
      exact Or.inl ⟨Or.inl rfl, (Option.some.inj h).symm⟩
    · rintro (⟨-, rfl⟩ | ⟨p, hp, -⟩)
      · rfl
      · cases hp
  | some p =>
    dsimp only
    by_cases ha : p.isActive = false
    · rw [if_pos ha]
      constructor
      · intro h
        exact Or.inl ⟨Or.inr ⟨p, rfl, ha⟩, (Option.some.inj h).symm⟩
      · rintro (⟨-, rfl⟩ | ⟨q, hq, hqa, -⟩)
        · rfl
        · cases hq
          rw [ha] at hqa
          cases hqa
    · have ha' : p.isActive = true := by simpa using ha
      rw [if_neg ha]
      by_cases hs : p.stock < item.quantity
      · rw [if_pos hs]
        constructor
        · intro h
          exact Or.inr ⟨p, rfl, ha', hs, (Option.some.inj h).symm⟩
        · rintro (⟨hnf | ⟨q, hq, hqa⟩, -⟩ | ⟨q, hq, -, -, rfl⟩)
          · cases hnf
          · cases hq
            exact absurd hqa ha
          · cases hq
            rfl
      · rw [if_neg hs]
        constructor
        · intro h
          cases h
        · rintro (⟨hnf | ⟨q, hq, hqa⟩, -⟩ | ⟨q, hq, -, hqs, -⟩)
          · cases hnf
          · cases hq
            exact absurd hqa ha
          · cases hq
            exact absurd hqs hs

/-- C5: for a request that passes the validator chain, order creation fails
with error `e` exactly when the items split at a first item refused with `e`
(no such product or an inactive one: not found; more requested than the stock
left by the earlier items: insufficient stock), and it succeeds exactly when
every item is accepted. -/
theorem createOrder_fails_iff (s : Store) (user : UserId) (req : OrderRequest)
    (hv : validationOk req = true) :
    (∀ e, (createOrder s user req).2 = .error e ↔
        ∃ pre item post, req.items = pre ++ item :: post ∧ accepted s.products pre ∧
          itemError (stockAfter s.products pre) item = some e) ∧
      ((∃ o, (createOrder s user req).2 = .ok o) ↔ accepted s.products req.items) ∧
      ∀ (c : Catalog) (item : RequestItem) (e : OrderError), itemError c item = some e ↔
        ((c item.product = none ∨ ∃ p, c item.product = some p ∧ p.isActive = false) ∧
            e = .productNotFound item.product) ∨
          ∃ p, c item.product = some p ∧ p.isActive = true ∧ p.stock < item.quantity ∧
            e = .insufficientStock p.name p.stock := by
  have key : (∀ e, (createOrder s user req).2 = .error e ↔
        ∃ pre item post, req.items = pre ++ item :: post ∧ accepted s.products pre ∧
          itemError (stockAfter s.products pre) item = some e) ∧
      ((∃ o, (createOrder s user req).2 = .ok o) ↔ accepted s.products req.items) := by
    rcases accepted_or_first_refused req.items s.products with
      hacc | ⟨pre, item, post, e, hs, hacc, he⟩
    · have hrun := createOrder_of_accepted s user req hv hacc
      refine ⟨fun e' => ⟨fun h => ?_, ?_⟩, ⟨fun _ => hacc, fun _ => ⟨_, by rw [hrun]⟩⟩⟩
      · rw [hrun] at h; simp at h
      · rintro ⟨pre, item, post, hs, -, he⟩
        have := hacc pre item post hs
        rw [this] at he; simp at he
    · have hrun := createOrder_of_refused s user req pre post item e hv hs hacc he
      refine ⟨fun e' => ⟨fun h => ?_, ?_⟩, ⟨?_, ?_⟩⟩
      · rw [hrun] at h
        simp only [Except.error.injEq] at h
        subst h
        exact ⟨pre, item, post, hs, hacc, he⟩
      · rintro ⟨pre', item', post', hs', hacc', he'⟩
        rw [createOrder_of_refused s user req pre' post' item' e' hv hs' hacc' he']
      · rintro ⟨o, ho⟩
        rw [hrun] at ho; simp at ho
      · intro hall
        have := hall pre item post hs
        rw [this] at he; simp at he
  exact ⟨key.1, key.2, itemError_eq_some_iff⟩

theorem createOrder_fails_iff_witness :
    validationOk req1 = true ∧
    ((∀ e, (createOrder store0 7 req1).2 = .error e ↔
        ∃ pre item post, req1.items = pre ++ item :: post ∧ accepted store0.products pre ∧
          itemError (stockAfter store0.products pre) item = some e) ∧
      ((∃ o, (createOrder store0 7 req1).2 = .ok o) ↔ accepted store0.products req1.items) ∧
      ∀ (c : Catalog) (item : RequestItem) (e : OrderError), itemError c item = some e ↔
        ((c item.product = none ∨ ∃ p, c item.product = some p ∧ p.isActive = false) ∧
            e = .productNotFound item.product) ∨
          ∃ p, c item.product = some p ∧ p.isActive = true ∧ p.stock < item.quantity ∧
            e = .insufficientStock p.name p.stock) :=
  ⟨by decide, createOrder_fails_iff store0 7 req1 (by decide)⟩

/-- C7: on every order produced by order creation, which is the order appended
to the collection, the total is the sum of that order's subtotal, shipping and
tax. -/
theorem createOrder_total (s : Store) (user : UserId) (req : OrderRequest) (o : Order)
    (h : (createOrder s user req).2 = .ok o) :
    (createOrder s user req).1.orders = s.orders ++ [o] ∧
      o.total = o.subtotal + o.shipping + o.tax := by
  obtain ⟨ho, hs, -⟩ := createOrder_ok_eq h
  refine ⟨hs, ?_⟩
  rw [ho]
  rfl

theorem createOrder_total_witness :
    (createOrder store0 7 req0).2 = .ok order0 ∧
      (createOrder store0 7 req0).1.orders = store0.orders ++ [order0] ∧
      order0.total = order0.subtotal + order0.shipping + order0.tax :=
  ⟨createOrder_store0, createOrder_total store0 7 req0 order0 createOrder_store0⟩

/-- C8, as the code has it: on every order produced by order creation the tax
is exactly eight hundredths of the subtotal; no rounding is applied. -/
theorem createOrder_tax (s : Store) (user : UserId) (req : OrderRequest) (o : Order)
    (h : (createOrder s user req).2 = .ok o) :
    o.tax = o.subtotal * 0.08 := by
  obtain ⟨ho, -, -⟩ := createOrder_ok_eq h
  rw [ho]
  rfl

theorem createOrder_tax_witness :
    (createOrder store0 7 req0).2 = .ok order0 ∧ order0.tax = order0.subtotal * 0.08 :=
  ⟨createOrder_store0, createOrder_tax store0 7 req0 order0 createOrder_store0⟩

/-- C8 as stated fails: one card at 29.99 gives an order whose tax is 2.3992,
while 8% of its subtotal rounded to two decimals is 2.40. -/
theorem createOrder_tax_not_rounded :
    (createOrder store0 7 req2).2 = .ok order2 ∧ order2.subtotal = 29.99 ∧
      order2.tax = 2.3992 ∧ round2 (order2.subtotal * 0.08) = 2.40 ∧
      order2.tax ≠ round2 (order2.subtotal * 0.08) := by
  have hr : round2 ((29.99 : ℚ) * 0.08) = 2.40 := by
    unfold round2
    have : ⌊(29.99 : ℚ) * 0.08 * 100 + 1 / 2⌋ = 240 := by
      rw [Int.floor_eq_iff]
      constructor <;> norm_num
    rw [this]
    norm_num
  refine ⟨?_, rfl, rfl, hr, ?_⟩
  · simp [createOrder, validationOk, notEmptyTrimmed, req2, addr0, store0, cat0, processItems,
      saveProduct, buildOrder, customizationCost, Function.update, order2, defaultStatus,
      defaultPaymentStatus]
    norm_num
  · show (2.3992 : ℚ) ≠ round2 ((29.99 : ℚ) * 0.08)
    rw [hr]
    norm_num

/-- C9: on every order produced by order creation the shipping charge is 0
when the subtotal exceeds 100 and 10 otherwise; a subtotal of exactly 100 is
charged 10. -/
theorem createOrder_shipping (s : Store) (user : UserId) (req : OrderRequest) (o : Order)
    (h : (createOrder s user req).2 = .ok o) :
    (o.subtotal > 100 → o.shipping = 0) ∧ (¬ o.subtotal > 100 → o.shipping = 10) ∧
      (o.subtotal = 100 → o.shipping = 10) := by
  obtain ⟨ho, -, -⟩ := createOrder_ok_eq h
  have key : o.shipping = if o.subtotal > 100 then 0 else 10 := by
    rw [ho]
    rfl
  refine ⟨fun hgt => ?_, fun hle => ?_, fun heq => ?_⟩
  · rw [key, if_pos hgt]
  · rw [key, if_neg hle]
  · rw [key, if_neg (by rw [heq]; norm_num)]

theorem createOrder_shipping_witness :
    (createOrder store3 7 req3).2 = .ok order3 ∧ order3.subtotal = 100 ∧
      ((order3.subtotal > 100 → order3.shipping = 0) ∧
        (¬ order3.subtotal > 100 → order3.shipping = 10) ∧
        (order3.subtotal = 100 → order3.shipping = 10)) :=
  ⟨createOrder_store3, rfl, createOrder_shipping store3 7 req3 order3 createOrder_store3⟩

/-- C10: on every successful order creation the subtotal is the sum, over the
request's items, of the catalog unit price of the item's product plus the
additional costs of its chosen customizations (a missing cost or a missing list
counting as 0), multiplied by the item's quantity. -/
theorem createOrder_subtotal (s : Store) (user : UserId) (req : OrderRequest) (o : Order)
    (h : (createOrder s user req).2 = .ok o) :
    o.subtotal =
      (req.items.map fun item =>
        (unitPrice s.products item.product +
            ((item.customizations.getD []).map fun custom => custom.additionalCost.getD 0).sum) *
          (item.quantity : ℚ)).sum := by
  obtain ⟨ho, -, -⟩ := createOrder_ok_eq h
  rw [ho]
  rfl

theorem createOrder_subtotal_witness :
    (createOrder store0 7 req0).2 = .ok order0 ∧
      order0.subtotal =
        (req0.items.map fun item =>
          (unitPrice store0.products item.product +
              ((item.customizations.getD []).map fun custom =>
                custom.additionalCost.getD 0).sum) *
            (item.quantity : ℚ)).sum :=
  ⟨createOrder_store0, createOrder_subtotal store0 7 req0 order0 createOrder_store0⟩

/-! ### Stock never goes negative -/

theorem saveProduct_nonneg {c c' : Catalog} {id : ProductId} {p : Product}
    (hc : stockNonneg c) (h : saveProduct c id p = .ok c') : stockNonneg c' := by
  unfold saveProduct at h
  by_cases hp : p.stock < 0
  · simp [hp] at h
  · simp only [hp, if_false, Except.ok.injEq] at h
    subst h
    intro pid q hq
    by_cases hid : pid = id
    · subst hid
      simp at hq
      subst hq
      exact not_lt.mp hp
    · rw [Function.update_noteq hid] at hq
      exact hc pid q hq

theorem processItems_nonneg (items : List RequestItem) :
    ∀ (c : Catalog) (acc : Totals), stockNonneg c → stockNonneg (processItems c items acc).1 := by
  induction items with
  | nil => intro c acc hc; simpa [processItems] using hc
  | cons x l ih =>
    intro c acc hc
    unfold processItems
    split
    · exact hc
    · split
      · exact hc
      · split
        · exact hc
        · dsimp only
          split
          · exact hc
          · next c' hs => exact ih c' _ (saveProduct_nonneg hc hs)

theorem restoreStock_nonneg (items : List OrderItem) :
    ∀ c : Catalog, stockNonneg c → stockNonneg (restoreStock c items).1 := by
  induction items with
  | nil => intro c hc; simpa [restoreStock] using hc
  | cons x l ih =>
    intro c hc
    unfold restoreStock
    split
    · exact hc
    · split
      · exact hc
      · next c' hs => exact ih c' (saveProduct_nonneg hc hs)

theorem createOrder_nonneg (s : Store) (user : UserId) (req : OrderRequest)
    (hs : stockNonneg s.products) : stockNonneg (createOrder s user req).1.products := by
  unfold createOrder
  split
  · exact hs
  · have := processItems_nonneg req.items s.products { subtotal := 0, orderItems := [] } hs
    split
    · next c e heq => rw [heq] at this; exact this
    · next c acc heq => rw [heq] at this; exact this

theorem cancelOrder_nonneg (s : Store) (user : UserId) (id : OrderId)
    (hs : stockNonneg s.products) : stockNonneg (cancelOrder s user id).1.products := by
  unfold cancelOrder
  split
  · exact hs
  · next order _ =>
    split
    · exact hs
    · split
      · exact hs
      · have := restoreStock_nonneg order.items s.products hs
        split
        · next c e heq => rw [heq] at this; exact this
        · next c u heq => rw [heq] at this; exact this

/-- C3: starting from a catalog in which no stock is negative, every finite
sequence of order creations and order cancellations, whether they succeed or
fail and whatever items and quantities they carry, leaves a catalog in which no
stock is negative. -/
theorem run_stock_nonneg (s : Store) (ops : List Op) (hs : stockNonneg s.products) :
    stockNonneg (run s ops).products := by
  induction ops generalizing s with
  | nil => exact hs
  | cons op ops ih =>
    apply ih
    cases op with
    | create user req => exact createOrder_nonneg s user req hs
    | cancel user id => exact cancelOrder_nonneg s user id hs

theorem stockNonneg_store4 : stockNonneg store4.products := by
  intro pid p h
  simp only [store4] at h
  split_ifs at h <;> simp at h <;> subst h <;> decide

theorem run_stock_nonneg_witness :
    stockNonneg store4.products ∧
      stockNonneg (run store4 [.create 7 req5, .create 8 req6, .cancel 7 0, .cancel 8 1]).products :=
  ⟨stockNonneg_store4, run_stock_nonneg store4 _ stockNonneg_store4⟩

/-! ### Cancellation -/

theorem itemError_none {c : Catalog} {item : RequestItem} (h : itemError c item = none) :
    ∃ p, c item.product = some p ∧ p.isActive = true ∧ item.quantity ≤ p.stock := by
  obtain ⟨p, hp, ha, hs, -⟩ :=
    processItems_cons_ok [] { subtotal := 0, orderItems := [] } h
  exact ⟨p, hp, ha, hs⟩

/-- After a run of accepted items, a product the items mention exists and the
total requested of it does not exceed what was in stock. -/
theorem accepted_quantity_le (items : List RequestItem) :
    ∀ c : Catalog, accepted c items → ∀ pid, (∃ it ∈ items, it.product = pid) →
      ∃ p, c pid = some p ∧ quantityOrdered items pid ≤ p.stock := by
  induction items with
  | nil => intro c _ pid h; simp at h
  | cons x l ih =>
    intro c hacc pid hmem
    obtain ⟨h0, h1⟩ := accepted_cons.mp hacc
    obtain ⟨p0, hp0, -, hq0⟩ := itemError_none h0
    by_cases hl : ∃ it ∈ l, it.product = pid
    · obtain ⟨p1, hp1, hq1⟩ := ih _ h1 pid hl
      cases hc : c pid with
      | none => simp [stockAfter, hc] at hp1
      | some p =>
        refine ⟨p, rfl, ?_⟩
        simp only [stockAfter, hc, Option.map_some', Option.some.injEq] at hp1
        subst hp1
        simp only [quantityOrdered_cons, quantityOrdered_nil] at hq1
        rw [quantityOrdered_cons]
        omega
    · obtain ⟨it, hit, hpid⟩ := hmem
      have hx : x.product = pid := by
        rcases List.mem_cons.mp hit with rfl | hit'
        · exact hpid
        · exact absurd ⟨it, hit', hpid⟩ hl
      have hzero : quantityOrdered l pid = 0 := by
        unfold quantityOrdered
        have : (l.filter fun it => decide (it.product = pid)) = [] := by
          rw [List.filter_eq_nil_iff]
          intro it' hit'
          have : ¬ it'.product = pid := fun e => hl ⟨it', hit', e⟩
          simpa using this
        simp [this]
      refine ⟨p0, hx ▸ hp0, ?_⟩
      rw [quantityOrdered_cons, hzero, if_pos hx]
      omega

theorem restoredQuantity_nil (pid : ProductId) : restoredQuantity [] pid = 0 := rfl

theorem restoredQuantity_cons (x : OrderItem) (l : List OrderItem) (pid : ProductId) :
    restoredQuantity (x :: l) pid =
      (if x.product = pid then x.quantity else 0) + restoredQuantity l pid := by
  unfold restoredQuantity
  by_cases h : x.product = pid <;> simp [List.filter_cons, h]

theorem restoredQuantity_lineOf (c : Catalog) (items : List RequestItem) (pid : ProductId) :
    restoredQuantity (items.map (lineOf c)) pid = quantityOrdered items pid := by
  induction items with
  | nil => rfl
  | cons x l ih => rw [List.map_cons, restoredQuantity_cons, quantityOrdered_cons, ih]; rfl

theorem stockRestored_nil (c : Catalog) : stockRestored c [] = c := by
  funext pid
  cases h : c pid <;> simp [stockRestored, h, restoredQuantity_nil]

theorem stockRestored_cons (c : Catalog) (x : OrderItem) (l : List OrderItem) :
    stockRestored c (x :: l) = stockRestored (stockRestored c [x]) l := by
  funext pid
  cases h : c pid <;>
    simp [stockRestored, h, restoredQuantity_cons, restoredQuantity_nil, add_assoc]

theorem update_eq_stockRestored (c : Catalog) (item : OrderItem) (p : Product)
    (h : c item.product = some p) :
    Function.update c item.product (some { p with stock := p.stock + item.quantity }) =
      stockRestored c [item] := by
  funext pid
  by_cases hp : pid = item.product
  · subst hp
    simp [stockRestored, h, restoredQuantity_cons, restoredQuantity_nil]
  · have hp' : ¬ item.product = pid := fun e => hp e.symm
    rw [Function.update_noteq hp]
    cases h' : c pid <;> simp [stockRestored, h', restoredQuantity_cons, restoredQuantity_nil, hp']

/-- The restoring loop runs to its end when every line has a non-negative
quantity and names an existing product whose stock is not negative. -/
theorem restoreStock_ok (items : List OrderItem) :
    ∀ c : Catalog, (∀ it ∈ items, 0 ≤ it.quantity) →
      (∀ it ∈ items, ∃ p, c it.product = some p ∧ 0 ≤ p.stock) →
      restoreStock c items = (stockRestored c items, .ok ()) := by
  induction items with
  | nil => intro c _ _; simp [restoreStock, stockRestored_nil]
  | cons x l ih =>
    intro c hq hp
    obtain ⟨p, hpx, hp0⟩ := hp x (List.mem_cons_self _ _)
    have hq0 := hq x (List.mem_cons_self _ _)
    have hsave : ¬ (p.stock + x.quantity < 0) := by omega
    unfold restoreStock
    simp only [hpx, saveProduct, hsave, if_false]
    rw [update_eq_stockRestored c x p hpx, stockRestored_cons c x l]
    apply ih
    · intro it hit
      exact hq it (List.mem_cons_of_mem _ hit)
    · intro it hit
      obtain ⟨p', hp', hp'0⟩ := hp it (List.mem_cons_of_mem _ hit)
      refine ⟨{ p' with stock := p'.stock + restoredQuantity [x] it.product }, ?_, ?_⟩
      · simp [stockRestored, hp']
      · simp only [restoredQuantity_cons, restoredQuantity_nil]
        split_ifs <;> simp <;> omega

theorem restoreStock_error {items : List OrderItem} :
    ∀ {c c' : Catalog} {e : OrderError}, restoreStock c items = (c', .error e) →
      e = .serverError := by
  induction items with
  | nil => intro c c' e h; simp [restoreStock] at h
  | cons x l ih =>
    intro c c' e h
    unfold restoreStock at h
    split at h
    · simp at h; exact h.2.symm
    · split at h
      · next e' hs =>
        unfold saveProduct at hs
        split_ifs at hs
        simp at hs h
        rw [← h.2, ← hs]
      · exact ih h

theorem stockRestored_stockAfter (c : Catalog) (items : List RequestItem) :
    stockRestored (stockAfter c items) (items.map (lineOf c)) = c := by
  funext pid
  cases h : c pid <;> simp [stockRestored, stockAfter, h, restoredQuantity_lineOf]

/-- Cancelling a pending order of the caller whose lines can all be restored. -/
theorem cancelOrder_of_restorable (s : Store) (user : UserId) (id : OrderId) (o : Order)
    (hget : s.orders[id]? = some o) (hown : o.user = user) (hst : o.status = "pending")
    (hq : ∀ it ∈ o.items, 0 ≤ it.quantity)
    (hp : ∀ it ∈ o.items, ∃ p, s.products it.product = some p ∧ 0 ≤ p.stock) :
    cancelOrder s user id =
      ({ products := stockRestored s.products o.items,
         orders := s.orders.set id { o with status := "cancelled" } },
        .ok { o with status := "cancelled" }) := by
  unfold cancelOrder
  simp only [hget, hown, hst, restoreStock_ok o.items s.products hq hp]
  simp

/-- When the restoring loop runs to its end, every line has been added back. -/
theorem restoreStock_ok_inv (items : List OrderItem) :
    ∀ {c c' : Catalog}, restoreStock c items = (c', .ok ()) → c' = stockRestored c items := by
  induction items with
  | nil =>
    intro c c' h
    simp only [restoreStock, Prod.mk.injEq] at h
    rw [stockRestored_nil, h.1]
  | cons x l ih =>
    intro c c' h
    unfold restoreStock at h
    cases hp : c x.product with
    | none => simp [hp] at h
    | some p =>
      simp only [hp] at h
      cases hs : saveProduct c x.product { p with stock := p.stock + x.quantity } with
      | error e => simp [hs] at h
      | ok c'' =>
        simp only [hs] at h
        have hc'' : c'' = stockRestored c [x] := by
          unfold saveProduct at hs
          split_ifs at hs
          simp only [Except.ok.injEq] at hs
          rw [← hs, update_eq_stockRestored c x p hp]
        rw [ih h, hc'', stockRestored_cons c x l]

/-- What a successful cancellation went through and what it left behind. -/
theorem cancelOrder_ok_inv {s : Store} {user : UserId} {id : OrderId} {o' : Order}
    (h : (cancelOrder s user id).2 = .ok o') :
    ∃ o, s.orders[id]? = some o ∧ o.user = user ∧ o.status = "pending" ∧
      o' = { o with status := "cancelled" } ∧
      (cancelOrder s user id).1.products = stockRestored s.products o.items ∧
      (cancelOrder s user id).1.orders = s.orders.set id { o with status := "cancelled" } := by
  unfold cancelOrder at h ⊢
  cases hget : s.orders[id]? with
  | none => simp [hget] at h
  | some o =>
    simp only [hget] at h ⊢
    by_cases hu : o.user ≠ user
    · simp [hu] at h
    by_cases hst : o.status ≠ "pending"
    · simp [hu, hst] at h
    rw [if_neg hu, if_neg hst] at h ⊢
    cases hr : restoreStock s.products o.items with
    | mk c r =>
      cases r with
      | error e => simp [hr] at h
      | ok u =>
        simp only [hr] at h ⊢
        simp only [Except.ok.injEq] at h
        refine ⟨o, rfl, not_not.mp hu, not_not.mp hst, h.symm, ?_, rfl⟩
        exact restoreStock_ok_inv o.items hr

/-- C2: when order creation succeeds, a cancellation of the new order right
away that goes through returns the order with status cancelled, records it so
in the collection, and leaves every product exactly as it was before the order
was created; and the cancellation does go through whenever the quantities of
the request are not negative. -/
theorem cancel_after_create (s : Store) (user : UserId) (req : OrderRequest) (o : Order)
    (h : (createOrder s user req).2 = .ok o) :
    ((∀ item ∈ req.items, 0 ≤ item.quantity) →
        (cancelOrder (createOrder s user req).1 user s.orders.length).2 =
          .ok { o with status := "cancelled" }) ∧
      (∀ o', (cancelOrder (createOrder s user req).1 user s.orders.length).2 = .ok o' →
        o' = { o with status := "cancelled" } ∧
        (cancelOrder (createOrder s user req).1 user s.orders.length).1.products = s.products ∧
        (cancelOrder (createOrder s user req).1 user s.orders.length).1.orders =
          s.orders ++ [{ o with status := "cancelled" }]) := by
  obtain ⟨-, hacc⟩ := createOrder_ok_inv h
  obtain ⟨ho, hord, hprod⟩ := createOrder_ok_eq h
  have hitems : o.items = req.items.map (lineOf s.products) := by rw [ho]; rfl
  have hget : (createOrder s user req).1.orders[s.orders.length]? = some o := by
    rw [hord]; simp
  have hown : o.user = user := by rw [ho]; rfl
  have hst : o.status = "pending" := by rw [ho]; rfl
  refine ⟨fun hq => ?_, fun o' hok => ?_⟩
  · have hq' : ∀ it ∈ o.items, 0 ≤ it.quantity := by
      rw [hitems]
      intro it hit
      obtain ⟨x, hx, rfl⟩ := List.mem_map.mp hit
      exact hq x hx
    have hp' : ∀ it ∈ o.items,
        ∃ p, (createOrder s user req).1.products it.product = some p ∧ 0 ≤ p.stock := by
      rw [hitems, hprod]
      intro it hit
      obtain ⟨x, hx, rfl⟩ := List.mem_map.mp hit
      obtain ⟨p, hp, hle⟩ := accepted_quantity_le req.items s.products hacc x.product ⟨x, hx, rfl⟩
      refine ⟨{ p with stock := p.stock - quantityOrdered req.items x.product }, ?_, ?_⟩
      · simp [stockAfter, hp, lineOf]
      · simp only; omega
    rw [cancelOrder_of_restorable _ user _ o hget hown hst hq' hp']
  · obtain ⟨o1, hget1, -, -, ho', hp, hl⟩ := cancelOrder_ok_inv hok
    rw [hget] at hget1
    simp only [Option.some.injEq] at hget1
    subst hget1
    refine ⟨ho', ?_, ?_⟩
    · rw [hp, hprod, hitems]
      exact stockRestored_stockAfter s.products req.items
    · rw [hl, hord]
      simp

theorem cancel_after_create_witness :
    (createOrder store0 7 req0).2 = .ok order0 ∧
      ((∀ item ∈ req0.items, 0 ≤ item.quantity) →
        (cancelOrder (createOrder store0 7 req0).1 7 store0.orders.length).2 =
          .ok { order0 with status := "cancelled" }) ∧
      (∀ o', (cancelOrder (createOrder store0 7 req0).1 7 store0.orders.length).2 = .ok o' →
        o' = { order0 with status := "cancelled" } ∧
        (cancelOrder (createOrder store0 7 req0).1 7 store0.orders.length).1.products =
          store0.products ∧
        (cancelOrder (createOrder store0 7 req0).1 7 store0.orders.length).1.orders =
          store0.orders ++ [{ order0 with status := "cancelled" }]) :=
  ⟨createOrder_store0, cancel_after_create store0 7 req0 order0 createOrder_store0⟩

/-- The status gate of the cancel handler: for an order owned by the caller,
cancellation can succeed only when the status is pending; it is refused as not
cancellable exactly when the status is not pending, and then the whole store
(every order's status, every product's stock) is unchanged; and a pending order
is cancelled whenever each of its lines has a non-negative quantity and names
an existing product whose stock is not negative. -/
theorem cancelOrder_pending_gate (s : Store) (user : UserId) (id : OrderId) (o : Order)
    (hget : s.orders[id]? = some o) (hown : o.user = user) :
    ((∃ o', (cancelOrder s user id).2 = .ok o') → o.status = "pending") ∧
      ((cancelOrder s user id).2 = .error .cannotCancel ↔ o.status ≠ "pending") ∧
      (o.status ≠ "pending" → (cancelOrder s user id).1 = s) ∧
      (o.status = "pending" → (∀ it ∈ o.items, 0 ≤ it.quantity) →
        (∀ it ∈ o.items, ∃ p, s.products it.product = some p ∧ 0 ≤ p.stock) →
        (cancelOrder s user id).2 = .ok { o with status := "cancelled" }) := by
  have hnot : o.status ≠ "pending" → cancelOrder s user id = (s, .error .cannotCancel) := by
    intro hst
    unfold cancelOrder
    simp [hget, hown, hst]
  have hpend : o.status = "pending" → (cancelOrder s user id).2 ≠ .error .cannotCancel := by
    intro hst
    unfold cancelOrder
    simp only [hget, hown, hst]
    simp only [ne_eq, not_true_eq_false, if_false]
    split
    · next c e heq =>
      have := restoreStock_error heq
      subst this
      simp
    · simp
  refine ⟨?_, ⟨?_, ?_⟩, ?_, ?_⟩
  · rintro ⟨o', ho'⟩
    by_contra hst
    rw [hnot hst] at ho'
    simp at ho'
  · intro h hst
    exact hpend hst h
  · intro hst
    rw [hnot hst]
  · intro hst
    rw [hnot hst]
  · intro hst hq hp
    rw [cancelOrder_of_restorable s user id o hget hown hst hq hp]

theorem orders_after_store0 : (createOrder store0 7 req0).1.orders[0]? = some order0 := by
  rw [(createOrder_ok_eq createOrder_store0).2.1]
  rfl

theorem cancelOrder_pending_gate_witness :
    (createOrder store0 7 req0).1.orders[0]? = some order0 ∧ order0.user = 7 ∧
      (((∃ o', (cancelOrder (createOrder store0 7 req0).1 7 0).2 = .ok o') →
          order0.status = "pending") ∧
        ((cancelOrder (createOrder store0 7 req0).1 7 0).2 = .error .cannotCancel ↔
          order0.status ≠ "pending") ∧
        (order0.status ≠ "pending" →
          (cancelOrder (createOrder store0 7 req0).1 7 0).1 = (createOrder store0 7 req0).1) ∧
        (order0.status = "pending" → (∀ it ∈ order0.items, 0 ≤ it.quantity) →
          (∀ it ∈ order0.items,
            ∃ p, (createOrder store0 7 req0).1.products it.product = some p ∧ 0 ≤ p.stock) →
          (cancelOrder (createOrder store0 7 req0).1 7 0).2 =
            .ok { order0 with status := "cancelled" })) :=
  ⟨orders_after_store0, rfl,
    cancelOrder_pending_gate (createOrder store0 7 req0).1 7 0 order0 orders_after_store0 rfl⟩

/-- C6 fails on the code for a pending order one of whose products has been
deleted: the order is pending and owned by the caller, yet the cancellation
answers with a server error, the order stays pending and the stock of the
other product of the order is not restored. -/
theorem cancelOrder_deleted_product :
    ((storeDeleted.orders[0]?).map fun o => (o.user, o.status)) = some (7, "pending") ∧
      storeDeleted.products 1 = none ∧
      (cancelOrder storeDeleted 7 0).2 = .error .serverError ∧
      (((cancelOrder storeDeleted 7 0).1.orders[0]?).map fun o => o.status) = some "pending" ∧
      ((storeDeleted.products 2).map fun p => p.stock) = some 0 ∧
      (((cancelOrder storeDeleted 7 0).1.products 2).map fun p => p.stock) = some 0 :=
  ⟨by decide, by decide, rfl, by decide, by decide, by decide⟩

/-! ## Properties of the promotion evaluator -/

theorem applicableTotal_eq_sum (items : List CartItem) :
    applicableTotal items = (items.map fun item => item.price * (item.quantity : ℚ)).sum := by
  unfold applicableTotal
  rw [foldl_add_eq_sum (fun item : CartItem => item.price * (item.quantity : ℚ)) items 0]
  simp

/-- The handler once the request passed the validators and the offer was found. -/
theorem validateOffer_of_found (products : Catalog) (offers : List Offer) (user : UserId)
    (now : Timestamp) (req : ValidateRequest) (offer : Offer)
    (hv : validateRequestOk req = true) (hf : findOffer offers req.code = some offer) :
    validateOffer products offers user now req =
      if offer.isValid now = false then .error .notValid
      else if offer.canUserUse user now = false then .error .alreadyUsed
      else if req.cartTotal < offer.minimumOrderAmount then
        .error (.belowMinimum offer.minimumOrderAmount)
      else if applicableItems (populateProducts products offer.applicableProducts)
          offer.applicableCategories req.cartItems = [] then .error .noApplicableItems
      else
        .ok { isValid := true,
              discount := roundDiscount (applyMaximum offer (typeDiscount offer (applicableTotal
                (applicableItems (populateProducts products offer.applicableProducts)
                  offer.applicableCategories req.cartItems)))),
              offer := { title := offer.title, code := offer.code, type := offer.type,
                         value := offer.value } } := by
  unfold validateOffer
  simp [hv, hf]

/-- What an accepted validation went through. -/
theorem validateOffer_ok_inv {products : Catalog} {offers : List Offer} {user : UserId}
    {now : Timestamp} {req : ValidateRequest} {resp : ValidateResponse}
    (h : validateOffer products offers user now req = .ok resp) :
    ∃ offer, validateRequestOk req = true ∧ findOffer offers req.code = some offer ∧
      offer.isValid now = true ∧ offer.canUserUse user now = true ∧
      ¬ req.cartTotal < offer.minimumOrderAmount ∧
      applicableItems (populateProducts products offer.applicableProducts)
        offer.applicableCategories req.cartItems ≠ [] ∧
      resp.discount = roundDiscount (applyMaximum offer (typeDiscount offer (applicableTotal
        (applicableItems (populateProducts products offer.applicableProducts)
          offer.applicableCategories req.cartItems)))) := by
  cases hv : validateRequestOk req with
  | false => simp [validateOffer, hv] at h
  | true =>
    cases hf : findOffer offers req.code with
    | none => simp [validateOffer, hv, hf] at h
    | some offer =>
      rw [validateOffer_of_found products offers user now req offer hv hf] at h
      refine ⟨offer, rfl, rfl, ?_⟩
      by_cases h1 : offer.isValid now = false
      · simp [h1] at h
      by_cases h2 : offer.canUserUse user now = false
      · simp [h1, h2] at h
      by_cases h3 : req.cartTotal < offer.minimumOrderAmount
      · simp [h1, h2, h3] at h
      by_cases h4 : applicableItems (populateProducts products offer.applicableProducts)
          offer.applicableCategories req.cartItems = []
      · simp [h1, h2, h3, h4] at h
      rw [if_neg h1, if_neg h2, if_neg h3, if_neg h4] at h
      simp only [Except.ok.injEq] at h
      subst h
      exact ⟨by simpa using h1, by simpa using h2, h3, h4, rfl⟩

theorem validateRequestOk_reqA : validateRequestOk reqA = true := by
  simp [validateRequestOk, reqA, notEmptyTrimmed]
  norm_num

/-- Rounding a value that is already a whole number of hundredths. -/
theorem roundDiscount_of_int (n : ℤ) (x : ℚ) (h : x * 100 = n) : roundDiscount x = n / 100 := by
  unfold roundDiscount mathRound
  rw [h]
  have : ⌊(n : ℚ) + 1 / 2⌋ = n := by
    rw [Int.floor_eq_iff]
    constructor <;> norm_num
  rw [this]

/-- The answer to `reqA` under the sample offer with any setting of
`maximumDiscount`. -/
theorem validateOffer_reqA (m : Option ℚ) :
    validateOffer cat0 [{ offerA with maximumDiscount := m }] 7 1500 reqA =
      .ok { respA with
            discount := roundDiscount (applyMaximum { offerA with maximumDiscount := m } 7.5) } := by
  rw [validateOffer_of_found cat0 _ 7 1500 reqA { offerA with maximumDiscount := m }
    validateRequestOk_reqA (by rfl)]
  have h1 : Offer.isValid { offerA with maximumDiscount := m } 1500 = true := by rfl
  have h2 : Offer.canUserUse { offerA with maximumDiscount := m } 7 1500 = true := by rfl
  have h3 : ¬ reqA.cartTotal < offerA.minimumOrderAmount := by
    simp only [reqA, offerA]; norm_num
  have h4 : applicableItems (populateProducts cat0 offerA.applicableProducts)
      offerA.applicableCategories reqA.cartItems = reqA.cartItems := by rfl
  have h5 : reqA.cartItems ≠ [] := by decide
  have h6 : typeDiscount { offerA with maximumDiscount := m } (applicableTotal reqA.cartItems) =
      7.5 := by
    simp [typeDiscount, applicableTotal, offerA, reqA]
    norm_num
  simp only [h1, h2, h3, h4, h5, h6, if_false, Bool.true_eq_false]
  rfl

theorem validateOffer_offerA : validateOffer cat0 [offerA] 7 1500 reqA = .ok respA := by
  have h := validateOffer_reqA none
  have hr : roundDiscount (applyMaximum { offerA with maximumDiscount := none } 7.5) = 7.5 := by
    have : applyMaximum { offerA with maximumDiscount := none } 7.5 = 7.5 := rfl
    rw [this, roundDiscount_of_int 750 7.5 (by norm_num)]
    norm_num
  rw [hr] at h
  exact h

theorem validateOffer_offerB : validateOffer cat0 [offerB] 7 1500 reqA = .ok respB := by
  have h := validateOffer_reqA (some 5)
  have hr : roundDiscount (applyMaximum { offerA with maximumDiscount := some 5 } 7.5) = 5 := by
    have : applyMaximum { offerA with maximumDiscount := some 5 } 7.5 = 5 := by
      simp only [applyMaximum]
      norm_num
    rw [this, roundDiscount_of_int 500 5 (by norm_num)]
    norm_num
  rw [hr] at h
  exact h

/-- C11: on every accepted offer validation the discount, before the cap and
the rounding are applied to it, is given by the offer type from the applicable
total (the sum of price times quantity over the applicable cart items):
percentage gives that total times value/100, fixed amount the smaller of the
value and the total, free shipping the fixed credit 10, and buy-one-get-one
half the total. -/
theorem validateOffer_type_discount (products : Catalog) (offers : List Offer) (user : UserId)
    (now : Timestamp) (req : ValidateRequest) (resp : ValidateResponse)
    (h : validateOffer products offers user now req = .ok resp) :
    ∃ (offer : Offer) (total uncapped : ℚ), findOffer offers req.code = some offer ∧
      total = ((applicableItems (populateProducts products offer.applicableProducts)
          offer.applicableCategories req.cartItems).map fun item =>
            item.price * (item.quantity : ℚ)).sum ∧
      resp.discount = roundDiscount (applyMaximum offer uncapped) ∧
      (offer.type = .percentage → uncapped = total * (offer.value / 100)) ∧
      (offer.type = .fixed_amount → uncapped = min offer.value total) ∧
      (offer.type = .free_shipping → uncapped = 10) ∧
      (offer.type = .buy_one_get_one → uncapped = total * 0.5) := by
  obtain ⟨offer, -, hf, -, -, -, -, hd⟩ := validateOffer_ok_inv h
  rw [applicableTotal_eq_sum] at hd
  refine ⟨offer, _, typeDiscount offer _, hf, rfl, hd, ?_, ?_, ?_, ?_⟩
  all_goals
    intro ht
    simp only [typeDiscount, ht]

theorem validateOffer_type_discount_witness :
    validateOffer cat0 [offerA] 7 1500 reqA = .ok respA ∧
    ∃ (offer : Offer) (total uncapped : ℚ), findOffer [offerA] reqA.code = some offer ∧
      total = ((applicableItems (populateProducts cat0 offer.applicableProducts)
          offer.applicableCategories reqA.cartItems).map fun item =>
            item.price * (item.quantity : ℚ)).sum ∧
      respA.discount = roundDiscount (applyMaximum offer uncapped) ∧
      (offer.type = .percentage → uncapped = total * (offer.value / 100)) ∧
      (offer.type = .fixed_amount → uncapped = min offer.value total) ∧
      (offer.type = .free_shipping → uncapped = 10) ∧
      (offer.type = .buy_one_get_one → uncapped = total * 0.5) :=
  ⟨validateOffer_offerA,
    validateOffer_type_discount cat0 [offerA] 7 1500 reqA respA validateOffer_offerA⟩

/-- The cap when `maximumDiscount` is set to a value other than 0, and when it
is not set. -/
theorem applyMaximum_of_set (offer : Offer) (discount maximumDiscount : ℚ)
    (hm : offer.maximumDiscount = some maximumDiscount) (h0 : maximumDiscount ≠ 0) :
    applyMaximum offer discount = min discount maximumDiscount := by
  unfold applyMaximum
  simp only [hm, h0, ne_eq, not_false_eq_true, true_and]
  by_cases h : discount > maximumDiscount
  · rw [if_pos h, min_eq_right (le_of_lt h)]
  · rw [if_neg h, min_eq_left (not_lt.mp h)]

theorem applyMaximum_of_unset (offer : Offer) (discount : ℚ)
    (hm : offer.maximumDiscount = none) : applyMaximum offer discount = discount := by
  unfold applyMaximum
  simp [hm]

/-- C12 fails on the code at `maximumDiscount` 0: the 20% offer with its cap
set to 0 answers the cart of 37.50 with a discount of 7.50, the uncapped value,
while the smaller of 7.50 and the cap is 0. -/
theorem validateOffer_zero_maximum :
    offerC.maximumDiscount = some 0 ∧
      validateOffer cat0 [offerC] 7 1500 reqA = .ok respA ∧ respA.discount = 7.5 ∧
      applyMaximum offerC 7.5 = 7.5 ∧ min (7.5 : ℚ) 0 = 0 := by
  have hc : applyMaximum offerC 7.5 = 7.5 := by
    simp [applyMaximum, offerC]
  refine ⟨rfl, ?_, rfl, hc, by norm_num⟩
  have h := validateOffer_reqA (some 0)
  have hr : roundDiscount (applyMaximum { offerA with maximumDiscount := some 0 } 7.5) = 7.5 := by
    have : applyMaximum { offerA with maximumDiscount := some 0 } 7.5 = 7.5 := hc
    rw [this, roundDiscount_of_int 750 7.5 (by norm_num)]
    norm_num
  rw [hr] at h
  exact h

theorem roundDiscount_eq_round2 (x : ℚ) : roundDiscount x = round2 x := rfl

/-- In exact arithmetic the expression `Math.round(x * 100) / 100` is rounding
to two decimals, a half going up: on every accepted validation of the exact
model the returned discount is a whole number of hundredths within half a
hundredth of the capped discount, the upper end excluded, and a 20% offer on an
applicable total of 37.50 returns 7.50, or 5.00 when `maximumDiscount` is 5. -/
theorem validateOffer_rounding_exact (products : Catalog) (offers : List Offer) (user : UserId)
    (now : Timestamp) (req : ValidateRequest) (resp : ValidateResponse)
    (h : validateOffer products offers user now req = .ok resp) :
    ∃ (offer : Offer) (total capped : ℚ), findOffer offers req.code = some offer ∧
      total = applicableTotal (applicableItems
        (populateProducts products offer.applicableProducts) offer.applicableCategories
        req.cartItems) ∧
      capped = applyMaximum offer (typeDiscount offer total) ∧
      resp.discount = round2 capped ∧
      (∃ n : ℤ, resp.discount = n / 100 ∧ (n : ℚ) - 1 / 2 ≤ capped * 100 ∧
        capped * 100 < n + 1 / 2) ∧
      (offer.type = .percentage → offer.value = 20 → total = 37.5 →
        (offer.maximumDiscount = none → resp.discount = 7.5) ∧
        (offer.maximumDiscount = some 5 → resp.discount = 5)) := by
  obtain ⟨offer, -, hf, -, -, -, -, hd⟩ := validateOffer_ok_inv h
  refine ⟨offer, _, _, hf, rfl, rfl, hd, ?_, ?_⟩
  · refine ⟨mathRound (applyMaximum offer (typeDiscount offer (applicableTotal (applicableItems
      (populateProducts products offer.applicableProducts) offer.applicableCategories
      req.cartItems))) * 100), hd, ?_, ?_⟩
    · have := Int.floor_le (applyMaximum offer (typeDiscount offer (applicableTotal
        (applicableItems (populateProducts products offer.applicableProducts)
          offer.applicableCategories req.cartItems))) * 100 + 1 / 2)
      unfold mathRound
      linarith
    · have := Int.lt_floor_add_one (applyMaximum offer (typeDiscount offer (applicableTotal
        (applicableItems (populateProducts products offer.applicableProducts)
          offer.applicableCategories req.cartItems))) * 100 + 1 / 2)
      unfold mathRound
      linarith
  · intro ht hval htot
    have htd : typeDiscount offer (applicableTotal (applicableItems
        (populateProducts products offer.applicableProducts) offer.applicableCategories
        req.cartItems)) = 7.5 := by
      simp only [typeDiscount, ht, hval, htot]
      norm_num
    rw [htd] at hd
    refine ⟨fun hm => ?_, fun hm => ?_⟩
    · have : applyMaximum offer 7.5 = 7.5 := by simp [applyMaximum, hm]
      rw [hd, this, roundDiscount_of_int 750 7.5 (by norm_num)]
      norm_num
    · have : applyMaximum offer 7.5 = 5 := by
        simp only [applyMaximum, hm]
        norm_num
      rw [hd, this, roundDiscount_of_int 500 5 (by norm_num)]
      norm_num

theorem validateOffer_rounding_exact_witness :
    validateOffer cat0 [offerB] 7 1500 reqA = .ok respB ∧
    ∃ (offer : Offer) (total capped : ℚ), findOffer [offerB] reqA.code = some offer ∧
      total = applicableTotal (applicableItems
        (populateProducts cat0 offer.applicableProducts) offer.applicableCategories
        reqA.cartItems) ∧
      capped = applyMaximum offer (typeDiscount offer total) ∧
      respB.discount = round2 capped ∧
      (∃ n : ℤ, respB.discount = n / 100 ∧ (n : ℚ) - 1 / 2 ≤ capped * 100 ∧
        capped * 100 < n + 1 / 2) ∧
      (offer.type = .percentage → offer.value = 20 → total = 37.5 →
        (offer.maximumDiscount = none → respB.discount = 7.5) ∧
        (offer.maximumDiscount = some 5 → respB.discount = 5)) :=
  ⟨validateOffer_offerB,
    validateOffer_rounding_exact cat0 [offerB] 7 1500 reqA respB validateOffer_offerB⟩

/-! ### The rounding step in double precision

Each `double_` lemma below evaluates one rounded operation of a trace of the
handler: the binary exponent and the 53-bit significand of the result are
given to `toDouble_eq` and the side conditions are checked by computation. -/

theorem roundHalfEven_eq (x : ℚ) (m : ℤ) (h1 : (m : ℚ) - 1 / 2 < x) (h2 : x < m + 1 / 2) :
    roundHalfEven x = m := by
  unfold roundHalfEven
  by_cases hm : (m : ℚ) ≤ x
  · have hf : ⌊x⌋ = m := by
      rw [Int.floor_eq_iff]
      constructor
      · exact hm
      · linarith
    rw [hf, if_pos (by linarith)]
  · have hf : ⌊x⌋ = m - 1 := by
      rw [Int.floor_eq_iff]
      push_cast
      constructor <;> linarith
    rw [hf]
    push_cast
    rw [if_neg (by linarith), if_pos (by linarith)]
    ring

/-- Evaluating `toDouble` at a positive number: `e` is its binary exponent and
`m` the integer nearest to the number counted in units of `2 ^ (e - 52)`. -/
theorem toDouble_eq (x : ℚ) (e m : ℤ) (hx : 0 < x) (he : -1022 ≤ e)
    (hlo : (2 : ℚ) ^ e ≤ x) (hhi : x < (2 : ℚ) ^ (e + 1))
    (h1 : (m : ℚ) - 1 / 2 < x / 2 ^ (e - 52)) (h2 : x / 2 ^ (e - 52) < m + 1 / 2) :
    toDouble x = m * 2 ^ (e - 52) := by
  have hlog : Int.log 2 |x| = e := by
    rw [abs_of_pos hx]
    apply le_antisymm
    · have h := (@Int.lt_zpow_iff_log_lt ℚ _ _ 2 (by norm_num) (e + 1) x hx).mp
        (by exact_mod_cast hhi)
      omega
    · exact (@Int.zpow_le_iff_le_log ℚ _ _ 2 (by norm_num) e x hx).mp (by exact_mod_cast hlo)
  unfold toDouble
  rw [if_neg (ne_of_gt hx)]
  simp only [hlog, max_eq_left he]
  rw [roundHalfEven_eq _ m h1 h2]

theorem double_tenth : toDouble (10 / 100) = 3602879701896397 / 36028797018963968 :=
  (toDouble_eq _ (-4) 7205759403792794 (by norm_num) (by norm_num) (by norm_num) (by norm_num)
    (by norm_num) (by norm_num)).trans (by norm_num)

theorem double_priceF : toDouble 40.15 = 5650610157466419 / 140737488355328 :=
  (toDouble_eq _ 5 5650610157466419 (by norm_num) (by norm_num) (by norm_num) (by norm_num)
    (by norm_num) (by norm_num)).trans (by norm_num)

theorem double_lineF :
    toDouble (5650610157466419 / 140737488355328 * ((1 : ℤ) : ℚ)) =
      5650610157466419 / 140737488355328 :=
  (toDouble_eq _ 5 5650610157466419 (by norm_num) (by norm_num) (by norm_num) (by norm_num)
    (by norm_num) (by norm_num)).trans (by norm_num)

theorem double_sumF :
    toDouble (0 + 5650610157466419 / 140737488355328) =
      5650610157466419 / 140737488355328 :=
  (toDouble_eq _ 5 5650610157466419 (by norm_num) (by norm_num) (by norm_num) (by norm_num)
    (by norm_num) (by norm_num)).trans (by norm_num)

theorem double_discountF :
    toDouble (5650610157466419 / 140737488355328 * (3602879701896397 / 36028797018963968)) =
      4520488125973135 / 1125899906842624 :=
  (toDouble_eq _ 2 4520488125973135 (by norm_num) (by norm_num) (by norm_num) (by norm_num)
    (by norm_num) (by norm_num)).trans (by norm_num)

theorem double_centsF :
    toDouble (4520488125973135 / 1125899906842624 * 100) =
      7063262696833023 / 17592186044416 :=
  (toDouble_eq _ 8 7063262696833023 (by norm_num) (by norm_num) (by norm_num) (by norm_num)
    (by norm_num) (by norm_num)).trans (by norm_num)

theorem double_resultF : toDouble (401 / 100) = 2257429313219461 / 562949953421312 :=
  (toDouble_eq _ 2 4514858626438922 (by norm_num) (by norm_num) (by norm_num) (by norm_num)
    (by norm_num) (by norm_num)).trans (by norm_num)

theorem double_priceG : toDouble 25.45 = 7163538157286195 / 281474976710656 :=
  (toDouble_eq _ 4 7163538157286195 (by norm_num) (by norm_num) (by norm_num) (by norm_num)
    (by norm_num) (by norm_num)).trans (by norm_num)

theorem double_lineG :
    toDouble (7163538157286195 / 281474976710656 * ((1 : ℤ) : ℚ)) =
      7163538157286195 / 281474976710656 :=
  (toDouble_eq _ 4 7163538157286195 (by norm_num) (by norm_num) (by norm_num) (by norm_num)
    (by norm_num) (by norm_num)).trans (by norm_num)

theorem double_sumG :
    toDouble (0 + 7163538157286195 / 281474976710656) =
      7163538157286195 / 281474976710656 :=
  (toDouble_eq _ 4 7163538157286195 (by norm_num) (by norm_num) (by norm_num) (by norm_num)
    (by norm_num) (by norm_num)).trans (by norm_num)

theorem double_discountG :
    toDouble (7163538157286195 / 281474976710656 * (3602879701896397 / 36028797018963968)) =
      1432707631457239 / 562949953421312 :=
  (toDouble_eq _ 1 5730830525828956 (by norm_num) (by norm_num) (by norm_num) (by norm_num)
    (by norm_num) (by norm_num)).trans (by norm_num)

theorem double_centsG : toDouble (1432707631457239 / 562949953421312 * 100) = 509 / 2 :=
  (toDouble_eq _ 7 8954422696607744 (by norm_num) (by norm_num) (by norm_num) (by norm_num)
    (by norm_num) (by norm_num)).trans (by norm_num)

theorem double_resultG : toDouble (255 / 100) = 2871044762448691 / 1125899906842624 :=
  (toDouble_eq _ 1 5742089524897382 (by norm_num) (by norm_num) (by norm_num) (by norm_num)
    (by norm_num) (by norm_num)).trans (by norm_num)

theorem double_4_02 : toDouble 4.02 = 1131529406376837 / 281474976710656 :=
  (toDouble_eq _ 2 4526117625507348 (by norm_num) (by norm_num) (by norm_num) (by norm_num)
    (by norm_num) (by norm_num)).trans (by norm_num)

theorem double_2_54 : toDouble 2.54 = 2859785763380265 / 1125899906842624 :=
  (toDouble_eq _ 1 5719571526760530 (by norm_num) (by norm_num) (by norm_num) (by norm_num)
    (by norm_num) (by norm_num)).trans (by norm_num)

theorem double_fifth : toDouble (20 / 100) = 3602879701896397 / 18014398509481984 :=
  (toDouble_eq _ (-3) 7205759403792794 (by norm_num) (by norm_num) (by norm_num) (by norm_num)
    (by norm_num) (by norm_num)).trans (by norm_num)

theorem double_7_5 : toDouble (37.5 * (3602879701896397 / 18014398509481984)) = 15 / 2 :=
  (toDouble_eq _ 2 8444249301319680 (by norm_num) (by norm_num) (by norm_num) (by norm_num)
    (by norm_num) (by norm_num)).trans (by norm_num)

theorem double_750 : toDouble (7.5 * 100) = 750 :=
  (toDouble_eq _ 9 6597069766656000 (by norm_num) (by norm_num) (by norm_num) (by norm_num)
    (by norm_num) (by norm_num)).trans (by norm_num)

theorem double_750_100 : toDouble (750 / 100) = 15 / 2 :=
  (toDouble_eq _ 2 8444249301319680 (by norm_num) (by norm_num) (by norm_num) (by norm_num)
    (by norm_num) (by norm_num)).trans (by norm_num)

theorem double_500 : toDouble (5 * 100) = 500 :=
  (toDouble_eq _ 8 8796093022208000 (by norm_num) (by norm_num) (by norm_num) (by norm_num)
    (by norm_num) (by norm_num)).trans (by norm_num)

theorem double_500_100 : toDouble (500 / 100) = 5 :=
  (toDouble_eq _ 2 5629499534213120 (by norm_num) (by norm_num) (by norm_num) (by norm_num)
    (by norm_num) (by norm_num)).trans (by norm_num)

theorem double_line_reqA : toDouble (12.5 * ((3 : ℤ) : ℚ)) = 75 / 2 :=
  (toDouble_eq _ 5 5277655813324800 (by norm_num) (by norm_num) (by norm_num) (by norm_num)
    (by norm_num) (by norm_num)).trans (by norm_num)

theorem double_sum_reqA : toDouble (0 + 75 / 2) = 75 / 2 :=
  (toDouble_eq _ 5 5277655813324800 (by norm_num) (by norm_num) (by norm_num) (by norm_num)
    (by norm_num) (by norm_num)).trans (by norm_num)

theorem double_2_55 : toDouble 2.55 = 2871044762448691 / 1125899906842624 :=
  (toDouble_eq _ 1 5742089524897382 (by norm_num) (by norm_num) (by norm_num) (by norm_num)
    (by norm_num) (by norm_num)).trans (by norm_num)

theorem double_4_01 : toDouble 4.01 = 2257429313219461 / 562949953421312 :=
  (toDouble_eq _ 2 4514858626438922 (by norm_num) (by norm_num) (by norm_num) (by norm_num)
    (by norm_num) (by norm_num)).trans (by norm_num)

/-- The double-precision handler once the request passed the validators and
the offer was found. -/
theorem validateOfferD_of_found (products : Catalog) (offers : List Offer) (user : UserId)
    (now : Timestamp) (req : ValidateRequest) (offer : Offer)
    (hv : validateRequestOk req = true) (hf : findOffer offers req.code = some offer) :
    validateOfferD products offers user now req =
      if offer.isValid now = false then .error .notValid
      else if offer.canUserUse user now = false then .error .alreadyUsed
      else if req.cartTotal < offer.minimumOrderAmount then
        .error (.belowMinimum offer.minimumOrderAmount)
      else if applicableItems (populateProducts products offer.applicableProducts)
          offer.applicableCategories req.cartItems = [] then .error .noApplicableItems
      else
        .ok { isValid := true,
              discount := roundDiscountD (applyMaximum offer (typeDiscountD offer
                (applicableTotalD (applicableItems
                  (populateProducts products offer.applicableProducts)
                  offer.applicableCategories req.cartItems)))),
              offer := { title := offer.title, code := offer.code, type := offer.type,
                         value := offer.value } } := by
  unfold validateOfferD
  simp [hv, hf]

/-- What an accepted validation went through, in double precision. -/
theorem validateOfferD_ok_inv {products : Catalog} {offers : List Offer} {user : UserId}
    {now : Timestamp} {req : ValidateRequest} {resp : ValidateResponse}
    (h : validateOfferD products offers user now req = .ok resp) :
    ∃ offer, validateRequestOk req = true ∧ findOffer offers req.code = some offer ∧
      resp.discount = roundDiscountD (applyMaximum offer (typeDiscountD offer (applicableTotalD
        (applicableItems (populateProducts products offer.applicableProducts)
          offer.applicableCategories req.cartItems)))) := by
  cases hv : validateRequestOk req with
  | false => simp [validateOfferD, hv] at h
  | true =>
    cases hf : findOffer offers req.code with
    | none => simp [validateOfferD, hv, hf] at h
    | some offer =>
      rw [validateOfferD_of_found products offers user now req offer hv hf] at h
      refine ⟨offer, rfl, rfl, ?_⟩
      by_cases h1 : offer.isValid now = false
      · simp [h1] at h
      by_cases h2 : offer.canUserUse user now = false
      · simp [h1, h2] at h
      by_cases h3 : req.cartTotal < offer.minimumOrderAmount
      · simp [h1, h2, h3] at h
      by_cases h4 : applicableItems (populateProducts products offer.applicableProducts)
          offer.applicableCategories req.cartItems = []
      · simp [h1, h2, h3, h4] at h
      rw [if_neg h1, if_neg h2, if_neg h3, if_neg h4] at h
      simp only [Except.ok.injEq] at h
      subst h
      rfl

theorem mathRound_eq (x : ℚ) (n : ℤ) (h1 : (n : ℚ) - 1 / 2 ≤ x) (h2 : x < n + 1 / 2) :
    mathRound x = n := by
  unfold mathRound
  rw [Int.floor_eq_iff]
  constructor <;> linarith

/-- The rounding step on the discount held for the cart of 40.15 at 10%. -/
theorem roundDiscountD_F :
    roundDiscountD (4520488125973135 / 1125899906842624) = toDouble 4.01 := by
  unfold roundDiscountD
  rw [double_centsF, mathRound_eq _ 401 (by norm_num) (by norm_num), double_4_01]
  exact double_resultF

/-- The rounding step on the discount held for the cart of 25.45 at 10%. -/
theorem roundDiscountD_G :
    roundDiscountD (1432707631457239 / 562949953421312) = toDouble 2.55 := by
  unfold roundDiscountD
  rw [double_centsG, mathRound_eq _ 255 (by norm_num) (by norm_num), double_2_55]
  exact double_resultG

theorem cappedD_F :
    applyMaximum offerE (typeDiscountD offerE (applicableTotalD reqF.cartItems)) =
      4520488125973135 / 1125899906842624 := by
  have ht : applicableTotalD reqF.cartItems = 5650610157466419 / 140737488355328 := by
    simp only [applicableTotalD, reqF, List.foldl]
    rw [double_priceF, double_lineF, double_sumF]
  have hd : typeDiscountD offerE (5650610157466419 / 140737488355328) =
      4520488125973135 / 1125899906842624 := by
    simp only [typeDiscountD, offerE, offerA]
    rw [double_tenth, double_discountF]
  rw [ht, hd]
  rfl

theorem cappedD_G :
    applyMaximum offerE (typeDiscountD offerE (applicableTotalD reqG.cartItems)) =
      1432707631457239 / 562949953421312 := by
  have ht : applicableTotalD reqG.cartItems = 7163538157286195 / 281474976710656 := by
    simp only [applicableTotalD, reqG, List.foldl]
    rw [double_priceG, double_lineG, double_sumG]
  have hd : typeDiscountD offerE (7163538157286195 / 281474976710656) =
      1432707631457239 / 562949953421312 := by
    simp only [typeDiscountD, offerE, offerA]
    rw [double_tenth, double_discountG]
  rw [ht, hd]
  rfl

theorem validateOfferD_reqF :
    validateOfferD cat0 [offerE] 7 1500 reqF = .ok (respE (toDouble 4.01)) := by
  have h0 : (0 : ℚ) ≤ toDouble 40.15 := by rw [double_priceF]; norm_num
  have hv : validateRequestOk reqF = true := by
    simp [validateRequestOk, reqF, notEmptyTrimmed, h0]
  rw [validateOfferD_of_found cat0 _ 7 1500 reqF offerE hv (by rfl)]
  have h1 : Offer.isValid offerE 1500 = true := by rfl
  have h2 : Offer.canUserUse offerE 7 1500 = true := by rfl
  have h3 : ¬ reqF.cartTotal < offerE.minimumOrderAmount := by
    simp only [reqF, offerE, offerA]
    rw [double_priceF]
    norm_num
  have h4 : applicableItems (populateProducts cat0 offerE.applicableProducts)
      offerE.applicableCategories reqF.cartItems = reqF.cartItems := by rfl
  have h5 : reqF.cartItems ≠ [] := by simp [reqF]
  simp only [h1, h2, h3, h4, h5, cappedD_F, roundDiscountD_F, if_false, Bool.true_eq_false]
  rfl

theorem validateOfferD_reqG :
    validateOfferD cat0 [offerE] 7 1500 reqG = .ok (respE (toDouble 2.55)) := by
  have h0 : (0 : ℚ) ≤ toDouble 25.45 := by rw [double_priceG]; norm_num
  have hv : validateRequestOk reqG = true := by
    simp [validateRequestOk, reqG, notEmptyTrimmed, h0]
  rw [validateOfferD_of_found cat0 _ 7 1500 reqG offerE hv (by rfl)]
  have h1 : Offer.isValid offerE 1500 = true := by rfl
  have h2 : Offer.canUserUse offerE 7 1500 = true := by rfl
  have h3 : ¬ reqG.cartTotal < offerE.minimumOrderAmount := by
    simp only [reqG, offerE, offerA]
    rw [double_priceG]
    norm_num
  have h4 : applicableItems (populateProducts cat0 offerE.applicableProducts)
      offerE.applicableCategories reqG.cartItems = reqG.cartItems := by rfl
  have h5 : reqG.cartItems ≠ [] := by simp [reqG]
  simp only [h1, h2, h3, h4, h5, cappedD_G, roundDiscountD_G, if_false, Bool.true_eq_false]
  rfl

/-- C13 as stated fails on the code.  For one item priced 40.15 the 10% offer
returns the Number written 4.01, while 10% of 40.15 is 4.015, which rounds,
a half going up, to 4.02.  For one item priced 25.45 the handler holds as
capped discount a Number just below 2.545, whose rounding to two decimals is
2.54, and returns the Number written 2.55. -/
theorem validateOfferD_not_half_up :
    validateOfferD cat0 [offerE] 7 1500 reqF = .ok (respE (toDouble 4.01)) ∧
      round2 (40.15 * (10 / 100)) = 4.02 ∧ toDouble 4.01 ≠ toDouble 4.02 ∧
      validateOfferD cat0 [offerE] 7 1500 reqG = .ok (respE (toDouble 2.55)) ∧
      round2 (applyMaximum offerE (typeDiscountD offerE (applicableTotalD reqG.cartItems))) =
        2.54 ∧
      toDouble 2.55 ≠ toDouble 2.54 := by
  refine ⟨validateOfferD_reqF, ?_, ?_, validateOfferD_reqG, ?_, ?_⟩
  · unfold round2
    have : ⌊(40.15 : ℚ) * (10 / 100) * 100 + 1 / 2⌋ = 402 := by
      rw [Int.floor_eq_iff]
      constructor <;> norm_num
    rw [this]
    norm_num
  · rw [double_4_01, double_4_02]
    norm_num
  · rw [cappedD_G]
    unfold round2
    have : ⌊(1432707631457239 / 562949953421312 : ℚ) * 100 + 1 / 2⌋ = 254 := by
      rw [Int.floor_eq_iff]
      constructor <;> norm_num
    rw [this]
    norm_num
  · rw [double_2_55, double_2_54]
    norm_num

/-- The capped discount of 7.50 and of 5.00 through the rounding step. -/
theorem roundDiscountD_7_5 : roundDiscountD 7.5 = 7.5 := by
  unfold roundDiscountD
  rw [double_750, mathRound_eq _ 750 (by norm_num) (by norm_num)]
  have h := double_750_100
  norm_num at h ⊢
  exact h

theorem roundDiscountD_5 : roundDiscountD 5 = 5 := by
  unfold roundDiscountD
  rw [double_500, mathRound_eq _ 500 (by norm_num) (by norm_num)]
  have h := double_500_100
  norm_num at h ⊢
  exact h

/-- In double precision 20% of 37.50 is 7.50. -/
theorem typeDiscountD_fifth (offer : Offer) (ht : offer.type = .percentage)
    (hv : offer.value = 20) : typeDiscountD offer 37.5 = 7.5 := by
  simp only [typeDiscountD, ht, hv]
  rw [double_fifth, double_7_5]
  norm_num

theorem validateOfferD_offerB : validateOfferD cat0 [offerB] 7 1500 reqA = .ok respB := by
  rw [validateOfferD_of_found cat0 _ 7 1500 reqA offerB validateRequestOk_reqA (by rfl)]
  have h1 : Offer.isValid offerB 1500 = true := by rfl
  have h2 : Offer.canUserUse offerB 7 1500 = true := by rfl
  have h3 : ¬ reqA.cartTotal < offerB.minimumOrderAmount := by
    simp only [reqA, offerB, offerA]; norm_num
  have h4 : applicableItems (populateProducts cat0 offerB.applicableProducts)
      offerB.applicableCategories reqA.cartItems = reqA.cartItems := by rfl
  have h5 : reqA.cartItems ≠ [] := by decide
  have ht : applicableTotalD reqA.cartItems = 37.5 := by
    simp only [applicableTotalD, reqA, List.foldl]
    rw [double_line_reqA, double_sum_reqA]
    norm_num
  have hc : applyMaximum offerB 7.5 = 5 := by
    simp only [applyMaximum, offerB]
    norm_num
  simp only [h1, h2, h3, h4, h5, ht, typeDiscountD_fifth offerB rfl rfl, hc, roundDiscountD_5,
    if_false, Bool.true_eq_false]
  rfl

/-- C13, as the code has it: on every accepted offer validation the returned
discount is `Math.round(capped * 100) / 100` evaluated in double precision.
It is the Number nearest to `n / 100`, where the integer `n` is the Number
`capped * 100` rounded to the nearest integer, a half going up; when the
product `capped * 100` is exact this is the capped discount rounded to two
decimals, a half going up, as a Number.  A 20% offer on an applicable total
of 37.50 returns 7.50, and 5.00 when `maximumDiscount` is 5. -/
theorem validateOfferD_rounding (products : Catalog) (offers : List Offer) (user : UserId)
    (now : Timestamp) (req : ValidateRequest) (resp : ValidateResponse)
    (h : validateOfferD products offers user now req = .ok resp) :
    ∃ (offer : Offer) (total capped : ℚ), findOffer offers req.code = some offer ∧
      total = applicableTotalD (applicableItems
        (populateProducts products offer.applicableProducts) offer.applicableCategories
        req.cartItems) ∧
      capped = applyMaximum offer (typeDiscountD offer total) ∧
      (∃ n : ℤ, resp.discount = toDouble (n / 100) ∧ (n : ℚ) - 1 / 2 ≤ toDouble (capped * 100) ∧
        toDouble (capped * 100) < n + 1 / 2) ∧
      (toDouble (capped * 100) = capped * 100 → resp.discount = toDouble (round2 capped)) ∧
      (offer.type = .percentage → offer.value = 20 → total = 37.5 →
        (offer.maximumDiscount = none → resp.discount = 7.5) ∧
        (offer.maximumDiscount = some 5 → resp.discount = 5)) := by
  obtain ⟨offer, -, hf, hd⟩ := validateOfferD_ok_inv h
  refine ⟨offer, _, _, hf, rfl, rfl, ?_, ?_, ?_⟩
  · refine ⟨mathRound (toDouble (applyMaximum offer (typeDiscountD offer (applicableTotalD
      (applicableItems (populateProducts products offer.applicableProducts)
        offer.applicableCategories req.cartItems))) * 100)), hd, ?_, ?_⟩
    · have := Int.floor_le (toDouble (applyMaximum offer (typeDiscountD offer (applicableTotalD
        (applicableItems (populateProducts products offer.applicableProducts)
          offer.applicableCategories req.cartItems))) * 100) + 1 / 2)
      unfold mathRound
      linarith
    · have := Int.lt_floor_add_one (toDouble (applyMaximum offer (typeDiscountD offer
        (applicableTotalD (applicableItems (populateProducts products offer.applicableProducts)
          offer.applicableCategories req.cartItems))) * 100) + 1 / 2)
      unfold mathRound
      linarith
  · intro hex
    rw [hd]
    unfold roundDiscountD
    rw [hex]
    rfl
  · intro ht hval htot
    rw [htot, typeDiscountD_fifth offer ht hval] at hd
    refine ⟨fun hm => ?_, fun hm => ?_⟩
    · have : applyMaximum offer 7.5 = 7.5 := by simp [applyMaximum, hm]
      rw [hd, this, roundDiscountD_7_5]
    · have : applyMaximum offer 7.5 = 5 := by
        simp only [applyMaximum, hm]
        norm_num
      rw [hd, this, roundDiscountD_5]

theorem validateOfferD_rounding_witness :
    validateOfferD cat0 [offerB] 7 1500 reqA = .ok respB ∧
    ∃ (offer : Offer) (total capped : ℚ), findOffer [offerB] reqA.code = some offer ∧
      total = applicableTotalD (applicableItems
        (populateProducts cat0 offer.applicableProducts) offer.applicableCategories
        reqA.cartItems) ∧
      capped = applyMaximum offer (typeDiscountD offer total) ∧
      (∃ n : ℤ, respB.discount = toDouble (n / 100) ∧
        (n : ℚ) - 1 / 2 ≤ toDouble (capped * 100) ∧ toDouble (capped * 100) < n + 1 / 2) ∧
      (toDouble (capped * 100) = capped * 100 → respB.discount = toDouble (round2 capped)) ∧
      (offer.type = .percentage → offer.value = 20 → total = 37.5 →
        (offer.maximumDiscount = none → respB.discount = 7.5) ∧
        (offer.maximumDiscount = some 5 → respB.discount = 5)) :=
  ⟨validateOfferD_offerB,
    validateOfferD_rounding cat0 [offerB] 7 1500 reqA respB validateOfferD_offerB⟩

/-- C14: `isValid` at time `now` holds exactly when the offer is active, `now`
lies between the start and the end date, both included, and the usage limit is
unset or the usage count is strictly below it; it is false when the usage count
equals the usage limit. -/
theorem isValid_iff (offer : Offer) (now : Timestamp) :
    (offer.isValid now = true ↔
        offer.isActive = true ∧ offer.startDate ≤ now ∧ now ≤ offer.endDate ∧
          (offer.usageLimit = none ∨
            ∃ usageLimit, offer.usageLimit = some usageLimit ∧ offer.usageCount < usageLimit)) ∧
      (offer.usageLimit = some offer.usageCount → offer.isValid now = false) := by
  unfold Offer.isValid
  cases hl : offer.usageLimit with
  | none => simp [and_assoc]
  | some l =>
    refine ⟨by simp [and_assoc], ?_⟩
    intro hl'
    simp only [Option.some.injEq] at hl'
    subst hl'
    simp

theorem isValid_iff_witness :
    (offerA.isValid 2000 = true ↔
        offerA.isActive = true ∧ offerA.startDate ≤ 2000 ∧ 2000 ≤ offerA.endDate ∧
          (offerA.usageLimit = none ∨
            ∃ usageLimit, offerA.usageLimit = some usageLimit ∧
              offerA.usageCount < usageLimit)) ∧
      (offerA.usageLimit = some offerA.usageCount → offerA.isValid 2000 = false) :=
  isValid_iff offerA 2000

/-- C15: `canUserUse` holds exactly when the offer is valid and the number of
`usedBy` entries of the user is strictly below `userUsageLimit`; it is false
once that number reaches the limit, and false whenever the offer is not
valid. -/
theorem canUserUse_iff (offer : Offer) (userId : UserId) (now : Timestamp) :
    (offer.canUserUse userId now = true ↔
        offer.isValid now = true ∧
          ((offer.usedBy.filter fun usage => usage.user = userId).length : ℤ) <
            offer.userUsageLimit) ∧
      (offer.userUsageLimit ≤ ((offer.usedBy.filter fun usage => usage.user = userId).length : ℤ) →
        offer.canUserUse userId now = false) ∧
      (offer.isValid now = false → offer.canUserUse userId now = false) := by
  unfold Offer.canUserUse
  cases hv : offer.isValid now with
  | false => simp
  | true =>
    refine ⟨by simp, ?_, by simp⟩
    intro hle
    simp only [Bool.not_true, Bool.false_eq_true, if_false, decide_eq_false_iff_not, not_lt]
    exact hle

theorem canUserUse_iff_witness :
    (offerA.canUserUse 4 1500 = true ↔
        offerA.isValid 1500 = true ∧
          ((offerA.usedBy.filter fun usage => usage.user = 4).length : ℤ) <
            offerA.userUsageLimit) ∧
      (offerA.userUsageLimit ≤ ((offerA.usedBy.filter fun usage => usage.user = 4).length : ℤ) →
        offerA.canUserUse 4 1500 = false) ∧
      (offerA.isValid 1500 = false → offerA.canUserUse 4 1500 = false) :=
  canUserUse_iff offerA 4 1500

/-- C16: for a request that passed the validator chain and whose offer was
found, is valid and may be used by the caller, the answer is the minimum-order
rejection exactly when the cart total is strictly below the offer's
`minimumOrderAmount`; a cart total equal to it is not rejected for that
reason. -/
theorem validateOffer_below_minimum (products : Catalog) (offers : List Offer) (user : UserId)
    (now : Timestamp) (req : ValidateRequest) (offer : Offer)
    (hv : validateRequestOk req = true) (hf : findOffer offers req.code = some offer)
    (hvalid : offer.isValid now = true) (huser : offer.canUserUse user now = true) :
    ((∃ m, validateOffer products offers user now req = .error (.belowMinimum m)) ↔
        req.cartTotal < offer.minimumOrderAmount) ∧
      (req.cartTotal < offer.minimumOrderAmount →
        validateOffer products offers user now req =
          .error (.belowMinimum offer.minimumOrderAmount)) ∧
      (req.cartTotal = offer.minimumOrderAmount →
        ∀ m, validateOffer products offers user now req ≠ .error (.belowMinimum m)) := by
  have hrun := validateOffer_of_found products offers user now req offer hv hf
  simp only [hvalid, huser, Bool.true_eq_false, if_false] at hrun
  have hlt : req.cartTotal < offer.minimumOrderAmount →
      validateOffer products offers user now req =
        .error (.belowMinimum offer.minimumOrderAmount) := by
    intro h
    rw [hrun, if_pos h]
  have hge : ¬ req.cartTotal < offer.minimumOrderAmount →
      ∀ m, validateOffer products offers user now req ≠ .error (.belowMinimum m) := by
    intro h m
    rw [hrun, if_neg h]
    split <;> simp
  refine ⟨⟨?_, fun h => ⟨_, hlt h⟩⟩, hlt, ?_⟩
  · rintro ⟨m, hm⟩
    by_contra hnot
    exact hge hnot m hm
  · intro heq
    exact hge (by rw [heq]; exact lt_irrefl _)

theorem validateOffer_below_minimum_witness :
    (validateRequestOk reqA = true ∧ findOffer [offerA] reqA.code = some offerA ∧
      offerA.isValid 1500 = true ∧ offerA.canUserUse 7 1500 = true) ∧
    (((∃ m, validateOffer cat0 [offerA] 7 1500 reqA = .error (.belowMinimum m)) ↔
        reqA.cartTotal < offerA.minimumOrderAmount) ∧
      (reqA.cartTotal < offerA.minimumOrderAmount →
        validateOffer cat0 [offerA] 7 1500 reqA =
          .error (.belowMinimum offerA.minimumOrderAmount)) ∧
      (reqA.cartTotal = offerA.minimumOrderAmount →
        ∀ m, validateOffer cat0 [offerA] 7 1500 reqA ≠ .error (.belowMinimum m))) :=
  ⟨⟨validateRequestOk_reqA, by decide, by decide, by decide⟩,
    validateOffer_below_minimum cat0 [offerA] 7 1500 reqA offerA validateRequestOk_reqA
      (by decide) (by decide) (by decide)⟩

theorem mem_any_eq (l : List ProductId) (x : ProductId) :
    (l.any fun p => decide (p = x)) = decide (x ∈ l) := by
  induction l with
  | nil => simp
  | cons y l ih =>
    simp only [List.any_cons, ih, List.mem_cons]
    by_cases h : y = x
    · simp [h]
    · have h' : ¬ x = y := fun e => h e.symm
      simp [h, h']

/-- C17: for a request that passed the earlier checks, the applicable items
are the cart items whose product is in the offer's populated
`applicableProducts` when that list is not empty, and all cart items when it
is empty, whatever `applicableCategories` holds; the answer is the
no-applicable-items rejection exactly when no item is applicable, and otherwise
the discount is computed from the applicable items.  The populated list is the
stored one when every product it refers to exists. -/
theorem validateOffer_applicable_items (products : Catalog) (offers : List Offer)
    (user : UserId) (now : Timestamp) (req : ValidateRequest) (offer : Offer)
    (hv : validateRequestOk req = true) (hf : findOffer offers req.code = some offer)
    (hvalid : offer.isValid now = true) (huser : offer.canUserUse user now = true)
    (hmin : ¬ req.cartTotal < offer.minimumOrderAmount) :
    (populateProducts products offer.applicableProducts ≠ [] →
        applicableItems (populateProducts products offer.applicableProducts)
            offer.applicableCategories req.cartItems =
          req.cartItems.filter fun item =>
            decide (item.product ∈ populateProducts products offer.applicableProducts)) ∧
      (populateProducts products offer.applicableProducts = [] →
        applicableItems (populateProducts products offer.applicableProducts)
            offer.applicableCategories req.cartItems = req.cartItems) ∧
      (validateOffer products offers user now req = .error .noApplicableItems ↔
        applicableItems (populateProducts products offer.applicableProducts)
          offer.applicableCategories req.cartItems = []) ∧
      (applicableItems (populateProducts products offer.applicableProducts)
          offer.applicableCategories req.cartItems ≠ [] →
        ∃ resp, validateOffer products offers user now req = .ok resp ∧
          resp.discount = roundDiscount (applyMaximum offer (typeDiscount offer
            ((applicableItems (populateProducts products offer.applicableProducts)
              offer.applicableCategories req.cartItems).map fun item =>
                item.price * (item.quantity : ℚ)).sum))) ∧
      ((∀ id ∈ offer.applicableProducts, (products id).isSome = true) →
        populateProducts products offer.applicableProducts = offer.applicableProducts) := by
  have hrun := validateOffer_of_found products offers user now req offer hv hf
  simp only [hvalid, huser, hmin, Bool.true_eq_false, if_false] at hrun
  refine ⟨?_, ?_, ?_, ?_, ?_⟩
  · intro hne
    have hpos : (populateProducts products offer.applicableProducts).length > 0 :=
      List.length_pos.mpr hne
    unfold applicableItems
    rw [if_pos hpos]
    congr 1
    funext item
    exact mem_any_eq _ _
  · intro he
    unfold applicableItems
    simp [he]
  · rw [hrun]
    split <;> simp [*]
  · intro hne
    rw [hrun, if_neg hne]
    exact ⟨_, rfl, by rw [applicableTotal_eq_sum]⟩
  · intro hall
    unfold populateProducts
    rw [List.filter_eq_self]
    exact hall

theorem validateRequestOk_reqD : validateRequestOk reqD = true := by
  simp [validateRequestOk, reqD, notEmptyTrimmed]
  norm_num

theorem cartTotal_reqD : ¬ reqD.cartTotal < offerD.minimumOrderAmount := by
  simp only [reqD, offerD, offerA]
  norm_num

theorem validateOffer_applicable_items_witness :
    (validateRequestOk reqD = true ∧ findOffer [offerD] reqD.code = some offerD ∧
      offerD.isValid 1500 = true ∧ offerD.canUserUse 7 1500 = true ∧
      ¬ reqD.cartTotal < offerD.minimumOrderAmount ∧
      populateProducts cat0 offerD.applicableProducts = [1]) ∧
    ((populateProducts cat0 offerD.applicableProducts ≠ [] →
        applicableItems (populateProducts cat0 offerD.applicableProducts)
            offerD.applicableCategories reqD.cartItems =
          reqD.cartItems.filter fun item =>
            decide (item.product ∈ populateProducts cat0 offerD.applicableProducts)) ∧
      (populateProducts cat0 offerD.applicableProducts = [] →
        applicableItems (populateProducts cat0 offerD.applicableProducts)
            offerD.applicableCategories reqD.cartItems = reqD.cartItems) ∧
      (validateOffer cat0 [offerD] 7 1500 reqD = .error .noApplicableItems ↔
        applicableItems (populateProducts cat0 offerD.applicableProducts)
          offerD.applicableCategories reqD.cartItems = []) ∧
      (applicableItems (populateProducts cat0 offerD.applicableProducts)
          offerD.applicableCategories reqD.cartItems ≠ [] →
        ∃ resp, validateOffer cat0 [offerD] 7 1500 reqD = .ok resp ∧
          resp.discount = roundDiscount (applyMaximum offerD (typeDiscount offerD
            ((applicableItems (populateProducts cat0 offerD.applicableProducts)
              offerD.applicableCategories reqD.cartItems).map fun item =>
                item.price * (item.quantity : ℚ)).sum))) ∧
      ((∀ id ∈ offerD.applicableProducts, (cat0 id).isSome = true) →
        populateProducts cat0 offerD.applicableProducts = offerD.applicableProducts)) :=
  ⟨⟨validateRequestOk_reqD, by rfl, by decide, by decide, cartTotal_reqD, by decide⟩,
    validateOffer_applicable_items cat0 [offerD] 7 1500 reqD offerD validateRequestOk_reqD
      (by rfl) (by decide) (by decide) cartTotal_reqD⟩

/-! ## Properties of the registration pipelines -/

/-- The register handler on an existing active event. -/
theorem registerForEvent_of_active (events : Events) (id : EventId) (user : UserId)
    (now : Timestamp) (event : Event) (he : events id = some event)
    (ha : event.isActive = true) :
    registerForEvent events id user now =
      if event.date < now then (events, .error .pastDeadline)
      else if ∃ reg ∈ event.registrations, reg.user = user then
        (events, .error .alreadyRegistered)
      else if (event.activeCount : ℤ) ≥ event.capacity then (events, .error .full)
      else
        (Function.update events id (some { event with
            registrations := event.registrations ++ [newRegistration event user now] }),
          .ok { event with
            registrations := event.registrations ++ [newRegistration event user now] }) := by
  unfold registerForEvent
  simp only [he, ha, Bool.not_true, Bool.false_eq_true, if_false]
  by_cases hd : event.date < now
  · simp only [hd, if_true]
  · simp only [hd, if_false]
    cases hfind : event.registrations.find? fun reg => decide (reg.user = user) with
    | some reg =>
      have hex : ∃ reg ∈ event.registrations, reg.user = user := by
        have hmem := List.mem_of_find?_eq_some hfind
        have hp := List.find?_some hfind
        exact ⟨reg, hmem, by simpa using hp⟩
      simp only [hex, if_true]
    | none =>
      have hex : ¬ ∃ reg ∈ event.registrations, reg.user = user := by
        rintro ⟨reg, hmem, hu⟩
        have := List.find?_eq_none.mp hfind reg hmem
        simp [hu] at this
      simp only [hex, if_false]
      rfl

/-- The join handler on an existing active meetup. -/
theorem joinMeetup_of_active (meetups : Meetups) (id : MeetupId) (user : UserId)
    (now : Timestamp) (meetup : Meetup) (he : meetups id = some meetup)
    (ha : meetup.isActive = true) :
    joinMeetup meetups id user now =
      if meetup.date < now then (meetups, .error .pastDeadline)
      else if ∃ att ∈ meetup.attendees, att.user = user then
        (meetups, .error .alreadyRegistered)
      else if (meetup.activeCount : ℤ) ≥ meetup.maxAttendees then (meetups, .error .full)
      else
        (Function.update meetups id (some { meetup with
            attendees := meetup.attendees ++ [newAttendee meetup user now] }),
          .ok { meetup with
            attendees := meetup.attendees ++ [newAttendee meetup user now] }) := by
  unfold joinMeetup
  simp only [he, ha, Bool.not_true, Bool.false_eq_true, if_false]
  by_cases hd : meetup.date < now
  · simp only [hd, if_true]
  · simp only [hd, if_false]
    cases hfind : meetup.attendees.find? fun att => decide (att.user = user) with
    | some att =>
      have hex : ∃ att ∈ meetup.attendees, att.user = user := by
        have hmem := List.mem_of_find?_eq_some hfind
        have hp := List.find?_some hfind
        exact ⟨att, hmem, by simpa using hp⟩
      simp only [hex, if_true]
    | none =>
      have hex : ¬ ∃ att ∈ meetup.attendees, att.user = user := by
        rintro ⟨att, hmem, hu⟩
        have := List.find?_eq_none.mp hfind att hmem
        simp [hu] at this
      simp only [hex, if_false]
      rfl

/-- The outcome of the register handler on an existing active event. -/
theorem registerForEvent_outcome (events : Events) (id : EventId) (user : UserId)
    (now : Timestamp) (event : Event) (he : events id = some event)
    (ha : event.isActive = true) :
    ((∃ saved, (registerForEvent events id user now).2 = .ok saved) ↔
        now ≤ event.date ∧ (∀ reg ∈ event.registrations, reg.user ≠ user) ∧
          (event.activeCount : ℤ) < event.capacity) ∧
      (event.date < now →
        registerForEvent events id user now = (events, .error .pastDeadline)) ∧
      (now ≤ event.date → (∃ reg ∈ event.registrations, reg.user = user) →
        registerForEvent events id user now = (events, .error .alreadyRegistered)) ∧
      (now ≤ event.date → (∀ reg ∈ event.registrations, reg.user ≠ user) →
        event.capacity ≤ (event.activeCount : ℤ) →
        registerForEvent events id user now = (events, .error .full)) := by
  have hrun := registerForEvent_of_active events id user now event he ha
  have hex : (∀ reg ∈ event.registrations, reg.user ≠ user) ↔
      ¬ ∃ reg ∈ event.registrations, reg.user = user := by
    constructor
    · rintro h ⟨reg, hm, hu⟩
      exact h reg hm hu
    · intro h reg hm hu
      exact h ⟨reg, hm, hu⟩
  refine ⟨⟨?_, ?_⟩, ?_, ?_, ?_⟩
  · rintro ⟨saved, hs⟩
    rw [hrun] at hs
    by_cases hd : event.date < now
    · simp [hd] at hs
    by_cases hu : ∃ reg ∈ event.registrations, reg.user = user
    · simp [hd, hu] at hs
    by_cases hc : (event.activeCount : ℤ) ≥ event.capacity
    · rw [if_neg hd, if_neg hu, if_pos hc] at hs
      simp at hs
    exact ⟨not_lt.mp hd, hex.mpr hu, not_le.mp hc⟩
  · rintro ⟨hd, hu, hc⟩
    rw [hrun, if_neg (not_lt.mpr hd), if_neg (hex.mp hu), if_neg (not_le.mpr hc)]
    exact ⟨_, rfl⟩
  · intro hd
    rw [hrun, if_pos hd]
  · intro hd hu
    rw [hrun, if_neg (not_lt.mpr hd), if_pos hu]
  · intro hd hu hc
    rw [hrun, if_neg (not_lt.mpr hd), if_neg (hex.mp hu), if_pos hc]

/-- The outcome of the join handler on an existing active meetup. -/
theorem joinMeetup_outcome (meetups : Meetups) (id : MeetupId) (user : UserId)
    (now : Timestamp) (meetup : Meetup) (he : meetups id = some meetup)
    (ha : meetup.isActive = true) :
    ((∃ saved, (joinMeetup meetups id user now).2 = .ok saved) ↔
        now ≤ meetup.date ∧ (∀ att ∈ meetup.attendees, att.user ≠ user) ∧
          (meetup.activeCount : ℤ) < meetup.maxAttendees) ∧
      (meetup.date < now →
        joinMeetup meetups id user now = (meetups, .error .pastDeadline)) ∧
      (now ≤ meetup.date → (∃ att ∈ meetup.attendees, att.user = user) →
        joinMeetup meetups id user now = (meetups, .error .alreadyRegistered)) ∧
      (now ≤ meetup.date → (∀ att ∈ meetup.attendees, att.user ≠ user) →
        meetup.maxAttendees ≤ (meetup.activeCount : ℤ) →
        joinMeetup meetups id user now = (meetups, .error .full)) := by
  have hrun := joinMeetup_of_active meetups id user now meetup he ha
  have hex : (∀ att ∈ meetup.attendees, att.user ≠ user) ↔
      ¬ ∃ att ∈ meetup.attendees, att.user = user := by
    constructor
    · rintro h ⟨att, hm, hu⟩
      exact h att hm hu
    · intro h att hm hu
      exact h ⟨att, hm, hu⟩
  refine ⟨⟨?_, ?_⟩, ?_, ?_, ?_⟩
  · rintro ⟨saved, hs⟩
    rw [hrun] at hs
    by_cases hd : meetup.date < now
    · simp [hd] at hs
    by_cases hu : ∃ att ∈ meetup.attendees, att.user = user
    · simp [hd, hu] at hs
    by_cases hc : (meetup.activeCount : ℤ) ≥ meetup.maxAttendees
    · rw [if_neg hd, if_neg hu, if_pos hc] at hs
      simp at hs
    exact ⟨not_lt.mp hd, hex.mpr hu, not_le.mp hc⟩
  · rintro ⟨hd, hu, hc⟩
    rw [hrun, if_neg (not_lt.mpr hd), if_neg (hex.mp hu), if_neg (not_le.mpr hc)]
    exact ⟨_, rfl⟩
  · intro hd
    rw [hrun, if_pos hd]
  · intro hd hu
    rw [hrun, if_neg (not_lt.mpr hd), if_pos hu]
  · intro hd hu hc
    rw [hrun, if_neg (not_lt.mpr hd), if_neg (hex.mp hu), if_pos hc]

/-- C19: on an existing active event, and likewise on an existing active
meetup, joining at time `now` succeeds exactly when the date is not before
`now`, the user has no entry of any status in the participant list, and the
number of participants in the active status is strictly below the capacity.
Otherwise the answer is past-deadline, else already-registered, else full, in
that order, and the collection, hence the participant list, is returned
unchanged. -/
theorem join_outcome (events : Events) (id : EventId) (user : UserId) (now : Timestamp)
    (event : Event) (he : events id = some event) (ha : event.isActive = true)
    (meetups : Meetups) (mid : MeetupId) (meetup : Meetup)
    (hm : meetups mid = some meetup) (hma : meetup.isActive = true) :
    (((∃ saved, (registerForEvent events id user now).2 = .ok saved) ↔
        now ≤ event.date ∧ (∀ reg ∈ event.registrations, reg.user ≠ user) ∧
          (event.activeCount : ℤ) < event.capacity) ∧
      (event.date < now →
        registerForEvent events id user now = (events, .error .pastDeadline)) ∧
      (now ≤ event.date → (∃ reg ∈ event.registrations, reg.user = user) →
        registerForEvent events id user now = (events, .error .alreadyRegistered)) ∧
      (now ≤ event.date → (∀ reg ∈ event.registrations, reg.user ≠ user) →
        event.capacity ≤ (event.activeCount : ℤ) →
        registerForEvent events id user now = (events, .error .full))) ∧
    (((∃ saved, (joinMeetup meetups mid user now).2 = .ok saved) ↔
        now ≤ meetup.date ∧ (∀ att ∈ meetup.attendees, att.user ≠ user) ∧
          (meetup.activeCount : ℤ) < meetup.maxAttendees) ∧
      (meetup.date < now →
        joinMeetup meetups mid user now = (meetups, .error .pastDeadline)) ∧
      (now ≤ meetup.date → (∃ att ∈ meetup.attendees, att.user = user) →
        joinMeetup meetups mid user now = (meetups, .error .alreadyRegistered)) ∧
      (now ≤ meetup.date → (∀ att ∈ meetup.attendees, att.user ≠ user) →
        meetup.maxAttendees ≤ (meetup.activeCount : ℤ) →
        joinMeetup meetups mid user now = (meetups, .error .full))) :=
  ⟨registerForEvent_outcome events id user now event he ha,
    joinMeetup_outcome meetups mid user now meetup hm hma⟩

theorem join_outcome_witness :
    (eventsA 1 = some eventA ∧ eventA.isActive = true ∧
      meetupsA 1 = some meetupA ∧ meetupA.isActive = true) ∧
    ((((∃ saved, (registerForEvent eventsA 1 7 5000).2 = .ok saved) ↔
        5000 ≤ eventA.date ∧ (∀ reg ∈ eventA.registrations, reg.user ≠ 7) ∧
          (eventA.activeCount : ℤ) < eventA.capacity) ∧
      (eventA.date < 5000 →
        registerForEvent eventsA 1 7 5000 = (eventsA, .error .pastDeadline)) ∧
      (5000 ≤ eventA.date → (∃ reg ∈ eventA.registrations, reg.user = 7) →
        registerForEvent eventsA 1 7 5000 = (eventsA, .error .alreadyRegistered)) ∧
      (5000 ≤ eventA.date → (∀ reg ∈ eventA.registrations, reg.user ≠ 7) →
        eventA.capacity ≤ (eventA.activeCount : ℤ) →
        registerForEvent eventsA 1 7 5000 = (eventsA, .error .full))) ∧
    (((∃ saved, (joinMeetup meetupsA 1 7 5000).2 = .ok saved) ↔
        5000 ≤ meetupA.date ∧ (∀ att ∈ meetupA.attendees, att.user ≠ 7) ∧
          (meetupA.activeCount : ℤ) < meetupA.maxAttendees) ∧
      (meetupA.date < 5000 →
        joinMeetup meetupsA 1 7 5000 = (meetupsA, .error .pastDeadline)) ∧
      (5000 ≤ meetupA.date → (∃ att ∈ meetupA.attendees, att.user = 7) →
        joinMeetup meetupsA 1 7 5000 = (meetupsA, .error .alreadyRegistered)) ∧
      (5000 ≤ meetupA.date → (∀ att ∈ meetupA.attendees, att.user ≠ 7) →
        meetupA.maxAttendees ≤ (meetupA.activeCount : ℤ) →
        joinMeetup meetupsA 1 7 5000 = (meetupsA, .error .full)))) :=
  ⟨⟨rfl, rfl, rfl, rfl⟩, join_outcome eventsA 1 7 5000 eventA rfl rfl meetupsA 1 meetupA rfl rfl⟩

theorem registerForEvent_ok_active {events : Events} {id : EventId} {user : UserId}
    {now : Timestamp} {event saved : Event} (he : events id = some event)
    (h : (registerForEvent events id user now).2 = .ok saved) : event.isActive = true := by
  cases ha : event.isActive with
  | true => rfl
  | false =>
    unfold registerForEvent at h
    simp [he, ha] at h

theorem joinMeetup_ok_active {meetups : Meetups} {id : MeetupId} {user : UserId}
    {now : Timestamp} {meetup saved : Meetup} (he : meetups id = some meetup)
    (h : (joinMeetup meetups id user now).2 = .ok saved) : meetup.isActive = true := by
  cases ha : meetup.isActive with
  | true => rfl
  | false =>
    unfold joinMeetup at h
    simp [he, ha] at h

/-- A successful registration in full: the checks that passed and the store
and document that result. -/
theorem registerForEvent_ok_inv {events : Events} {id : EventId} {user : UserId}
    {now : Timestamp} {event saved : Event} (he : events id = some event)
    (h : (registerForEvent events id user now).2 = .ok saved) :
    (event.activeCount : ℤ) < event.capacity ∧
      saved = { event with
        registrations := event.registrations ++ [newRegistration event user now] } ∧
      (registerForEvent events id user now).1 = Function.update events id (some saved) := by
  have ha := registerForEvent_ok_active he h
  have hrun := registerForEvent_of_active events id user now event he ha
  rw [hrun] at h ⊢
  by_cases hd : event.date < now
  · simp [hd] at h
  by_cases hu : ∃ reg ∈ event.registrations, reg.user = user
  · simp [hd, hu] at h
  by_cases hc : (event.activeCount : ℤ) ≥ event.capacity
  · rw [if_neg hd, if_neg hu, if_pos hc] at h
    simp at h
  rw [if_neg hd, if_neg hu, if_neg hc] at h ⊢
  simp only [Except.ok.injEq] at h
  subst h
  exact ⟨not_le.mp hc, rfl, rfl⟩

/-- A successful join in full. -/
theorem joinMeetup_ok_inv {meetups : Meetups} {id : MeetupId} {user : UserId}
    {now : Timestamp} {meetup saved : Meetup} (he : meetups id = some meetup)
    (h : (joinMeetup meetups id user now).2 = .ok saved) :
    (meetup.activeCount : ℤ) < meetup.maxAttendees ∧
      saved = { meetup with
        attendees := meetup.attendees ++ [newAttendee meetup user now] } ∧
      (joinMeetup meetups id user now).1 = Function.update meetups id (some saved) := by
  have ha := joinMeetup_ok_active he h
  have hrun := joinMeetup_of_active meetups id user now meetup he ha
  rw [hrun] at h ⊢
  by_cases hd : meetup.date < now
  · simp [hd] at h
  by_cases hu : ∃ att ∈ meetup.attendees, att.user = user
  · simp [hd, hu] at h
  by_cases hc : (meetup.activeCount : ℤ) ≥ meetup.maxAttendees
  · rw [if_neg hd, if_neg hu, if_pos hc] at h
    simp at h
  rw [if_neg hd, if_neg hu, if_neg hc] at h ⊢
  simp only [Except.ok.injEq] at h
  subst h
  exact ⟨not_le.mp hc, rfl, rfl⟩

/-- C20: after a successful join the participant list is the list before with
one entry for the joining user appended at the end, the earlier entries being
unchanged; the document stored under the id is the one returned and no other
document changes.  The new entry is `registered` on an event, `joined` on a
meetup that does not require approval and `maybe` on one that does. -/
theorem join_appends (events : Events) (id : EventId) (user : UserId) (now : Timestamp)
    (event : Event) (he : events id = some event)
    (meetups : Meetups) (mid : MeetupId) (meetup : Meetup) (hm : meetups mid = some meetup) :
    (∀ saved, (registerForEvent events id user now).2 = .ok saved →
      (registerForEvent events id user now).1 id = some saved ∧
      (∀ j, j ≠ id → (registerForEvent events id user now).1 j = events j) ∧
      ∃ entry, saved.registrations = event.registrations ++ [entry] ∧ entry.user = user ∧
        entry.status = .registered) ∧
    (∀ saved, (joinMeetup meetups mid user now).2 = .ok saved →
      (joinMeetup meetups mid user now).1 mid = some saved ∧
      (∀ j, j ≠ mid → (joinMeetup meetups mid user now).1 j = meetups j) ∧
      ∃ entry, saved.attendees = meetup.attendees ++ [entry] ∧ entry.user = user ∧
        (meetup.requiresApproval = false → entry.status = .joined) ∧
        (meetup.requiresApproval = true → entry.status = .maybe)) := by
  constructor
  · intro saved h
    obtain ⟨-, hs, hstore⟩ := registerForEvent_ok_inv he h
    rw [hstore]
    refine ⟨by simp, fun j hj => Function.update_noteq hj _ _, ?_⟩
    exact ⟨newRegistration event user now, by rw [hs], rfl, rfl⟩
  · intro saved h
    obtain ⟨-, hs, hstore⟩ := joinMeetup_ok_inv hm h
    rw [hstore]
    refine ⟨by simp, fun j hj => Function.update_noteq hj _ _, ?_⟩
    refine ⟨newAttendee meetup user now, by rw [hs], rfl, ?_, ?_⟩
    · intro hr
      simp [newAttendee, hr]
    · intro hr
      simp [newAttendee, hr]

theorem joinMeetup_meetupB :
    ∃ saved, (joinMeetup meetupsA 2 7 5000).2 = .ok saved :=
  (joinMeetup_outcome meetupsA 2 7 5000 meetupB rfl rfl).1.mpr
    ⟨by decide, by simp [meetupB, meetupA], by decide⟩

theorem registerForEvent_eventA :
    ∃ saved, (registerForEvent eventsA 1 7 5000).2 = .ok saved :=
  (registerForEvent_outcome eventsA 1 7 5000 eventA rfl rfl).1.mpr
    ⟨by decide, by simp [eventA], by decide⟩

theorem join_appends_witness :
    (eventsA 1 = some eventA ∧ meetupsA 2 = some meetupB ∧
      (∃ saved, (registerForEvent eventsA 1 7 5000).2 = .ok saved) ∧
      (∃ saved, (joinMeetup meetupsA 2 7 5000).2 = .ok saved)) ∧
    ((∀ saved, (registerForEvent eventsA 1 7 5000).2 = .ok saved →
      (registerForEvent eventsA 1 7 5000).1 1 = some saved ∧
      (∀ j, j ≠ 1 → (registerForEvent eventsA 1 7 5000).1 j = eventsA j) ∧
      ∃ entry, saved.registrations = eventA.registrations ++ [entry] ∧ entry.user = 7 ∧
        entry.status = .registered) ∧
    (∀ saved, (joinMeetup meetupsA 2 7 5000).2 = .ok saved →
      (joinMeetup meetupsA 2 7 5000).1 2 = some saved ∧
      (∀ j, j ≠ 2 → (joinMeetup meetupsA 2 7 5000).1 j = meetupsA j) ∧
      ∃ entry, saved.attendees = meetupB.attendees ++ [entry] ∧ entry.user = 7 ∧
        (meetupB.requiresApproval = false → entry.status = .joined) ∧
        (meetupB.requiresApproval = true → entry.status = .maybe))) :=
  ⟨⟨rfl, rfl, registerForEvent_eventA, joinMeetup_meetupB⟩,
    join_appends eventsA 1 7 5000 eventA rfl meetupsA 2 meetupB rfl⟩

/-! ### The capacity invariant -/

theorem eventsWithinCapacity_update {events : Events} {id : EventId} {saved : Event}
    (h : eventsWithinCapacity events) (hs : (saved.activeCount : ℤ) ≤ saved.capacity) :
    eventsWithinCapacity (Function.update events id (some saved)) := by
  intro j e hj
  by_cases hji : j = id
  · subst hji
    simp at hj
    subst hj
    exact hs
  · rw [Function.update_noteq hji] at hj
    exact h j e hj

theorem meetupsWithinCapacity_update {meetups : Meetups} {id : MeetupId} {saved : Meetup}
    (h : meetupsWithinCapacity meetups) (hs : (saved.activeCount : ℤ) ≤ saved.maxAttendees) :
    meetupsWithinCapacity (Function.update meetups id (some saved)) := by
  intro j m hj
  by_cases hji : j = id
  · subst hji
    simp at hj
    subst hj
    exact hs
  · rw [Function.update_noteq hji] at hj
    exact h j m hj

theorem filter_eraseIdx_length_le {α : Type} (p : α → Bool) (l : List α) (i : ℕ) :
    ((l.eraseIdx i).filter p).length ≤ (l.filter p).length :=
  ((List.eraseIdx_sublist l i).filter p).length_le

theorem registerForEvent_within (events : Events) (id : EventId) (user : UserId)
    (now : Timestamp) (h : eventsWithinCapacity events) :
    eventsWithinCapacity (registerForEvent events id user now).1 := by
  cases he : events id with
  | none => simpa [registerForEvent, he] using h
  | some event =>
    cases hr : (registerForEvent events id user now).2 with
    | ok saved =>
      obtain ⟨hlt, hs, hstore⟩ := registerForEvent_ok_inv he hr
      rw [hstore]
      apply eventsWithinCapacity_update h
      subst hs
      have hcount : Event.activeCount { event with
          registrations := event.registrations ++ [newRegistration event user now] } =
          event.activeCount + 1 := by
        simp [Event.activeCount, newRegistration, List.filter_append]
      simp only [hcount]
      push_cast
      omega
    | error e =>
      have hsame : (registerForEvent events id user now).1 = events := by
        cases ha : event.isActive with
        | false => simp [registerForEvent, he, ha]
        | true =>
          rw [registerForEvent_of_active events id user now event he ha] at hr ⊢
          split_ifs at hr ⊢ <;> rfl
      rw [hsame]
      exact h

theorem cancelRegistration_within (events : Events) (id : EventId) (user : UserId)
    (now : Timestamp) (h : eventsWithinCapacity events) :
    eventsWithinCapacity (cancelRegistration events id user now).1 := by
  unfold cancelRegistration
  split
  · exact h
  · next event he =>
    split
    · exact h
    · split
      · exact h
      · next k _ =>
        dsimp only
        split
        · exact h
        · apply eventsWithinCapacity_update h
          have h0 := h id event he
          have h1 := filter_eraseIdx_length_le
            (fun reg : Registration => decide (reg.status = .registered)) event.registrations k
          simp only [Event.activeCount] at h0 ⊢
          omega

theorem joinMeetup_within (meetups : Meetups) (id : MeetupId) (user : UserId)
    (now : Timestamp) (h : meetupsWithinCapacity meetups) :
    meetupsWithinCapacity (joinMeetup meetups id user now).1 := by
  cases he : meetups id with
  | none => simpa [joinMeetup, he] using h
  | some meetup =>
    cases hr : (joinMeetup meetups id user now).2 with
    | ok saved =>
      obtain ⟨hlt, hs, hstore⟩ := joinMeetup_ok_inv he hr
      rw [hstore]
      apply meetupsWithinCapacity_update h
      subst hs
      have hcount : Meetup.activeCount { meetup with
          attendees := meetup.attendees ++ [newAttendee meetup user now] } ≤
          meetup.activeCount + 1 := by
        cases hra : meetup.requiresApproval <;>
          simp [Meetup.activeCount, newAttendee, List.filter_append, hra]
      have hcount' : ((Meetup.activeCount { meetup with
          attendees := meetup.attendees ++ [newAttendee meetup user now] } : ℕ) : ℤ) ≤
          (meetup.activeCount : ℤ) + 1 := by exact_mod_cast hcount
      simp only
      omega
    | error e =>
      have hsame : (joinMeetup meetups id user now).1 = meetups := by
        cases ha : meetup.isActive with
        | false => simp [joinMeetup, he, ha]
        | true =>
          rw [joinMeetup_of_active meetups id user now meetup he ha] at hr ⊢
          split_ifs at hr ⊢ <;> rfl
      rw [hsame]
      exact h

theorem leaveMeetup_within (meetups : Meetups) (id : MeetupId) (user : UserId)
    (h : meetupsWithinCapacity meetups) :
    meetupsWithinCapacity (leaveMeetup meetups id user).1 := by
  unfold leaveMeetup
  split
  · exact h
  · next meetup he =>
    split
    · exact h
    · split
      · exact h
      · next k _ =>
        apply meetupsWithinCapacity_update h
        have h0 := h id meetup he
        have h1 := filter_eraseIdx_length_le
          (fun att : Attendee => decide (att.status = .joined)) meetup.attendees k
        simp only [Meetup.activeCount] at h0 ⊢
        omega

theorem runEvents_within (events : Events) (ops : List EventOp)
    (h : eventsWithinCapacity events) : eventsWithinCapacity (runEvents events ops) := by
  induction ops generalizing events with
  | nil => exact h
  | cons op ops ih =>
    apply ih
    cases op with
    | register id user now => exact registerForEvent_within events id user now h
    | cancel id user now => exact cancelRegistration_within events id user now h

theorem runMeetups_within (meetups : Meetups) (ops : List MeetupOp)
    (h : meetupsWithinCapacity meetups) : meetupsWithinCapacity (runMeetups meetups ops) := by
  induction ops generalizing meetups with
  | nil => exact h
  | cons op ops ih =>
    apply ih
    cases op with
    | join id user now => exact joinMeetup_within meetups id user now h
    | leave id user => exact leaveMeetup_within meetups id user h

/-- An event with one seat and nobody registered takes one registration and
answers the next user with full. -/
theorem single_seat_event (events : Events) (id : EventId) (event : Event) (u v : UserId)
    (now now' : Timestamp) (he : events id = some event) (ha : event.isActive = true)
    (hcap : event.capacity = 1) (hzero : event.activeCount = 0)
    (hu : ∀ reg ∈ event.registrations, reg.user ≠ u)
    (hv : ∀ reg ∈ event.registrations, reg.user ≠ v) (huv : u ≠ v)
    (hnow : now ≤ event.date) (hnow' : now' ≤ event.date) :
    (∃ saved, (registerForEvent events id u now).2 = .ok saved) ∧
      (registerForEvent (registerForEvent events id u now).1 id v now').2 = .error .full := by
  have hfirst : ∃ saved, (registerForEvent events id u now).2 = .ok saved :=
    (registerForEvent_outcome events id u now event he ha).1.mpr
      ⟨hnow, hu, by rw [hcap, hzero]; norm_num⟩
  refine ⟨hfirst, ?_⟩
  obtain ⟨saved, hs⟩ := hfirst
  obtain ⟨-, hsaved, hstore⟩ := registerForEvent_ok_inv he hs
  have hget : (registerForEvent events id u now).1 id = some saved := by
    rw [hstore]; simp
  have hcount : saved.activeCount = 1 := by
    rw [hsaved]
    simp only [Event.activeCount] at hzero ⊢
    simp [newRegistration, List.filter_append, hzero]
  have hv' : ∀ reg ∈ saved.registrations, reg.user ≠ v := by
    rw [hsaved]
    intro reg hreg
    rcases List.mem_append.mp hreg with h1 | h1
    · exact hv reg h1
    · simp only [List.mem_singleton] at h1
      subst h1
      exact huv
  have hfull := (registerForEvent_outcome _ id v now' saved hget
    (by rw [hsaved]; exact ha)).2.2.2 (by rw [hsaved]; exact hnow') hv'
    (by rw [hcount, hsaved]; simp [hcap])
  rw [hfull]

/-- A meetup that does not require approval, with one place and nobody joined,
takes one join and answers the next user with full. -/
theorem single_place_meetup (meetups : Meetups) (id : MeetupId) (meetup : Meetup)
    (u v : UserId) (now now' : Timestamp) (he : meetups id = some meetup)
    (ha : meetup.isActive = true) (hra : meetup.requiresApproval = false)
    (hcap : meetup.maxAttendees = 1) (hzero : meetup.activeCount = 0)
    (hu : ∀ att ∈ meetup.attendees, att.user ≠ u)
    (hv : ∀ att ∈ meetup.attendees, att.user ≠ v) (huv : u ≠ v)
    (hnow : now ≤ meetup.date) (hnow' : now' ≤ meetup.date) :
    (∃ saved, (joinMeetup meetups id u now).2 = .ok saved) ∧
      (joinMeetup (joinMeetup meetups id u now).1 id v now').2 = .error .full := by
  have hfirst : ∃ saved, (joinMeetup meetups id u now).2 = .ok saved :=
    (joinMeetup_outcome meetups id u now meetup he ha).1.mpr
      ⟨hnow, hu, by rw [hcap, hzero]; norm_num⟩
  refine ⟨hfirst, ?_⟩
  obtain ⟨saved, hs⟩ := hfirst
  obtain ⟨-, hsaved, hstore⟩ := joinMeetup_ok_inv he hs
  have hget : (joinMeetup meetups id u now).1 id = some saved := by
    rw [hstore]; simp
  have hcount : saved.activeCount = 1 := by
    rw [hsaved]
    simp only [Meetup.activeCount] at hzero ⊢
    simp [newAttendee, List.filter_append, hzero, hra]
  have hv' : ∀ att ∈ saved.attendees, att.user ≠ v := by
    rw [hsaved]
    intro att hatt
    rcases List.mem_append.mp hatt with h1 | h1
    · exact hv att h1
    · simp only [List.mem_singleton] at h1
      subst h1
      exact huv
  have hfull := (joinMeetup_outcome _ id v now' saved hget
    (by rw [hsaved]; exact ha)).2.2.2 (by rw [hsaved]; exact hnow') hv'
    (by rw [hcount, hsaved]; simp [hcap])
  rw [hfull]

/-- C18: when no event has more `registered` registrations than its capacity,
and no meetup more `joined` attendees than `maxAttendees`, the same holds after
every sequence of register, cancel, join and leave operations, whether they
succeed or fail.  An event with capacity 1 and no active registration, and
likewise a meetup that does not require approval, accepts one join by a user
without an entry, and the join of another user that follows fails with
full. -/
theorem capacity_invariant (events : Events) (eventOps : List EventOp) (meetups : Meetups)
    (meetupOps : List MeetupOp) (hE : eventsWithinCapacity events)
    (hM : meetupsWithinCapacity meetups) :
    eventsWithinCapacity (runEvents events eventOps) ∧
      meetupsWithinCapacity (runMeetups meetups meetupOps) ∧
      (∀ (id : EventId) (event : Event) (u v : UserId) (now now' : Timestamp),
        events id = some event → event.isActive = true → event.capacity = 1 →
        event.activeCount = 0 → (∀ reg ∈ event.registrations, reg.user ≠ u) →
        (∀ reg ∈ event.registrations, reg.user ≠ v) → u ≠ v →
        now ≤ event.date → now' ≤ event.date →
        (∃ saved, (registerForEvent events id u now).2 = .ok saved) ∧
          (registerForEvent (registerForEvent events id u now).1 id v now').2 =
            .error .full) ∧
      (∀ (id : MeetupId) (meetup : Meetup) (u v : UserId) (now now' : Timestamp),
        meetups id = some meetup → meetup.isActive = true →
        meetup.requiresApproval = false → meetup.maxAttendees = 1 →
        meetup.activeCount = 0 → (∀ att ∈ meetup.attendees, att.user ≠ u) →
        (∀ att ∈ meetup.attendees, att.user ≠ v) → u ≠ v →
        now ≤ meetup.date → now' ≤ meetup.date →
        (∃ saved, (joinMeetup meetups id u now).2 = .ok saved) ∧
          (joinMeetup (joinMeetup meetups id u now).1 id v now').2 = .error .full) :=
  ⟨runEvents_within events eventOps hE, runMeetups_within meetups meetupOps hM,
    fun id event u v now now' => single_seat_event events id event u v now now',
    fun id meetup u v now now' => single_place_meetup meetups id meetup u v now now'⟩

theorem eventsWithinCapacity_eventsA : eventsWithinCapacity eventsA := by
  intro id e h
  simp only [eventsA] at h
  split_ifs at h
  simp at h
  subst h
  decide

theorem meetupsWithinCapacity_meetupsA : meetupsWithinCapacity meetupsA := by
  intro id m h
  simp only [meetupsA] at h
  split_ifs at h <;> simp at h <;> subst h <;> decide

theorem single_seat_eventA :
    (∃ saved, (registerForEvent eventsA 1 7 5000).2 = .ok saved) ∧
      (registerForEvent (registerForEvent eventsA 1 7 5000).1 1 8 6000).2 = .error .full :=
  single_seat_event eventsA 1 eventA 7 8 5000 6000 rfl rfl rfl rfl (by simp [eventA])
    (by simp [eventA]) (by decide) (by decide) (by decide)

theorem capacity_invariant_witness :
    (eventsWithinCapacity eventsA ∧ meetupsWithinCapacity meetupsA ∧
      eventsA 1 = some eventA ∧ eventA.capacity = 1 ∧ eventA.activeCount = 0 ∧
      (∃ saved, (registerForEvent eventsA 1 7 5000).2 = .ok saved) ∧
      (registerForEvent (registerForEvent eventsA 1 7 5000).1 1 8 6000).2 = .error .full) ∧
    (eventsWithinCapacity
        (runEvents eventsA [.register 1 7 5000, .register 1 8 5000, .cancel 1 7 6000,
          .register 1 8 6000]) ∧
      meetupsWithinCapacity
        (runMeetups meetupsA [.join 1 7 5000, .join 1 8 5000, .join 1 9 5000, .leave 1 7,
          .join 2 7 5000]) ∧
      (∀ (id : EventId) (event : Event) (u v : UserId) (now now' : Timestamp),
        eventsA id = some event → event.isActive = true → event.capacity = 1 →
        event.activeCount = 0 → (∀ reg ∈ event.registrations, reg.user ≠ u) →
        (∀ reg ∈ event.registrations, reg.user ≠ v) → u ≠ v →
        now ≤ event.date → now' ≤ event.date →
        (∃ saved, (registerForEvent eventsA id u now).2 = .ok saved) ∧
          (registerForEvent (registerForEvent eventsA id u now).1 id v now').2 =
            .error .full) ∧
      (∀ (id : MeetupId) (meetup : Meetup) (u v : UserId) (now now' : Timestamp),
        meetupsA id = some meetup → meetup.isActive = true →
        meetup.requiresApproval = false → meetup.maxAttendees = 1 →
        meetup.activeCount = 0 → (∀ att ∈ meetup.attendees, att.user ≠ u) →
        (∀ att ∈ meetup.attendees, att.user ≠ v) → u ≠ v →
        now ≤ meetup.date → now' ≤ meetup.date →
        (∃ saved, (joinMeetup meetupsA id u now).2 = .ok saved) ∧
          (joinMeetup (joinMeetup meetupsA id u now).1 id v now').2 = .error .full)) :=
  ⟨⟨eventsWithinCapacity_eventsA, meetupsWithinCapacity_meetupsA, rfl, rfl, rfl,
      single_seat_eventA.1, single_seat_eventA.2⟩,
    capacity_invariant eventsA _ meetupsA _ eventsWithinCapacity_eventsA
      meetupsWithinCapacity_meetupsA⟩

/-! ## Leaving: the cancellation deadline and the removed entry -/

/-- The index answered by `findIndex` splits the list at the first element
that satisfies the test, and erasing at that index removes that element. -/
theorem findIdx?_split {α : Type} (p : α → Bool) :
    ∀ (l : List α) (k : ℕ), l.findIdx? p = some k →
      ∃ pre x post, l = pre ++ x :: post ∧ p x = true ∧ (∀ y ∈ pre, p y = false) ∧
        k = pre.length ∧ l.eraseIdx k = pre ++ post := by
  intro l
  induction l with
  | nil => intro k h; simp at h
  | cons a l ih =>
    intro k h
    rw [List.findIdx?_cons] at h
    by_cases hp : p a = true
    · simp only [hp, if_true, Option.some.injEq] at h
      subst h
      exact ⟨[], a, l, rfl, hp, by simp, rfl, rfl⟩
    · simp only [hp, Bool.false_eq_true, if_false] at h
      rw [List.findIdx?_succ] at h
      obtain ⟨k', hk', rfl⟩ := Option.map_eq_some'.mp h
      obtain ⟨pre, x, post, hl, hx, hpre, hk, her⟩ := ih k' hk'
      refine ⟨a :: pre, x, post, by rw [hl]; rfl, hx, ?_, by simp [hk], ?_⟩
      · intro y hy
        rcases List.mem_cons.mp hy with rfl | hy'
        · simpa using hp
        · exact hpre y hy'
      · simp [her]

theorem findIdx?_isSome_of_mem {α : Type} (p : α → Bool) (l : List α)
    (h : ∃ x ∈ l, p x = true) : ∃ k, l.findIdx? p = some k := by
  cases hf : l.findIdx? p with
  | some k => exact ⟨k, rfl⟩
  | none =>
    obtain ⟨x, hx, hpx⟩ := h
    have := List.findIdx?_eq_none_iff.mp hf x hx
    rw [hpx] at this
    exact absurd this (by simp)

/-- The cancel handler on an existing active event. -/
theorem cancelRegistration_of_active (events : Events) (id : EventId) (user : UserId)
    (now : Timestamp) (event : Event) (he : events id = some event)
    (ha : event.isActive = true) :
    cancelRegistration events id user now =
      match event.registrations.findIdx? fun reg => decide (reg.user = user) with
      | none => (events, .error .notRegistered)
      | some registrationIndex =>
        if event.date - now < 24 * 3600000 then (events, .error .cancelDeadline)
        else
          (Function.update events id (some { event with
              registrations := event.registrations.eraseIdx registrationIndex }), .ok ()) := by
  unfold cancelRegistration
  simp only [he, ha, Bool.not_true, Bool.false_eq_true, if_false]
  cases hf : event.registrations.findIdx? fun reg => decide (reg.user = user) with
  | none => rfl
  | some k =>
    have hiff : (((event.date - now : ℤ) : ℚ) / (1000 * 60 * 60) < 24) ↔
        event.date - now < 24 * 3600000 := by
      rw [div_lt_iff₀ (by norm_num)]
      have : (24 : ℚ) * (1000 * 60 * 60) = ((24 * 3600000 : ℤ) : ℚ) := by norm_num
      rw [this, Int.cast_lt]
    by_cases hlt : event.date - now < 24 * 3600000
    · simp only [hiff.mpr hlt, hlt, if_true]
    · have hq : ¬ (((event.date - now : ℤ) : ℚ) / (1000 * 60 * 60) < 24) :=
        fun h => hlt (hiff.mp h)
      simp only [hq, hlt, if_false]

/-- The leave handler on an existing active meetup. -/
theorem leaveMeetup_of_active (meetups : Meetups) (id : MeetupId) (user : UserId)
    (meetup : Meetup) (he : meetups id = some meetup) (ha : meetup.isActive = true) :
    leaveMeetup meetups id user =
      match meetup.attendees.findIdx? fun att => decide (att.user = user) with
      | none => (meetups, .error .notAttending)
      | some attendeeIndex =>
        (Function.update meetups id (some { meetup with
            attendees := meetup.attendees.eraseIdx attendeeIndex }), .ok ()) := by
  unfold leaveMeetup
  simp only [he, ha, Bool.not_true, Bool.false_eq_true, if_false]

/-- C21: on an existing active event on which the user has a registration,
cancelling at time `now` fails with the deadline error exactly when the time
until the event start is strictly less than 24 hours, and succeeds otherwise:
23 hours before the start it fails, 25 hours and exactly 24 hours before it
succeeds.  A cancellation that fails returns the collection, hence the
registration list, unchanged. -/
theorem cancelRegistration_deadline (events : Events) (id : EventId) (user : UserId)
    (now : Timestamp) (event : Event) (he : events id = some event)
    (ha : event.isActive = true) (hreg : ∃ reg ∈ event.registrations, reg.user = user) :
    ((cancelRegistration events id user now).2 = .error .cancelDeadline ↔
        event.date - now < 24 * 3600000) ∧
      ((cancelRegistration events id user now).2 = .ok () ↔
        24 * 3600000 ≤ event.date - now) ∧
      (event.date - now = 23 * 3600000 →
        (cancelRegistration events id user now).2 = .error .cancelDeadline) ∧
      (event.date - now = 25 * 3600000 →
        (cancelRegistration events id user now).2 = .ok ()) ∧
      (event.date - now = 24 * 3600000 →
        (cancelRegistration events id user now).2 = .ok ()) ∧
      (∀ e, (cancelRegistration events id user now).2 = .error e →
        (cancelRegistration events id user now).1 = events) := by
  obtain ⟨k, hk⟩ := findIdx?_isSome_of_mem (fun reg : Registration => decide (reg.user = user))
    event.registrations (by
      obtain ⟨reg, hm, hu⟩ := hreg
      exact ⟨reg, hm, by simpa using hu⟩)
  have hrun := cancelRegistration_of_active events id user now event he ha
  simp only [hk] at hrun
  have hlt : event.date - now < 24 * 3600000 →
      cancelRegistration events id user now = (events, .error .cancelDeadline) := by
    intro h
    rw [hrun, if_pos h]
  have hge : 24 * 3600000 ≤ event.date - now →
      (cancelRegistration events id user now).2 = .ok () := by
    intro h
    rw [hrun, if_neg (not_lt.mpr h)]
  refine ⟨⟨fun h => ?_, fun h => by rw [hlt h]⟩, ⟨fun h => ?_, hge⟩, ?_, ?_, ?_, ?_⟩
  · by_contra hnot
    rw [hge (not_lt.mp hnot)] at h
    simp at h
  · by_contra hnot
    rw [hlt (not_le.mp hnot)] at h
    simp at h
  · intro h
    rw [hlt (by rw [h]; norm_num)]
  · intro h
    exact hge (by rw [h]; norm_num)
  · intro h
    exact hge (by rw [h])
  · intro e h
    by_cases hd : event.date - now < 24 * 3600000
    · rw [hlt hd]
    · rw [hge (not_lt.mp hd)] at h
      simp at h

theorem cancelRegistration_deadline_witness :
    (eventsB 1 = some eventB ∧ eventB.isActive = true ∧
      (∃ reg ∈ eventB.registrations, reg.user = 7) ∧
      eventB.date - 277200000 = 23 * 3600000) ∧
    (((cancelRegistration eventsB 1 7 277200000).2 = .error .cancelDeadline ↔
        eventB.date - 277200000 < 24 * 3600000) ∧
      ((cancelRegistration eventsB 1 7 277200000).2 = .ok () ↔
        24 * 3600000 ≤ eventB.date - 277200000) ∧
      (eventB.date - 277200000 = 23 * 3600000 →
        (cancelRegistration eventsB 1 7 277200000).2 = .error .cancelDeadline) ∧
      (eventB.date - 277200000 = 25 * 3600000 →
        (cancelRegistration eventsB 1 7 277200000).2 = .ok ()) ∧
      (eventB.date - 277200000 = 24 * 3600000 →
        (cancelRegistration eventsB 1 7 277200000).2 = .ok ()) ∧
      (∀ e, (cancelRegistration eventsB 1 7 277200000).2 = .error e →
        (cancelRegistration eventsB 1 7 277200000).1 = eventsB)) :=
  ⟨⟨rfl, rfl, by decide, by decide⟩,
    cancelRegistration_deadline eventsB 1 7 277200000 eventB rfl rfl (by decide)⟩

/-- A successful cancellation in full. -/
theorem cancelRegistration_ok_inv {events : Events} {id : EventId} {user : UserId}
    {now : Timestamp} {event : Event} (he : events id = some event)
    (h : (cancelRegistration events id user now).2 = .ok ()) :
    ∃ pre entry post, event.registrations = pre ++ entry :: post ∧ entry.user = user ∧
      (∀ reg ∈ pre, reg.user ≠ user) ∧
      (cancelRegistration events id user now).1 =
        Function.update events id (some { event with registrations := pre ++ post }) := by
  by_cases ha : event.isActive = true
  swap
  · unfold cancelRegistration at h
    simp [he, ha] at h
  have hrun := cancelRegistration_of_active events id user now event he ha
  cases hf : event.registrations.findIdx? fun reg => decide (reg.user = user) with
  | none =>
    rw [hrun] at h
    simp [hf] at h
  | some k =>
    simp only [hf] at hrun
    obtain ⟨pre, x, post, hl, hx, hpre, -, her⟩ := findIdx?_split _ _ k hf
    refine ⟨pre, x, post, hl, by simpa using hx, ?_, ?_⟩
    · intro reg hm
      simpa using hpre reg hm
    · by_cases hd : event.date - now < 24 * 3600000
      · rw [hrun, if_pos hd] at h
        simp at h
      · rw [hrun, if_neg hd, her]

/-- A successful leave in full. -/
theorem leaveMeetup_ok_inv {meetups : Meetups} {id : MeetupId} {user : UserId}
    {meetup : Meetup} (he : meetups id = some meetup)
    (h : (leaveMeetup meetups id user).2 = .ok ()) :
    ∃ pre entry post, meetup.attendees = pre ++ entry :: post ∧ entry.user = user ∧
      (∀ att ∈ pre, att.user ≠ user) ∧
      (leaveMeetup meetups id user).1 =
        Function.update meetups id (some { meetup with attendees := pre ++ post }) := by
  by_cases ha : meetup.isActive = true
  swap
  · unfold leaveMeetup at h
    simp [he, ha] at h
  have hrun := leaveMeetup_of_active meetups id user meetup he ha
  cases hf : meetup.attendees.findIdx? fun att => decide (att.user = user) with
  | none =>
    rw [hrun] at h
    simp [hf] at h
  | some k =>
    simp only [hf] at hrun
    obtain ⟨pre, x, post, hl, hx, hpre, -, her⟩ := findIdx?_split _ _ k hf
    refine ⟨pre, x, post, hl, by simpa using hx, ?_, ?_⟩
    · intro att hm
      simpa using hpre att hm
    · rw [hrun, her]

/-- C22: a successful leave removes the user's entry rather than changing its
status.  The participant list splits at the first entry of the user, the list
stored afterwards is the part before it followed by the part after it, in the
same order and otherwise untouched, and it is one entry shorter; no other
document changes.  This holds for the cancellation of an event registration
and for leaving a meetup. -/
theorem leave_removes_entry (events : Events) (id : EventId) (user : UserId)
    (now : Timestamp) (event : Event) (he : events id = some event)
    (meetups : Meetups) (mid : MeetupId) (meetup : Meetup) (hm : meetups mid = some meetup) :
    ((cancelRegistration events id user now).2 = .ok () →
      ∃ pre entry post, event.registrations = pre ++ entry :: post ∧ entry.user = user ∧
        (∀ reg ∈ pre, reg.user ≠ user) ∧
        (cancelRegistration events id user now).1 id =
          some { event with registrations := pre ++ post } ∧
        (∀ j, j ≠ id → (cancelRegistration events id user now).1 j = events j) ∧
        (pre ++ post).length + 1 = event.registrations.length) ∧
    ((leaveMeetup meetups mid user).2 = .ok () →
      ∃ pre entry post, meetup.attendees = pre ++ entry :: post ∧ entry.user = user ∧
        (∀ att ∈ pre, att.user ≠ user) ∧
        (leaveMeetup meetups mid user).1 mid =
          some { meetup with attendees := pre ++ post } ∧
        (∀ j, j ≠ mid → (leaveMeetup meetups mid user).1 j = meetups j) ∧
        (pre ++ post).length + 1 = meetup.attendees.length) := by
  constructor
  · intro h
    obtain ⟨pre, entry, post, hl, hu, hpre, hstore⟩ := cancelRegistration_ok_inv he h
    refine ⟨pre, entry, post, hl, hu, hpre, ?_, ?_, ?_⟩
    · rw [hstore]; simp
    · intro j hj
      rw [hstore]
      exact Function.update_noteq hj _ _
    · rw [hl]; simp; omega
  · intro h
    obtain ⟨pre, entry, post, hl, hu, hpre, hstore⟩ := leaveMeetup_ok_inv hm h
    refine ⟨pre, entry, post, hl, hu, hpre, ?_, ?_, ?_⟩
    · rw [hstore]; simp
    · intro j hj
      rw [hstore]
      exact Function.update_noteq hj _ _
    · rw [hl]; simp; omega

theorem cancelRegistration_eventsB :
    cancelRegistration eventsB 1 7 0 =
      (Function.update eventsB 1 (some { eventB with
        registrations := eventB.registrations.eraseIdx 1 }), .ok ()) := by
  rw [cancelRegistration_of_active eventsB 1 7 0 eventB rfl rfl]
  have hf : (eventB.registrations.findIdx? fun reg => decide (reg.user = 7)) = some 1 := by
    decide
  simp only [hf]
  rw [if_neg (by decide)]

theorem leave_removes_entry_witness :
    (eventsB 1 = some eventB ∧ meetupsC 1 = some meetupC ∧
      (cancelRegistration eventsB 1 7 0).2 = .ok () ∧
      (leaveMeetup meetupsC 1 7).2 = .ok () ∧
      (((cancelRegistration eventsB 1 7 0).1 1).map fun event =>
        event.registrations.map fun reg => reg.user) = some [8, 9] ∧
      (((leaveMeetup meetupsC 1 7).1 1).map fun meetup =>
        meetup.attendees.map fun att => att.user) = some [8, 9]) ∧
    (((cancelRegistration eventsB 1 7 0).2 = .ok () →
      ∃ pre entry post, eventB.registrations = pre ++ entry :: post ∧ entry.user = 7 ∧
        (∀ reg ∈ pre, reg.user ≠ 7) ∧
        (cancelRegistration eventsB 1 7 0).1 1 =
          some { eventB with registrations := pre ++ post } ∧
        (∀ j, j ≠ 1 → (cancelRegistration eventsB 1 7 0).1 j = eventsB j) ∧
        (pre ++ post).length + 1 = eventB.registrations.length) ∧
    ((leaveMeetup meetupsC 1 7).2 = .ok () →
      ∃ pre entry post, meetupC.attendees = pre ++ entry :: post ∧ entry.user = 7 ∧
        (∀ att ∈ pre, att.user ≠ 7) ∧
        (leaveMeetup meetupsC 1 7).1 1 =
          some { meetupC with attendees := pre ++ post } ∧
        (∀ j, j ≠ 1 → (leaveMeetup meetupsC 1 7).1 j = meetupsC j) ∧
        (pre ++ post).length + 1 = meetupC.attendees.length)) :=
  ⟨⟨rfl, rfl, by rw [cancelRegistration_eventsB], rfl,
      by rw [cancelRegistration_eventsB]; rfl, rfl⟩,
    leave_removes_entry eventsB 1 7 0 eventB rfl meetupsC 1 meetupC rfl⟩

/-! ## At most one entry per user -/

theorem registerForEvent_error_store {events : Events} {id : EventId} {user : UserId}
    {now : Timestamp} {e : EventError}
    (h : (registerForEvent events id user now).2 = .error e) :
    (registerForEvent events id user now).1 = events := by
  cases he : events id with
  | none => simp [registerForEvent, he]
  | some event =>
    by_cases ha : event.isActive = true
    · rw [registerForEvent_of_active events id user now event he ha] at h ⊢
      split_ifs at h ⊢ <;> rfl
    · simp [registerForEvent, he, ha]

theorem joinMeetup_error_store {meetups : Meetups} {id : MeetupId} {user : UserId}
    {now : Timestamp} {e : MeetupError}
    (h : (joinMeetup meetups id user now).2 = .error e) :
    (joinMeetup meetups id user now).1 = meetups := by
  cases he : meetups id with
  | none => simp [joinMeetup, he]
  | some meetup =>
    by_cases ha : meetup.isActive = true
    · rw [joinMeetup_of_active meetups id user now meetup he ha] at h ⊢
      split_ifs at h ⊢ <;> rfl
    · simp [joinMeetup, he, ha]

theorem eventsUnique_update {events : Events} {id : EventId} {saved : Event}
    (h : eventsUnique events) (hs : (saved.registrations.map fun reg => reg.user).Nodup) :
    eventsUnique (Function.update events id (some saved)) := by
  intro j e hj
  by_cases hji : j = id
  · subst hji
    simp at hj
    subst hj
    exact hs
  · rw [Function.update_noteq hji] at hj
    exact h j e hj

theorem meetupsUnique_update {meetups : Meetups} {id : MeetupId} {saved : Meetup}
    (h : meetupsUnique meetups) (hs : (saved.attendees.map fun att => att.user).Nodup) :
    meetupsUnique (Function.update meetups id (some saved)) := by
  intro j m hj
  by_cases hji : j = id
  · subst hji
    simp at hj
    subst hj
    exact hs
  · rw [Function.update_noteq hji] at hj
    exact h j m hj

theorem registerForEvent_unique (events : Events) (id : EventId) (user : UserId)
    (now : Timestamp) (h : eventsUnique events) :
    eventsUnique (registerForEvent events id user now).1 := by
  cases hr : (registerForEvent events id user now).2 with
  | error e => rw [registerForEvent_error_store hr]; exact h
  | ok saved =>
    cases he : events id with
    | none => simp [registerForEvent, he] at hr
    | some event =>
      have ha := registerForEvent_ok_active he hr
      obtain ⟨-, hs, hstore⟩ := registerForEvent_ok_inv he hr
      have hfresh := ((registerForEvent_outcome events id user now event he ha).1.mp
        ⟨saved, hr⟩).2.1
      rw [hstore]
      apply eventsUnique_update h
      rw [hs]
      simp only [List.map_append, List.map_cons, List.map_nil]
      rw [List.nodup_append]
      refine ⟨h id event he, List.nodup_singleton _, ?_⟩
      intro a ha1 ha2
      simp only [List.mem_singleton] at ha2
      obtain ⟨reg, hreg, hu⟩ := List.mem_map.mp ha1
      exact hfresh reg hreg (by rw [hu, ha2]; rfl)

theorem joinMeetup_unique (meetups : Meetups) (id : MeetupId) (user : UserId)
    (now : Timestamp) (h : meetupsUnique meetups) :
    meetupsUnique (joinMeetup meetups id user now).1 := by
  cases hr : (joinMeetup meetups id user now).2 with
  | error e => rw [joinMeetup_error_store hr]; exact h
  | ok saved =>
    cases he : meetups id with
    | none => simp [joinMeetup, he] at hr
    | some meetup =>
      have ha := joinMeetup_ok_active he hr
      obtain ⟨-, hs, hstore⟩ := joinMeetup_ok_inv he hr
      have hfresh := ((joinMeetup_outcome meetups id user now meetup he ha).1.mp
        ⟨saved, hr⟩).2.1
      rw [hstore]
      apply meetupsUnique_update h
      rw [hs]
      simp only [List.map_append, List.map_cons, List.map_nil]
      rw [List.nodup_append]
      refine ⟨h id meetup he, List.nodup_singleton _, ?_⟩
      intro a ha1 ha2
      simp only [List.mem_singleton] at ha2
      obtain ⟨att, hatt, hu⟩ := List.mem_map.mp ha1
      exact hfresh att hatt (by rw [hu, ha2]; rfl)

theorem cancelRegistration_unique (events : Events) (id : EventId) (user : UserId)
    (now : Timestamp) (h : eventsUnique events) :
    eventsUnique (cancelRegistration events id user now).1 := by
  unfold cancelRegistration
  split
  · exact h
  · next event he =>
    split
    · exact h
    · split
      · exact h
      · next k _ =>
        dsimp only
        split
        · exact h
        · apply eventsUnique_update h
          exact (h id event he).sublist ((List.eraseIdx_sublist _ k).map _)

theorem leaveMeetup_unique (meetups : Meetups) (id : MeetupId) (user : UserId)
    (h : meetupsUnique meetups) : meetupsUnique (leaveMeetup meetups id user).1 := by
  unfold leaveMeetup
  split
  · exact h
  · next meetup he =>
    split
    · exact h
    · split
      · exact h
      · next k _ =>
        apply meetupsUnique_update h
        exact (h id meetup he).sublist ((List.eraseIdx_sublist _ k).map _)

theorem runEvents_unique (events : Events) (ops : List EventOp) (h : eventsUnique events) :
    eventsUnique (runEvents events ops) := by
  induction ops generalizing events with
  | nil => exact h
  | cons op ops ih =>
    apply ih
    cases op with
    | register id user now => exact registerForEvent_unique events id user now h
    | cancel id user now => exact cancelRegistration_unique events id user now h

theorem runMeetups_unique (meetups : Meetups) (ops : List MeetupOp)
    (h : meetupsUnique meetups) : meetupsUnique (runMeetups meetups ops) := by
  induction ops generalizing meetups with
  | nil => exact h
  | cons op ops ih =>
    apply ih
    cases op with
    | join id user now => exact joinMeetup_unique meetups id user now h
    | leave id user => exact leaveMeetup_unique meetups id user h

/-- After a successful cancellation on a list without duplicates the user has
no entry left, and registering again is not refused as already registered. -/
theorem rejoin_event (events : Events) (id : EventId) (event : Event) (user : UserId)
    (now now' : Timestamp) (he : events id = some event)
    (hu : (event.registrations.map fun reg => reg.user).Nodup)
    (h : (cancelRegistration events id user now).2 = .ok ()) :
    (∃ left, (cancelRegistration events id user now).1 id = some left ∧
        left.registrations.length + 1 = event.registrations.length ∧
        ∀ reg ∈ left.registrations, reg.user ≠ user) ∧
      (registerForEvent (cancelRegistration events id user now).1 id user now').2 ≠
        .error .alreadyRegistered := by
  obtain ⟨pre, entry, post, hl, hent, hpre, hstore⟩ := cancelRegistration_ok_inv he h
  have hnone : ∀ reg ∈ pre ++ post, reg.user ≠ user := by
    intro reg hm
    rcases List.mem_append.mp hm with h1 | h1
    · exact hpre reg h1
    · intro hreg
      rw [hl] at hu
      simp only [List.map_append, List.map_cons] at hu
      have h2 := (List.nodup_append.mp hu).2.1
      have h3 := (List.nodup_cons.mp h2).1
      exact h3 (List.mem_map.mpr ⟨reg, h1, by rw [hreg, hent]⟩)
  have hget : (cancelRegistration events id user now).1 id =
      some { event with registrations := pre ++ post } := by
    rw [hstore]; simp
  have ha : event.isActive = true := by
    by_contra hna
    unfold cancelRegistration at h
    simp [he, hna] at h
  refine ⟨⟨_, hget, by rw [hl]; simp; omega, hnone⟩, ?_⟩
  rw [registerForEvent_of_active _ id user now' _ hget ha]
  have hex : ¬ ∃ reg ∈ pre ++ post, reg.user = user := by
    rintro ⟨reg, hm, hreg⟩
    exact hnone reg hm hreg
  simp only [hex, if_false]
  split_ifs <;> simp

/-- After a successful leave on a list without duplicates the user has no entry
left, and joining again is not refused as already registered. -/
theorem rejoin_meetup (meetups : Meetups) (id : MeetupId) (meetup : Meetup) (user : UserId)
    (now' : Timestamp) (he : meetups id = some meetup)
    (hu : (meetup.attendees.map fun att => att.user).Nodup)
    (h : (leaveMeetup meetups id user).2 = .ok ()) :
    (∃ left, (leaveMeetup meetups id user).1 id = some left ∧
        left.attendees.length + 1 = meetup.attendees.length ∧
        ∀ att ∈ left.attendees, att.user ≠ user) ∧
      (joinMeetup (leaveMeetup meetups id user).1 id user now').2 ≠
        .error .alreadyRegistered := by
  obtain ⟨pre, entry, post, hl, hent, hpre, hstore⟩ := leaveMeetup_ok_inv he h
  have hnone : ∀ att ∈ pre ++ post, att.user ≠ user := by
    intro att hm
    rcases List.mem_append.mp hm with h1 | h1
    · exact hpre att h1
    · intro hatt
      rw [hl] at hu
      simp only [List.map_append, List.map_cons] at hu
      have h2 := (List.nodup_append.mp hu).2.1
      have h3 := (List.nodup_cons.mp h2).1
      exact h3 (List.mem_map.mpr ⟨att, h1, by rw [hatt, hent]⟩)
  have hget : (leaveMeetup meetups id user).1 id =
      some { meetup with attendees := pre ++ post } := by
    rw [hstore]; simp
  have ha : meetup.isActive = true := by
    by_contra hna
    unfold leaveMeetup at h
    simp [he, hna] at h
  refine ⟨⟨_, hget, by rw [hl]; simp; omega, hnone⟩, ?_⟩
  rw [joinMeetup_of_active _ id user now' _ hget ha]
  have hex : ¬ ∃ att ∈ pre ++ post, att.user = user := by
    rintro ⟨att, hm, hatt⟩
    exact hnone att hm hatt
  simp only [hex, if_false]
  split_ifs <;> simp

/-- C26: when no event and no meetup lists a user twice, the same holds after
every sequence of register, cancel, join and leave operations, whether they
succeed or fail.  Consequently, after a successful cancellation or leave the
user has no entry left in that list, and a join by that user that follows is
not rejected as already registered. -/
theorem participants_unique (events : Events) (eventOps : List EventOp) (meetups : Meetups)
    (meetupOps : List MeetupOp) (hE : eventsUnique events) (hM : meetupsUnique meetups) :
    eventsUnique (runEvents events eventOps) ∧
      meetupsUnique (runMeetups meetups meetupOps) ∧
      (∀ (id : EventId) (event : Event) (user : UserId) (now now' : Timestamp),
        events id = some event → (cancelRegistration events id user now).2 = .ok () →
        (∃ left, (cancelRegistration events id user now).1 id = some left ∧
            left.registrations.length + 1 = event.registrations.length ∧
            ∀ reg ∈ left.registrations, reg.user ≠ user) ∧
          (registerForEvent (cancelRegistration events id user now).1 id user now').2 ≠
            .error .alreadyRegistered) ∧
      (∀ (id : MeetupId) (meetup : Meetup) (user : UserId) (now' : Timestamp),
        meetups id = some meetup → (leaveMeetup meetups id user).2 = .ok () →
        (∃ left, (leaveMeetup meetups id user).1 id = some left ∧
            left.attendees.length + 1 = meetup.attendees.length ∧
            ∀ att ∈ left.attendees, att.user ≠ user) ∧
          (joinMeetup (leaveMeetup meetups id user).1 id user now').2 ≠
            .error .alreadyRegistered) :=
  ⟨runEvents_unique events eventOps hE, runMeetups_unique meetups meetupOps hM,
    fun id event user now now' he h =>
      rejoin_event events id event user now now' he (hE id event he) h,
    fun id meetup user now' he h =>
      rejoin_meetup meetups id meetup user now' he (hM id meetup he) h⟩

theorem eventsUnique_eventsB : eventsUnique eventsB := by
  intro id e h
  simp only [eventsB] at h
  split_ifs at h
  simp at h
  subst h
  decide

theorem meetupsUnique_meetupsC : meetupsUnique meetupsC := by
  intro id m h
  simp only [meetupsC] at h
  split_ifs at h
  simp at h
  subst h
  decide

theorem participants_unique_witness :
    (eventsUnique eventsB ∧ meetupsUnique meetupsC ∧
      (cancelRegistration eventsB 1 7 0).2 = .ok () ∧ (leaveMeetup meetupsC 1 7).2 = .ok ()) ∧
    (eventsUnique
        (runEvents eventsB [.cancel 1 7 0, .register 1 7 5, .register 1 7 6, .cancel 1 4 0]) ∧
      meetupsUnique
        (runMeetups meetupsC [.leave 1 7, .join 1 7 5, .join 1 7 6, .leave 1 4]) ∧
      (∀ (id : EventId) (event : Event) (user : UserId) (now now' : Timestamp),
        eventsB id = some event → (cancelRegistration eventsB id user now).2 = .ok () →
        (∃ left, (cancelRegistration eventsB id user now).1 id = some left ∧
            left.registrations.length + 1 = event.registrations.length ∧
            ∀ reg ∈ left.registrations, reg.user ≠ user) ∧
          (registerForEvent (cancelRegistration eventsB id user now).1 id user now').2 ≠
            .error .alreadyRegistered) ∧
      (∀ (id : MeetupId) (meetup : Meetup) (user : UserId) (now' : Timestamp),
        meetupsC id = some meetup → (leaveMeetup meetupsC id user).2 = .ok () →
        (∃ left, (leaveMeetup meetupsC id user).1 id = some left ∧
            left.attendees.length + 1 = meetup.attendees.length ∧
            ∀ att ∈ left.attendees, att.user ≠ user) ∧
          (joinMeetup (leaveMeetup meetupsC id user).1 id user now').2 ≠
            .error .alreadyRegistered)) :=
  ⟨⟨eventsUnique_eventsB, meetupsUnique_meetupsC, by rw [cancelRegistration_eventsB], rfl⟩,
    participants_unique eventsB _ meetupsC _ eventsUnique_eventsB meetupsUnique_meetupsC⟩

/-! ## Joins that wait for approval -/

theorem le_foldr_max (l : List ℕ) (x : ℕ) (h : x ∈ l) : x ≤ l.foldr max 0 := by
  induction l with
  | nil => simp at h
  | cons a l ih =>
    simp only [List.foldr_cons]
    rcases List.mem_cons.mp h with rfl | h'
    · exact le_max_left _ _
    · exact le_trans (ih h') (le_max_right _ _)

theorem newAttendee_of_approval (meetup : Meetup) (user : UserId) (now : Timestamp)
    (hra : meetup.requiresApproval = true) :
    newAttendee meetup user now = Attendee.mk user now .maybe := by
  simp [newAttendee, hra]

/-- On a meetup that requires approval, users without an entry who join one
after the other are all accepted, and each is appended as `maybe`. -/
theorem joins_under_approval (id : MeetupId) (now : Timestamp) (users : List UserId) :
    ∀ (meetups : Meetups) (meetup : Meetup), meetups id = some meetup →
      meetup.isActive = true → meetup.requiresApproval = true → meetup.activeCount = 0 →
      0 < meetup.maxAttendees → now ≤ meetup.date → users.Nodup →
      (∀ u ∈ users, ∀ att ∈ meetup.attendees, att.user ≠ u) →
      joinsSucceed meetups id now users = true ∧
        runMeetups meetups (users.map fun u => MeetupOp.join id u now) id =
          some { meetup with
            attendees := meetup.attendees ++ users.map fun u => Attendee.mk u now .maybe } := by
  induction users with
  | nil =>
    intro meetups meetup he _ _ _ _ _ _ _
    refine ⟨rfl, ?_⟩
    simp [runMeetups, he]
  | cons u us ih =>
    intro meetups meetup he ha hra hzero hmax hnow hnd hfresh
    have hok : ∃ saved, (joinMeetup meetups id u now).2 = .ok saved :=
      (joinMeetup_outcome meetups id u now meetup he ha).1.mpr
        ⟨hnow, hfresh u (List.mem_cons_self _ _), by rw [hzero]; exact_mod_cast hmax⟩
    obtain ⟨saved, hs⟩ := hok
    obtain ⟨-, hsaved, hstore⟩ := joinMeetup_ok_inv he hs
    rw [newAttendee_of_approval meetup u now hra] at hsaved
    have hget : (joinMeetup meetups id u now).1 id = some saved := by
      rw [hstore]; simp
    have hzero' : saved.activeCount = 0 := by
      rw [hsaved]
      simp only [Meetup.activeCount] at hzero ⊢
      simp [List.filter_append, hzero]
    have hfresh' : ∀ v ∈ us, ∀ att ∈ saved.attendees, att.user ≠ v := by
      intro v hv att hatt
      rw [hsaved] at hatt
      rcases List.mem_append.mp hatt with h1 | h1
      · exact hfresh v (List.mem_cons_of_mem _ hv) att h1
      · simp only [List.mem_singleton] at h1
        subst h1
        intro huv
        exact (List.nodup_cons.mp hnd).1 (by rw [← huv] at hv; exact hv)
    obtain ⟨h1, h2⟩ := ih (joinMeetup meetups id u now).1 saved hget
      (by rw [hsaved]; exact ha) (by rw [hsaved]; exact hra) hzero'
      (by rw [hsaved]; exact hmax) (by rw [hsaved]; exact hnow) (List.nodup_cons.mp hnd).2 hfresh'
    refine ⟨?_, ?_⟩
    · simp only [joinsSucceed, hs, h1, Except.toBool, Bool.and_self]
    · have hstep : runMeetups meetups ((u :: us).map fun u => MeetupOp.join id u now) =
          runMeetups (joinMeetup meetups id u now).1 (us.map fun u => MeetupOp.join id u now) :=
        rfl
      rw [hstep, h2, hsaved]
      simp

/-- As many distinct users without an entry as wanted. -/
theorem fresh_users (meetup : Meetup) (n : ℕ) :
    ∃ users : List UserId, users.length = n ∧ users.Nodup ∧
      ∀ u ∈ users, ∀ att ∈ meetup.attendees, att.user ≠ u := by
  refine ⟨List.range' (freshUser (meetup.attendees.map fun att => att.user)) n,
    List.length_range' _ _ _, List.nodup_range' _ _, ?_⟩
  intro u hu att hatt heq
  have h1 := (List.mem_range'_1.mp hu).1
  have h2 := le_foldr_max (meetup.attendees.map fun att => att.user) att.user
    (List.mem_map.mpr ⟨att, hatt, rfl⟩)
  unfold freshUser at h1
  rw [heq] at h2
  have h3 : u + 1 ≤ u := le_trans (Nat.add_le_add_right h2 1) h1
  exact absurd h3 (Nat.not_succ_le_self u)

/-- C29: on an active meetup that requires approval, a successful join appends
a `maybe` entry and leaves the number of `joined` attendees unchanged.  So when
the meetup has no `joined` attendee, lies in the future and has a positive
`maxAttendees`, for every `n` there are `n` distinct users whose joins, one
after the other, all succeed, leaving a list `n` entries longer with still no
`joined` attendee; in particular the list can become longer than
`maxAttendees`. -/
theorem approval_joins_unbounded (meetups : Meetups) (id : MeetupId) (meetup : Meetup)
    (now : Timestamp) (he : meetups id = some meetup) (ha : meetup.isActive = true)
    (hra : meetup.requiresApproval = true) (hzero : meetup.activeCount = 0)
    (hmax : 0 < meetup.maxAttendees) (hnow : now ≤ meetup.date) :
    (∀ user saved, (joinMeetup meetups id user now).2 = .ok saved →
        saved.attendees = meetup.attendees ++ [Attendee.mk user now .maybe] ∧
        saved.activeCount = meetup.activeCount) ∧
      (∀ n : ℕ, ∃ users : List UserId, users.length = n ∧ users.Nodup ∧
        joinsSucceed meetups id now users = true ∧
        ∃ final, runMeetups meetups (users.map fun u => MeetupOp.join id u now) id =
            some final ∧
          final.attendees.length = meetup.attendees.length + n ∧ final.activeCount = 0) ∧
      (∃ (users : List UserId) (final : Meetup), users.Nodup ∧
        joinsSucceed meetups id now users = true ∧
        runMeetups meetups (users.map fun u => MeetupOp.join id u now) id = some final ∧
        meetup.maxAttendees < (final.attendees.length : ℤ)) := by
  have hall : ∀ n : ℕ, ∃ users : List UserId, users.length = n ∧ users.Nodup ∧
      joinsSucceed meetups id now users = true ∧
      ∃ final, runMeetups meetups (users.map fun u => MeetupOp.join id u now) id =
          some final ∧
        final.attendees.length = meetup.attendees.length + n ∧ final.activeCount = 0 := by
    intro n
    obtain ⟨users, hlen, hnd, hfresh⟩ := fresh_users meetup n
    obtain ⟨h1, h2⟩ := joins_under_approval id now users meetups meetup he ha hra hzero hmax
      hnow hnd hfresh
    refine ⟨users, hlen, hnd, h1, _, h2, by simp [hlen], ?_⟩
    simp only [Meetup.activeCount] at hzero ⊢
    simp [List.filter_append, hzero]
  refine ⟨?_, hall, ?_⟩
  · intro user saved hs
    obtain ⟨-, hsaved, -⟩ := joinMeetup_ok_inv he hs
    rw [newAttendee_of_approval meetup user now hra] at hsaved
    rw [hsaved]
    refine ⟨rfl, ?_⟩
    simp [Meetup.activeCount, List.filter_append]
  · obtain ⟨users, -, hnd, hs, final, hf, hlen, -⟩ := hall (meetup.maxAttendees.toNat + 1)
    refine ⟨users, final, hnd, hs, hf, ?_⟩
    rw [hlen]
    push_cast
    have := Int.self_le_toNat meetup.maxAttendees
    omega

theorem approval_joins_unbounded_witness :
    (meetupsD 1 = some meetupB ∧ meetupB.isActive = true ∧ meetupB.requiresApproval = true ∧
      meetupB.activeCount = 0 ∧ 0 < meetupB.maxAttendees ∧ (5000 : Timestamp) ≤ meetupB.date ∧
      joinsSucceed meetupsD 1 5000 [3, 4, 5] = true ∧
      ((runMeetups meetupsD [.join 1 3 5000, .join 1 4 5000, .join 1 5 5000] 1).map
        fun meetup => (meetup.attendees.length, meetup.maxAttendees)) = some (3, 2)) ∧
    ((∀ user saved, (joinMeetup meetupsD 1 user 5000).2 = .ok saved →
        saved.attendees = meetupB.attendees ++ [Attendee.mk user 5000 .maybe] ∧
        saved.activeCount = meetupB.activeCount) ∧
      (∀ n : ℕ, ∃ users : List UserId, users.length = n ∧ users.Nodup ∧
        joinsSucceed meetupsD 1 5000 users = true ∧
        ∃ final, runMeetups meetupsD (users.map fun u => MeetupOp.join 1 u 5000) 1 =
            some final ∧
          final.attendees.length = meetupB.attendees.length + n ∧ final.activeCount = 0) ∧
      (∃ (users : List UserId) (final : Meetup), users.Nodup ∧
        joinsSucceed meetupsD 1 5000 users = true ∧
        runMeetups meetupsD (users.map fun u => MeetupOp.join 1 u 5000) 1 = some final ∧
        meetupB.maxAttendees < (final.attendees.length : ℤ))) :=
  ⟨⟨rfl, rfl, rfl, rfl, by decide, by decide, by decide, by decide⟩,
    approval_joins_unbounded meetupsD 1 meetupB 5000 rfl rfl rfl rfl (by decide) (by decide)⟩

/-! ## Properties of the payment bridge -/

theorem updateFirst_split (filter : Order → Bool) (change : Order → Order)
    (pre post : List Order) (order : Order) (ho : filter order = true)
    (hpre : ∀ o ∈ pre, filter o = false) :
    updateFirst filter change (pre ++ order :: post) =
      some (change order, pre ++ change order :: post) := by
  induction pre with
  | nil => simp [updateFirst, ho]
  | cons a pre ih =>
    have ha : filter a = false := hpre a (List.mem_cons_self _ _)
    have ih' := ih fun o ho' => hpre o (List.mem_cons_of_mem _ ho')
    simp [updateFirst, ha, ih']

theorem updateFirst_none (filter : Order → Bool) (change : Order → Order) (l : List Order)
    (h : ∀ o ∈ l, filter o = false) : updateFirst filter change l = none := by
  induction l with
  | nil => rfl
  | cons a l ih =>
    have ha : filter a = false := h a (List.mem_cons_self _ _)
    simp [updateFirst, ha, ih fun o ho => h o (List.mem_cons_of_mem _ ho)]

/-- Either no document matches, or the collection splits at the first match. -/
theorem updateFirst_cases (filter : Order → Bool) (l : List Order) :
    (∀ o ∈ l, filter o = false) ∨
      ∃ pre order post, l = pre ++ order :: post ∧ filter order = true ∧
        ∀ o ∈ pre, filter o = false := by
  induction l with
  | nil => exact Or.inl (by simp)
  | cons a l ih =>
    by_cases ha : filter a = true
    · exact Or.inr ⟨[], a, l, rfl, ha, by simp⟩
    · have ha' : filter a = false := by simpa using ha
      rcases ih with h | ⟨pre, order, post, hl, ho, hpre⟩
      · left
        intro o ho
        rcases List.mem_cons.mp ho with rfl | h'
        · exact ha'
        · exact h o h'
      · right
        refine ⟨a :: pre, order, post, by rw [hl]; rfl, ho, ?_⟩
        intro o ho'
        rcases List.mem_cons.mp ho' with rfl | h'
        · exact ha'
        · exact hpre o h'

/-- Applying the same find-and-update twice gives what applying it once gives,
when the change keeps the filter's verdict and repeating it changes nothing. -/
theorem updateFirst_idem (filter : Order → Bool) (change : Order → Order)
    (hf : ∀ o, filter (change o) = filter o) (hc : ∀ o, change (change o) = change o)
    (l : List Order) :
    (updateFirst filter change l = none) ∨
      ∃ saved l', updateFirst filter change l = some (saved, l') ∧
        updateFirst filter change l' = some (saved, l') := by
  rcases updateFirst_cases filter l with h | ⟨pre, order, post, hl, ho, hpre⟩
  · exact Or.inl (updateFirst_none filter change l h)
  · right
    refine ⟨change order, pre ++ change order :: post, ?_, ?_⟩
    · rw [hl, updateFirst_split filter change pre post order ho hpre]
    · rw [updateFirst_split filter change pre post (change order) (by rw [hf, ho]) hpre, hc]

theorem store_orders_eq (s : Store) : ({ s with orders := s.orders } : Store) = s := by
  cases s
  rfl

/-- C25: a webhook request whose signature is not accepted is answered with
the signature error (400) and the store is returned as it was, whatever event
type and payment id the body carries. -/
theorem webhook_bad_signature (s : Store) (req : WebhookRequest)
    (h : req.signatureValid = false) :
    webhook s req = (s, .error .webhookSignature) ∧
      (webhook s req).1.orders = s.orders ∧ (webhook s req).1.products = s.products := by
  have : webhook s req = (s, .error .webhookSignature) := by
    unfold webhook constructEvent
    simp [h]
  rw [this]
  exact ⟨rfl, rfl, rfl⟩

theorem webhook_bad_signature_witness :
    forgedP.signatureValid = false ∧
      (webhook storeP forgedP = (storeP, .error .webhookSignature) ∧
        (webhook storeP forgedP).1.orders = storeP.orders ∧
        (webhook storeP forgedP).1.products = storeP.products) :=
  ⟨rfl, webhook_bad_signature storeP forgedP rfl⟩

/-- The webhook handler on a verified `payment_intent.succeeded` event. -/
theorem webhook_succeeded (s : Store) (req : WebhookRequest)
    (hsig : req.signatureValid = true) (ht : req.event.type = "payment_intent.succeeded") :
    webhook s req =
      match updateFirst (fun order => order.paymentId = some req.event.paymentIntentId)
          markPaid s.orders with
      | none => (s, .ok ())
      | some (_, orders) => ({ s with orders := orders }, .ok ()) := by
  unfold webhook constructEvent
  simp only [hsig, if_true, ht]

/-- The webhook handler on a verified `payment_intent.payment_failed` event. -/
theorem webhook_failed (s : Store) (req : WebhookRequest)
    (hsig : req.signatureValid = true)
    (ht : req.event.type = "payment_intent.payment_failed") :
    webhook s req =
      match updateFirst (fun order => order.paymentId = some req.event.paymentIntentId)
          markFailed s.orders with
      | none => (s, .ok ())
      | some (_, orders) => ({ s with orders := orders }, .ok ()) := by
  unfold webhook constructEvent
  have hne : ¬ ("payment_intent.payment_failed" = "payment_intent.succeeded") := by decide
  simp only [hsig, if_true, ht, hne, if_false]

/-- C24: handling a verified `payment_intent.succeeded` notification twice
leaves the same store as handling it once, and both deliveries are answered
with the acknowledgement and no error.  When the order the notification
matches is already confirmed and paid, the store is left exactly as it was. -/
theorem webhook_idempotent (s : Store) (req : WebhookRequest)
    (hsig : req.signatureValid = true) (ht : req.event.type = "payment_intent.succeeded") :
    (webhook (webhook s req).1 req).1 = (webhook s req).1 ∧
      (webhook s req).2 = .ok () ∧ (webhook (webhook s req).1 req).2 = .ok () ∧
      (∀ pre order post, s.orders = pre ++ order :: post →
        order.paymentId = some req.event.paymentIntentId →
        (∀ o ∈ pre, o.paymentId ≠ some req.event.paymentIntentId) →
        order.status = "confirmed" → order.paymentStatus = "paid" →
        (webhook s req).1 = s) := by
  have hidem := updateFirst_idem
    (fun order => decide (order.paymentId = some req.event.paymentIntentId)) markPaid
    (fun _ => rfl) (fun _ => rfl) s.orders
  have hrun := webhook_succeeded s req hsig ht
  have hfirst : (webhook s req).2 = .ok () := by
    rw [hrun]
    split <;> rfl
  refine ⟨?_, hfirst, ?_, ?_⟩
  · rcases hidem with hnone | ⟨saved, l', h1, h2⟩
    · have hs : webhook s req = (s, .ok ()) := by rw [hrun, hnone]
      rw [hs]
      simp only
      rw [hs]
    · have hs : webhook s req = ({ s with orders := l' }, .ok ()) := by rw [hrun, h1]
      rw [hs]
      simp only
      rw [webhook_succeeded _ req hsig ht]
      simp only [h2]
  · rw [webhook_succeeded _ req hsig ht]
    split <;> rfl
  · intro pre order post hl hp hpre hst hpay
    have hsame : markPaid order = order := by
      cases order
      simp only at hst hpay
      subst hst hpay
      rfl
    rw [hrun, hl, updateFirst_split _ markPaid pre post order (by simpa using hp)
      (fun o ho => by simpa using hpre o ho), hsame]
    simp only
    rw [← hl]

theorem webhook_idempotent_witness :
    ((succeededP "pi_1").signatureValid = true ∧
      (succeededP "pi_1").event.type = "payment_intent.succeeded") ∧
    ((webhook (webhook storeP (succeededP "pi_1")).1 (succeededP "pi_1")).1 =
        (webhook storeP (succeededP "pi_1")).1 ∧
      (webhook storeP (succeededP "pi_1")).2 = .ok () ∧
      (webhook (webhook storeP (succeededP "pi_1")).1 (succeededP "pi_1")).2 = .ok () ∧
      (∀ pre order post, storeP.orders = pre ++ order :: post →
        order.paymentId = some (succeededP "pi_1").event.paymentIntentId →
        (∀ o ∈ pre, o.paymentId ≠ some (succeededP "pi_1").event.paymentIntentId) →
        order.status = "confirmed" → order.paymentStatus = "paid" →
        (webhook storeP (succeededP "pi_1")).1 = storeP)) :=
  ⟨⟨rfl, rfl⟩, webhook_idempotent storeP (succeededP "pi_1") rfl rfl⟩

/-- C23: the confirm handler changes the store only when the processor reports
the intent as `succeeded`.  For every other reported status a request that
passed the validator is answered with payment-not-completed and the store is
returned as it was; an order returned by the handler is confirmed and paid, and
was so marked because the processor reported `succeeded`. -/
theorem confirmPayment_requires_succeeded (processor : Processor) (s : Store)
    (user : UserId) (paymentIntentId : String) :
    (processor paymentIntentId ≠ some "succeeded" →
        (confirmPayment processor s user paymentIntentId).1 = s) ∧
      (∀ status, paymentIntentId ≠ "" → processor paymentIntentId = some status →
        status ≠ "succeeded" →
        confirmPayment processor s user paymentIntentId = (s, .error .paymentNotCompleted)) ∧
      (∀ saved, (confirmPayment processor s user paymentIntentId).2 = .ok saved →
        processor paymentIntentId = some "succeeded" ∧ saved.status = "confirmed" ∧
          saved.paymentStatus = "paid") ∧
      (confirmPayment processor s user paymentIntentId).1.products = s.products := by
  refine ⟨?_, ?_, ?_, ?_⟩
  · intro hne
    unfold confirmPayment
    split
    · rfl
    · split
      · rfl
      · next status hst =>
        have hs : status ≠ "succeeded" := by
          intro h
          exact hne (by rw [hst, h])
        simp [hs]
  · intro status hv hst hne
    unfold confirmPayment
    simp [hv, hst, hne]
  · intro saved h
    unfold confirmPayment at h
    split at h
    · simp at h
    · split at h
      · simp at h
      · next status hst =>
        split at h
        · simp at h
        · next hs =>
          have hs' : status = "succeeded" := by simpa using hs
          rcases updateFirst_cases
            (fun order => decide (order.paymentId = some paymentIntentId) && decide (order.user = user))
            s.orders with hnone | ⟨pre, order, post, hl, ho, hpre⟩
          · rw [updateFirst_none _ markPaid s.orders hnone] at h
            simp at h
          · rw [hl, updateFirst_split _ markPaid pre post order ho hpre] at h
            simp only [Except.ok.injEq] at h
            subst h
            exact ⟨by rw [hst, hs'], rfl, rfl⟩
  · unfold confirmPayment
    split
    · rfl
    · split
      · rfl
      · split
        · rfl
        · split <;> rfl

theorem confirmPayment_requires_succeeded_witness :
    ((processorP "pi_2" ≠ some "succeeded" →
        (confirmPayment processorP storeP 7 "pi_2").1 = storeP) ∧
      (∀ status, "pi_2" ≠ "" → processorP "pi_2" = some status →
        status ≠ "succeeded" →
        confirmPayment processorP storeP 7 "pi_2" = (storeP, .error .paymentNotCompleted)) ∧
      (∀ saved, (confirmPayment processorP storeP 7 "pi_2").2 = .ok saved →
        processorP "pi_2" = some "succeeded" ∧ saved.status = "confirmed" ∧
          saved.paymentStatus = "paid") ∧
      (confirmPayment processorP storeP 7 "pi_2").1.products = storeP.products) ∧
    (confirmPayment processorP storeP 7 "pi_2").2 = .error .paymentNotCompleted ∧
    ((confirmPayment processorP storeP 7 "pi_1").1.orders.map fun o =>
      (o.status, o.paymentStatus)) = [("confirmed", "paid"), ("cancelled", "pending")] :=
  ⟨confirmPayment_requires_succeeded processorP storeP 7 "pi_2", rfl, by decide⟩

/-- C27: the payment paths do not look at the order's current status.  For the
first order carrying the payment id, whatever its status and payment status, a
verified `payment_intent.succeeded` webhook, and a confirmation by the order's
owner for which the processor reports `succeeded`, store it with status
confirmed and payment status paid; a verified `payment_intent.payment_failed`
webhook stores it with payment status failed and its status untouched.  In all
three cases the other orders and every product are left as they were. -/
theorem payment_ignores_status (s : Store) (pre post : List Order) (order : Order)
    (paymentIntentId : String) (hl : s.orders = pre ++ order :: post)
    (hp : order.paymentId = some paymentIntentId)
    (hpre : ∀ o ∈ pre, o.paymentId ≠ some paymentIntentId) :
    (webhook s (succeededP paymentIntentId) =
        ({ s with orders :=
            pre ++ { order with paymentStatus := "paid", status := "confirmed" } :: post },
          .ok ())) ∧
      (∀ processor : Processor, paymentIntentId ≠ "" →
        processor paymentIntentId = some "succeeded" →
        confirmPayment processor s order.user paymentIntentId =
          ({ s with orders :=
              pre ++ { order with paymentStatus := "paid", status := "confirmed" } :: post },
            .ok { order with paymentStatus := "paid", status := "confirmed" })) ∧
      (webhook s (failedP paymentIntentId) =
        ({ s with orders := pre ++ { order with paymentStatus := "failed" } :: post },
          .ok ())) ∧
      (∀ req : WebhookRequest, (webhook s req).1.products = s.products) := by
  have hpre' : ∀ o ∈ pre, decide (o.paymentId = some paymentIntentId) = false := by
    intro o ho
    simpa using hpre o ho
  have hp' : decide (order.paymentId = some paymentIntentId) = true := by simpa using hp
  refine ⟨?_, ?_, ?_, ?_⟩
  · rw [webhook_succeeded _ _ rfl rfl]
    have e1 : (succeededP paymentIntentId).event.paymentIntentId = paymentIntentId := rfl
    simp only [hl, e1]
    rw [updateFirst_split _ markPaid pre post order hp' hpre']
    rfl
  · intro processor hv hs
    unfold confirmPayment
    simp only [hv, if_false, hs, ne_eq, not_true_eq_false, hl]
    rw [updateFirst_split _ markPaid pre post order (by simp [hp])
      (fun o ho => by simp [hpre o ho])]
    rfl
  · rw [webhook_failed _ _ rfl rfl]
    have e1 : (failedP paymentIntentId).event.paymentIntentId = paymentIntentId := rfl
    simp only [hl, e1]
    rw [updateFirst_split _ markFailed pre post order hp' hpre']
    rfl
  · intro req
    unfold webhook
    split
    · rfl
    · split
      · split <;> rfl
      · split
        · split <;> rfl
        · rfl

theorem payment_ignores_status_witness :
    (storeP.orders = [orderP] ++ orderQ :: [] ∧ orderQ.paymentId = some "pi_2" ∧
      (∀ o ∈ [orderP], o.paymentId ≠ some "pi_2") ∧ orderQ.status = "cancelled" ∧
      (storeCancelled.orders.map fun o => (o.status, o.paymentStatus, o.paymentId)) =
        [("cancelled", "pending", some "pi_1")] ∧
      ((storeCancelled.products 1).map fun p => p.stock) =
        ((store0.products 1).map fun p => p.stock) ∧
      ((webhook storeCancelled (succeededP "pi_1")).1.orders.map fun o =>
        (o.status, o.paymentStatus)) = [("confirmed", "paid")] ∧
      (((webhook storeCancelled (succeededP "pi_1")).1.products 1).map fun p => p.stock) =
        ((store0.products 1).map fun p => p.stock)) ∧
    ((webhook storeP (succeededP "pi_2") =
        ({ storeP with orders :=
            [orderP] ++ { orderQ with paymentStatus := "paid", status := "confirmed" } :: [] },
          .ok ())) ∧
      (∀ processor : Processor, "pi_2" ≠ "" →
        processor "pi_2" = some "succeeded" →
        confirmPayment processor storeP orderQ.user "pi_2" =
          ({ storeP with orders :=
              [orderP] ++ { orderQ with paymentStatus := "paid", status := "confirmed" } :: [] },
            .ok { orderQ with paymentStatus := "paid", status := "confirmed" })) ∧
      (webhook storeP (failedP "pi_2") =
        ({ storeP with orders := [orderP] ++ { orderQ with paymentStatus := "failed" } :: [] },
          .ok ())) ∧
      (∀ req : WebhookRequest, (webhook storeP req).1.products = storeP.products)) :=
  ⟨⟨rfl, rfl, by decide, rfl, by decide, by decide, by decide, by decide⟩,
    payment_ignores_status storeP [orderP] [] orderQ "pi_2" rfl rfl (by decide)⟩

/-! ## Offer validation and the amounts supplied by the request -/

theorem populateProducts_congr (products products' : Catalog) (ids : List ProductId)
    (h : ∀ id, (products id).isSome = (products' id).isSome) :
    populateProducts products ids = populateProducts products' ids := by
  unfold populateProducts
  exact List.filter_congr fun id _ => h id

theorem validateRequestOk_reqE : validateRequestOk reqE = true := by
  simp [validateRequestOk, reqE, notEmptyTrimmed]
  norm_num

theorem validateOffer_reqE :
    validateOffer cat0 [offerA] 7 1500 reqE = .ok { respA with discount := 2.5 } := by
  rw [validateOffer_of_found cat0 _ 7 1500 reqE offerA validateRequestOk_reqE (by rfl)]
  have h1 : offerA.isValid 1500 = true := by rfl
  have h2 : offerA.canUserUse 7 1500 = true := by rfl
  have h3 : ¬ reqE.cartTotal < offerA.minimumOrderAmount := by
    simp only [reqE, offerA]; norm_num
  have h4 : applicableItems (populateProducts cat0 offerA.applicableProducts)
      offerA.applicableCategories reqE.cartItems = reqE.cartItems := by rfl
  have h5 : reqE.cartItems ≠ [] := by decide
  have h6 : applyMaximum offerA (typeDiscount offerA (applicableTotal reqE.cartItems)) =
      2.5 := by
    simp [applyMaximum, typeDiscount, applicableTotal, offerA, reqE]
    norm_num
  simp only [h1, h2, h3, h4, h5, h6, if_false, Bool.true_eq_false]
  rw [roundDiscount_of_int 250 2.5 (by norm_num)]
  simp [respA, offerA]
  norm_num

/-- C28: offer validation trusts the amounts the request supplies.  Its outcome
does not depend on the prices or the stock in the catalog: two catalogs in
which the same products exist give the same answer.  The minimum-order check
reads `cartTotal` and not the cart items: two requests with the same code and
the same `cartTotal` that pass the validators are rejected for the minimum
order together or not at all.  So a request whose items sum to 12.50, below the
minimum order amount 25, is accepted because it states a `cartTotal` of
37.50. -/
theorem validateOffer_trusts_request (offers : List Offer) (user : UserId) (now : Timestamp) :
    (∀ (products products' : Catalog) (req : ValidateRequest),
        (∀ id, (products id).isSome = (products' id).isSome) →
        validateOffer products offers user now req =
          validateOffer products' offers user now req) ∧
      (∀ (products : Catalog) (req req' : ValidateRequest), req.code = req'.code →
        req.cartTotal = req'.cartTotal → validateRequestOk req = true →
        validateRequestOk req' = true →
        ((∃ m, validateOffer products offers user now req = .error (.belowMinimum m)) ↔
          ∃ m, validateOffer products offers user now req' = .error (.belowMinimum m))) ∧
      ((reqE.cartItems.map fun item => item.price * (item.quantity : ℚ)).sum <
          offerA.minimumOrderAmount ∧
        offerA.minimumOrderAmount ≤ reqE.cartTotal ∧
        ∃ resp, validateOffer cat0 [offerA] 7 1500 reqE = .ok resp) := by
  refine ⟨?_, ?_, ?_, ?_, ?_⟩
  · intro products products' req h
    unfold validateOffer
    simp only [populateProducts_congr products products' _ h]
  · intro products req req' hcode htotal hv hv'
    cases hf : findOffer offers req.code with
    | none =>
      have hf' : findOffer offers req'.code = none := by rw [← hcode, hf]
      have e1 : validateOffer products offers user now req = .error .invalidCode := by
        simp [validateOffer, hv, hf]
      have e2 : validateOffer products offers user now req' = .error .invalidCode := by
        simp [validateOffer, hv', hf']
      rw [e1, e2]
    | some offer =>
      have hf' : findOffer offers req'.code = some offer := by rw [← hcode, hf]
      rw [validateOffer_of_found products offers user now req offer hv hf,
        validateOffer_of_found products offers user now req' offer hv' hf', ← htotal]
      by_cases h1 : offer.isValid now = false
      · simp [h1]
      by_cases h2 : offer.canUserUse user now = false
      · simp [h1, h2]
      by_cases h3 : req.cartTotal < offer.minimumOrderAmount
      · simp [h1, h2, h3]
      · rw [if_neg h1, if_neg h2, if_neg h3, if_neg h1, if_neg h2, if_neg h3]
        constructor
        · rintro ⟨m, hm⟩
          split_ifs at hm
          simp at hm
        · rintro ⟨m, hm⟩
          split_ifs at hm
          simp at hm
  · simp [reqE, offerA]
    norm_num
  · simp only [reqE, offerA]
    norm_num
  · exact ⟨_, validateOffer_reqE⟩

theorem validateOffer_trusts_request_witness :
    (validateOffer cat0 [offerA] 7 1500 reqE = validateOffer cat1 [offerA] 7 1500 reqE) ∧
    ((∀ (products products' : Catalog) (req : ValidateRequest),
        (∀ id, (products id).isSome = (products' id).isSome) →
        validateOffer products [offerA] 7 1500 req =
          validateOffer products' [offerA] 7 1500 req) ∧
      (∀ (products : Catalog) (req req' : ValidateRequest), req.code = req'.code →
        req.cartTotal = req'.cartTotal → validateRequestOk req = true →
        validateRequestOk req' = true →
        ((∃ m, validateOffer products [offerA] 7 1500 req = .error (.belowMinimum m)) ↔
          ∃ m, validateOffer products [offerA] 7 1500 req' = .error (.belowMinimum m))) ∧
      ((reqE.cartItems.map fun item => item.price * (item.quantity : ℚ)).sum <
          offerA.minimumOrderAmount ∧
        offerA.minimumOrderAmount ≤ reqE.cartTotal ∧
        ∃ resp, validateOffer cat0 [offerA] 7 1500 reqE = .ok resp)) :=
  ⟨(validateOffer_trusts_request [offerA] 7 1500).1 cat0 cat1 reqE (by
      intro id
      simp only [cat0, cat1]
      split_ifs <;> rfl),
    validateOffer_trusts_request [offerA] 7 1500⟩

/-! ## The client cart and the server subtotal -/

theorem foldl_add_eq_sum_int {α : Type} (f : α → ℤ) (l : List α) (a : ℤ) :
    l.foldl (fun count x => count + f x) a = a + (l.map f).sum := by
  induction l generalizing a with
  | nil => simp
  | cons x l ih => simp [ih, add_assoc]

/-- The totals of the cart written as sums. -/
theorem calculateTotals_eq (state : CartState) :
    (calculateTotals state).total =
        (state.items.map fun item =>
          (item.price +
              (item.customizations.map fun custom => custom.additionalCost.getD 0).sum) *
            (item.quantity : ℚ)).sum ∧
      (calculateTotals state).itemCount = (state.items.map fun item => item.quantity).sum ∧
      (calculateTotals state).items = state.items := by
  refine ⟨?_, ?_, rfl⟩
  · simp only [calculateTotals]
    rw [foldl_add_eq_sum (fun item : CartEntry =>
      (item.price + item.customizations.foldl
        (fun customSum custom => customSum + custom.additionalCost.getD 0) 0) *
        (item.quantity : ℚ)) state.items 0]
    rw [zero_add]
    congr 1
    apply List.map_congr_left
    intro item _
    rw [foldl_add_eq_sum (fun custom : Customization => custom.additionalCost.getD 0)
      item.customizations 0, zero_add]
  · simp only [calculateTotals]
    rw [foldl_add_eq_sum_int (fun item : CartEntry => item.quantity) state.items 0, zero_add]

theorem createOrder_reqCartA : (createOrder store0 7 reqCartA).2 = .ok order0 := by
  simp [createOrder, validationOk, notEmptyTrimmed, reqCartA, cartA, CartEntry.toRequestItem,
    addr0, store0, cat0, processItems, saveProduct, buildOrder, customizationCost,
    Function.update, order0, defaultStatus, defaultPaymentStatus]
  norm_num

/-- C30: for a cart whose items each carry the catalog price of their product,
the total computed by `CALCULATE_TOTALS` is the sum over the items of price
plus additional costs (a missing one counting as 0) times quantity; it equals
the sum of the per-item costs of the order pipeline for the same products,
quantities and customizations lists, and hence the subtotal of every order the
pipeline creates from them; `itemCount` is the sum of the item quantities, and
the items are left as they are. -/
theorem cart_total_eq_subtotal (state : CartState) (s : Store)
    (hprice : ∀ item ∈ state.items,
      ∃ p, s.products item.product = some p ∧ p.price = item.price) :
    (∀ (user : UserId) (shippingAddress : ShippingAddress) (o : Order),
        (createOrder s user
          { items := state.items.map CartEntry.toRequestItem,
            shippingAddress := shippingAddress }).2 = .ok o →
        (calculateTotals state).total = o.subtotal) ∧
      (calculateTotals state).total =
        ((state.items.map CartEntry.toRequestItem).map (lineTotal s.products)).sum ∧
      (calculateTotals state).total =
        (state.items.map fun item =>
          (item.price +
              (item.customizations.map fun custom => custom.additionalCost.getD 0).sum) *
            (item.quantity : ℚ)).sum ∧
      (calculateTotals state).itemCount = (state.items.map fun item => item.quantity).sum ∧
      (calculateTotals state).items = state.items := by
  obtain ⟨htotal, hcount, hitems⟩ := calculateTotals_eq state
  have hline : (calculateTotals state).total =
      ((state.items.map CartEntry.toRequestItem).map (lineTotal s.products)).sum := by
    rw [htotal, List.map_map]
    congr 1
    apply List.map_congr_left
    intro item hitem
    obtain ⟨p, hp, hpp⟩ := hprice item hitem
    simp [lineTotal, unitPrice, CartEntry.toRequestItem, hp, hpp]
  refine ⟨?_, hline, htotal, hcount, hitems⟩
  intro user shippingAddress o h
  obtain ⟨ho, -, -⟩ := createOrder_ok_eq h
  rw [hline, ho]
  rfl

theorem cart_total_eq_subtotal_witness :
    ((∀ item ∈ cartA.items, ∃ p, store0.products item.product = some p ∧ p.price = item.price) ∧
      (createOrder store0 7
        { items := cartA.items.map CartEntry.toRequestItem, shippingAddress := addr0 }).2 =
        .ok order0) ∧
    ((∀ (user : UserId) (shippingAddress : ShippingAddress) (o : Order),
        (createOrder store0 user
          { items := cartA.items.map CartEntry.toRequestItem,
            shippingAddress := shippingAddress }).2 = .ok o →
        (calculateTotals cartA).total = o.subtotal) ∧
      (calculateTotals cartA).total =
        ((cartA.items.map CartEntry.toRequestItem).map (lineTotal store0.products)).sum ∧
      (calculateTotals cartA).total =
        (cartA.items.map fun item =>
          (item.price +
              (item.customizations.map fun custom => custom.additionalCost.getD 0).sum) *
            (item.quantity : ℚ)).sum ∧
      (calculateTotals cartA).itemCount = (cartA.items.map fun item => item.quantity).sum ∧
      (calculateTotals cartA).items = cartA.items) :=
  have hprice : ∀ item ∈ cartA.items,
      ∃ p, store0.products item.product = some p ∧ p.price = item.price := by
    intro item hitem
    simp only [cartA, List.mem_cons, List.mem_singleton, List.not_mem_nil, or_false] at hitem
    rcases hitem with rfl | rfl
    · exact ⟨_, rfl, rfl⟩
    · exact ⟨_, rfl, rfl⟩
  ⟨⟨hprice, createOrder_reqCartA⟩, cart_total_eq_subtotal cartA store0 hprice⟩

end PlanetScribbles
